import Mathlib

/-!
Order and payment workflows of the ERP system.

A shallow embedding of `src/controllers/orderController.js`,
`src/services/paymentService.js` and of the model declarations under
`src/models/` they rely on.

Conventions of the embedding.

* A database is a record of tables, each table a list of rows.  A handler takes
  the database before the call and returns the database after it together with
  its answer.  A Sequelize transaction is a working copy: `commit` returns the
  working copy, `rollback` returns the database the handler started from.
* Primary keys are opaque keys, represented by natural numbers.
* `DECIMAL(10, 2)` amounts are integers counting hundredths (cents).
* Values the handlers draw from the outside (clock, generated identifiers, the
  outcome of the simulated gateway) are arguments.
* The `message` texts of the JSON answers are left out; `error` codes, status
  codes and payload fields are kept.
-/

namespace Erp

/-- Key by which a request names a row.  The primary keys are UUIDs, held as
positive natural numbers; a request may carry any string or number in the
place of a key, and the value 0 of the embedding stands for one that is no
UUID. -/
abbrev Id := Nat

/-- Whether a key received in a request is a UUID.  The value that is none is
the key of no row: a lookup with it finds nothing in the embedding, and in the
code the database refuses the query (`invalid input syntax for type uuid`), so
that `findByPk` and `findAll` throw a `SequelizeDatabaseError`. -/
def isUuid (key : Id) : Bool := key != 0

/-- Row of `users` (`src/models/User.js`), the columns the workflows read. -/
structure User where
  id : Id
  isActive : Bool
deriving DecidableEq

/-- Row of `products` (`src/models/Product.js`); `price` in cents. -/
structure Product where
  id : Id
  name : String
  price : Int
  stockQuantity : Int
  isActive : Bool
deriving DecidableEq

/-- Row of `orders` (`src/models/Order.js`); `totalAmount` in cents. -/
structure Order where
  id : Id
  userId : Id
  orderNumber : String
  totalAmount : Int
  status : String
  paymentStatus : String
  shippingAddress : Option String
  notes : Option String
  createdAt : Nat
  updatedAt : Nat
deriving DecidableEq

/-- Row of `order_items` (`src/models/OrderItem.js`); prices in cents. -/
structure OrderItem where
  id : Id
  orderId : Id
  productId : Id
  quantity : Int
  unitPrice : Int
  totalPrice : Int
deriving DecidableEq

/-- Row of `payments` (`src/models/Payment.js`); `amount` in cents, dates as
instants of the clock. -/
structure Payment where
  id : Id
  orderId : Id
  userId : Id
  amount : Int
  paymentMethod : String
  status : String
  transactionId : Option String
  processedAt : Option Nat
  transactionDate : Nat
  refundReason : Option String
  refundRequestedAt : Option Nat
  refundedAt : Option Nat
  refundTransactionId : Option String
  retryCount : Nat
  lastRetryAt : Option Nat
deriving DecidableEq

/-- The database: one list of rows per table. -/
structure Db where
  users : List User
  products : List Product
  orders : List Order
  orderItems : List OrderItem
  payments : List Payment
deriving DecidableEq

/-- JSON body of an answer, without its `message`. -/
inductive Body where
  | failure (error : String)
  | insufficientStock (id : Id) (name : String) (current_stock : Int)
      (requested_quantity : Int)
  | created (order_id : Id) (order_number : String) (total_amount : String)
      (status : String) (items_count : Nat) (created_at : Nat)
  | updated (order_id : Id) (status : String) (payment_status : String)
      (updated_at : Nat)
deriving DecidableEq

/-- The `error` field of a body, when it has one. -/
def Body.error? : Body → Option String
  | .failure e => some e
  | .insufficientStock _ _ _ _ => some "INSUFFICIENT_STOCK"
  | .created _ _ _ _ _ _ => none
  | .updated _ _ _ _ => none

/-- An HTTP answer: `res.status(code).json(body)`. -/
structure Response where
  status : Nat
  body : Body
deriving DecidableEq

/-- `Model.findByPk` on the orders table. -/
def findOrder (db : Db) (id : Id) : Option Order :=
  db.orders.find? (fun o => o.id == id)

/-- `Model.findByPk` on the users table. -/
def findUser (db : Db) (id : Id) : Option User :=
  db.users.find? (fun u => u.id == id)

/-- JavaScript truthiness of a request field that is absent or a string:
`undefined` and the empty string are falsy.  (Other falsy JSON values behave as
an absent field, other truthy ones as a string matching no table entry.) -/
def truthy : Option String → Bool
  | none => false
  | some s => s != ""

/-! ## `Order` model: declared validators -/

/-- Values of `Order.status`: `ENUM` and `isIn` of `src/models/Order.js`. -/
def orderStatuses : List String :=
  ["pending", "processing", "completed", "cancelled"]

/-- Values of `Order.paymentStatus`: `ENUM` and `isIn` of the model. -/
def orderPaymentStatuses : List String := ["pending", "paid", "failed"]

/-- The `updateData` object handed to `order.update`: the attributes of the
model it sets (keys that are no attribute of the model are dropped). -/
structure OrderPatch where
  status : Option String
  paymentStatus : Option String
deriving DecidableEq

/-- Whether every value the patch sets passes the validator of its attribute. -/
def OrderPatch.valid (u : OrderPatch) : Bool :=
  (match u.status with
   | none => true
   | some s => orderStatuses.contains s) &&
  (match u.paymentStatus with
   | none => true
   | some s => orderPaymentStatuses.contains s)

/-- Instance method `order.update(values)`: validates the values it sets and
fails with `SequelizeValidationError` when one is refused; otherwise the result
is the row as it is stored.  The row carries the new values, and in the column
`updated_at` the instant of the write when a value changes: `save` writes
nothing when none does.  The timestamp that `save` sets on the instance is the
attribute `updated_at` (`define.updatedAt` of `config/database.js`), so the
attribute `updatedAt` of the instance keeps the value it was loaded with. -/
def Order.update (o : Order) (u : OrderPatch) (now : Nat) : Except String Order :=
  if u.valid then
    let status := u.status.getD o.status
    let paymentStatus := u.paymentStatus.getD o.paymentStatus
    .ok { o with
      status := status
      paymentStatus := paymentStatus
      updatedAt := if status != o.status || paymentStatus != o.paymentStatus then now
                   else o.updatedAt }
  else .error "SequelizeValidationError"

/-- Write a row of `orders` back: `UPDATE orders SET ... WHERE id = row.id`. -/
def Db.putOrder (db : Db) (row : Order) : Db :=
  { db with orders := db.orders.map (fun o => if o.id == row.id then row else o) }

/-! ## `updateOrderStatus` (`src/controllers/orderController.js`, 295-359) -/

/-- Body of `PATCH /orders/:id/status`. -/
structure StatusUpdate where
  status : Option String
  payment_status : Option String
deriving DecidableEq

/-- The object `validStatusTransitions`, read at a key: `none` is `undefined`
(or an inherited property without `includes`), on which `.includes` throws. -/
def validStatusTransitions (current : String) : Option (List String) :=
  if current = "pending" then some ["processing", "cancelled"]
  else if current = "processing" then some ["completed", "cancelled"]
  else if current = "completed" then some []
  else if current = "cancelled" then some []
  else none

/-- Answer of the `catch` block of `updateOrderStatus`. -/
def updateStatusFailed : Response := ⟨500, .failure "INTERNAL_SERVER_ERROR"⟩

/-- Controller `updateOrderStatus`, with the clock as `now`. -/
def updateOrderStatus (db : Db) (id : Id) (req : StatusUpdate) (now : Nat) :
    Db × Response :=
  match findOrder db id with
  | none =>
    -- `findByPk` throws on an `id` that is no UUID
    if !isUuid id then (db, updateStatusFailed)
    else (db, ⟨404, .failure "ORDER_NOT_FOUND"⟩)
  | some order =>
    -- `status && !validStatusTransitions[order.status].includes(status)`
    let check : Except String Bool :=
      if truthy req.status then
        match validStatusTransitions order.status with
        | none => .error "TypeError"
        | some allowed => .ok (!allowed.contains (req.status.getD ""))
      else .ok false
    match check with
    | .error _ => (db, updateStatusFailed)
    | .ok true => (db, ⟨400, .failure "INVALID_STATUS_TRANSITION"⟩)
    | .ok false =>
      let updateData : OrderPatch :=
        { status := if truthy req.status then req.status else none
          paymentStatus :=
            if truthy req.payment_status then req.payment_status else none }
      match order.update updateData now with
      | .error _ => (db, updateStatusFailed)
      | .ok stored =>
        -- `updated_at: order.updatedAt` reads the value loaded by `findByPk`
        (db.putOrder stored,
          ⟨200, .updated order.id stored.status stored.paymentStatus order.updatedAt⟩)

/-! ## `createOrder` (`src/controllers/orderController.js`, 6-185) -/

/-- One entry of `products` in the body of `POST /orders`. -/
structure OrderLine where
  product_id : Id
  quantity : Int
deriving DecidableEq

/-- Body of `POST /orders`. -/
structure OrderRequest where
  user_id : Id
  products : List OrderLine
  shipping_address : Option String
  notes : Option String
deriving DecidableEq

/-- What `createOrder` draws from outside the database: the generated key and
number of the order, the generated keys of its items, the clock. -/
structure CreateEnv where
  orderId : Id
  orderNumber : String
  itemId : Nat → Id
  now : Nat

/-- An entry of the local array `orderItems` (lines 93-98). -/
structure ItemData where
  product_id : Id
  quantity : Int
  unit_price : Int
  total_price : Int
deriving DecidableEq

/-- `Number.prototype.toFixed(2)` on an amount held in cents. -/
def toFixed2 (cents : Int) : String :=
  let a := cents.natAbs
  let frac := a % 100
  (if cents < 0 then "-" else "") ++ toString (a / 100) ++ "." ++
    (if frac < 10 then "0" else "") ++ toString frac

/-- `Product.findAll` with `id` among `productIds` and `isActive: true`. -/
def findActiveProducts (db : Db) (productIds : List Id) : List Product :=
  db.products.filter (fun p => productIds.contains p.id && p.isActive)

/-- The `Map` filled by `dbProducts.forEach(p => productMap.set(p.id, p))`, as
its `get`: a later `set` on a key replaces the earlier one. -/
def productMap (dbProducts : List Product) : Id → Option Product :=
  dbProducts.foldl (fun m p => fun k => if k == p.id then some p else m k)
    (fun _ => none)

/-- The loop of lines 61-99 from a given line on, with the running
`totalAmount` and `orderItems`: it answers at the first line that fails. -/
def stockLoop (pm : Id → Option Product) :
    List OrderLine → Int → List ItemData → Except Response (Int × List ItemData)
  | [], totalAmount, orderItems => .ok (totalAmount, orderItems)
  | item :: rest, totalAmount, orderItems =>
    match pm item.product_id with
    | none => .error ⟨400, .failure "PRODUCT_NOT_FOUND"⟩
    | some product =>
      if product.stockQuantity < item.quantity then
        .error ⟨400, .insufficientStock product.id product.name
          product.stockQuantity item.quantity⟩
      else
        let itemTotal := product.price * item.quantity
        stockLoop pm rest (totalAmount + itemTotal)
          (orderItems ++ [⟨product.id, item.quantity, product.price, itemTotal⟩])

/-- The text-valued variables that line 10 of `createOrder` declares by
destructuring `req.body`, with their values.  (The other identifiers in scope
are `req`, `res`, `transaction`, `user_id`, `products`, `user`, `productIds`,
`dbProducts`, `productMap`, `totalAmount`, `orderItems` and the imports
`sequelize`, `User`, `Product`, `Order`, `OrderItem`, `Op`.) -/
def bodyVars (req : OrderRequest) : List (String × Option String) :=
  [("shipping_address", req.shipping_address), ("notes", req.notes)]

/-- Evaluation of an identifier: a name that is not declared throws. -/
def evalIdent (vars : List (String × Option String)) (name : String) :
    Except String (Option String) :=
  match vars.lookup name with
  | some v => .ok v
  | none => .error "ReferenceError"

/-- `Order.create` inside the transaction: the validators of the model, then
the insert with its unique keys (`id`, `order_number`). -/
def Order.create (db : Db) (row : Order) : Except String Db :=
  if row.orderNumber = "" || row.totalAmount < 0 ||
      !orderStatuses.contains row.status ||
      !orderPaymentStatuses.contains row.paymentStatus then
    .error "SequelizeValidationError"
  else if db.orders.any (fun o => o.id == row.id || o.orderNumber == row.orderNumber) then
    .error "SequelizeUniqueConstraintError"
  else .ok { db with orders := db.orders ++ [row] }

/-- The largest amount a `DECIMAL(10, 2)` column holds, 99999999.99, in cents. -/
def maxAmount : Int := 9999999999

/-- The largest value an `INTEGER` column holds. -/
def maxInteger : Int := 2147483647

/-- The attributes of `OrderItem` that an object handed to `OrderItem.create`
sets: `build` keeps the keys that name an attribute of the model and drops the
others; an attribute that is not set is `null`. -/
structure ItemValues where
  orderId : Option Id
  productId : Option Id
  quantity : Option Int
  unitPrice : Option Int
  totalPrice : Option Int
deriving DecidableEq

/-- The object `{orderId: order.id, ...item}` of lines 115-118 as `OrderItem`
reads it.  Its keys are `orderId`, `product_id`, `quantity`, `unit_price` and
`total_price`; the attributes of the model are `orderId`, `productId`,
`quantity`, `unitPrice` and `totalPrice` (`product_id`, `unit_price` and
`total_price` are their columns), so three of the keys set nothing. -/
def itemValues (orderId : Id) (item : ItemData) : ItemValues :=
  { orderId := some orderId, productId := none, quantity := some item.quantity
    unitPrice := none, totalPrice := none }

/-- `OrderItem.create` inside the transaction.  The attributes are
`allowNull: false`; the hooks of the model set `totalPrice` to
`quantity * unitPrice` when both are truthy; its validators ask
`quantity >= 1` and prices `>= 0`; the insert asks values that fit their
columns (within which the product is exact) and a fresh key. -/
def OrderItem.create (db : Db) (id : Id) (values : ItemValues) :
    Except String (Db × OrderItem) :=
  match values.orderId, values.productId, values.quantity, values.unitPrice with
  | some orderId, some productId, some quantity, some unitPrice =>
    let hooked : Option Int :=
      if quantity != 0 && unitPrice != 0 then some (quantity * unitPrice)
      else values.totalPrice
    match hooked with
    | none => .error "SequelizeValidationError"
    | some totalPrice =>
      if quantity < 1 || unitPrice < 0 || totalPrice < 0 then
        .error "SequelizeValidationError"
      else if maxInteger < quantity || maxAmount < unitPrice ||
          maxAmount < totalPrice then
        .error "SequelizeDatabaseError"
      else if db.orderItems.any (fun i => i.id == id) then
        .error "SequelizeUniqueConstraintError"
      else
        let row : OrderItem :=
          { id := id, orderId := orderId, productId := productId
            quantity := quantity, unitPrice := unitPrice, totalPrice := totalPrice }
        .ok ({ db with orderItems := db.orderItems ++ [row] }, row)
  | _, _, _, _ => .error "SequelizeValidationError"

/-- Lines 113-120: one `OrderItem.create` per entry of `orderItems`; the
`n`-th entry receives the key `itemId n`. -/
def createItems (itemId : Nat → Id) (orderId : Id) :
    List ItemData → Nat → Db → Except String (Db × List OrderItem)
  | [], _, db => .ok (db, [])
  | item :: rest, n, db =>
    match OrderItem.create db (itemId n) (itemValues orderId item) with
    | .error e => .error e
    | .ok (db1, row) =>
      match createItems itemId orderId rest (n + 1) db1 with
      | .error e => .error e
      | .ok (db2, rows) => .ok (db2, row :: rows)

/-- `Product.update` of lines 124-132:
`UPDATE products SET stock_quantity = stock_quantity - q WHERE id = pid`. -/
def Db.decrementStock (db : Db) (pid : Id) (q : Int) : Db :=
  { db with products := db.products.map (fun p =>
      if p.id == pid then { p with stockQuantity := p.stockQuantity - q } else p) }

/-- Lines 123-133: the decrements, in the order of `orderItems`. -/
def decrementAll (db : Db) (orderItems : List ItemData) : Db :=
  orderItems.foldl (fun d item => d.decrementStock item.product_id item.quantity) db

/-- The item the loop prepares for a line whose product is `p`. -/
def lineItem (p : Product) (l : OrderLine) : ItemData :=
  ⟨p.id, l.quantity, p.price, p.price * l.quantity⟩

/-- The stock a product is left with once the lines of `items` are applied:
its stock less the quantity of the line naming it, if there is one. -/
def afterDecrement (items : List ItemData) (p : Product) : Product :=
  match items.find? (fun i => i.product_id == p.id) with
  | some i => { p with stockQuantity := p.stockQuantity - i.quantity }
  | none => p

/-- Lines 101-136, run on the working copy of the transaction.  The object
literal handed to `Order.create` is evaluated first, property by property; its
shorthand properties `shippingAddress` and `notes` are identifier reads in
`vars`.  The result is the working copy at `commit`, the created order and the
number of created items; an error is the `name` of the exception thrown. -/
def persistOrder (vars : List (String × Option String)) (db : Db)
    (req : OrderRequest) (env : CreateEnv) (totalAmount : Int)
    (orderItems : List ItemData) : Except String (Db × Order × Nat) :=
  match evalIdent vars "shippingAddress" with
  | .error e => .error e
  | .ok shippingAddress =>
    match evalIdent vars "notes" with
    | .error e => .error e
    | .ok notes =>
      let order : Order :=
        { id := env.orderId, userId := req.user_id, orderNumber := env.orderNumber
          totalAmount := totalAmount, status := "pending", paymentStatus := "pending"
          shippingAddress := shippingAddress, notes := notes
          createdAt := env.now, updatedAt := env.now }
      match Order.create db order with
      | .error e => .error e
      | .ok db1 =>
        match createItems env.itemId order.id orderItems 0 db1 with
        | .error e => .error e
        | .ok (db2, createdOrderItems) =>
          .ok (decrementAll db2 orderItems, order, createdOrderItems.length)

/-- The `catch` block of `createOrder` (lines 152-184), after its rollback: the
answer chosen from `error.name`. -/
def createOrderCatch (name : String) : Response :=
  if name = "SequelizeValidationError" then ⟨400, .failure "VALIDATION_ERROR"⟩
  else if name = "SequelizeUniqueConstraintError" then
    ⟨409, .failure "DUPLICATE_ORDER_NUMBER"⟩
  else ⟨500, .failure "INTERNAL_SERVER_ERROR"⟩

/-- The body of `createOrder` with the text-valued variables in scope as a
parameter. -/
def createOrderIn (vars : List (String × Option String)) (db : Db)
    (req : OrderRequest) (env : CreateEnv) : Db × Response :=
  match findUser db req.user_id with
  | none =>
    -- `findByPk` throws on a `user_id` that is no UUID
    if !isUuid req.user_id then (db, createOrderCatch "SequelizeDatabaseError")
    else (db, ⟨404, .failure "USER_NOT_FOUND"⟩)
  | some user =>
    if !user.isActive then (db, ⟨400, .failure "USER_INACTIVE"⟩)
    else
      let productIds := req.products.map (fun p => p.product_id)
      let dbProducts := findActiveProducts db productIds
      if dbProducts.length != productIds.length then
        -- `findAll` throws when a `product_id` is no UUID
        if !productIds.all isUuid then (db, createOrderCatch "SequelizeDatabaseError")
        else (db, ⟨400, .failure "PRODUCTS_NOT_FOUND"⟩)
      else
        match stockLoop (productMap dbProducts) req.products 0 [] with
        | .error answer => (db, answer)
        | .ok (totalAmount, orderItems) =>
          match persistOrder vars db req env totalAmount orderItems with
          | .error name => (db, createOrderCatch name)
          | .ok (db1, order, count) =>
            (db1, ⟨201, .created order.id order.orderNumber
              (toFixed2 order.totalAmount) order.status count order.createdAt⟩)

/-- Controller `createOrder`: the variables in scope are those of line 10. -/
def createOrder (db : Db) (req : OrderRequest) (env : CreateEnv) : Db × Response :=
  createOrderIn (bodyVars req) db req env

/-- The scope `createOrder` would have had if line 10 had named the variable
the way line 108 reads it. -/
def intendedVars (req : OrderRequest) : List (String × Option String) :=
  [("shippingAddress", req.shipping_address), ("notes", req.notes)]

/-! ## Payment workflow (`src/services/paymentService.js`) -/

/-- The names `src/models/index.js` exports (its `module.exports`). -/
def modelsExports : List String := ["User", "Product", "Order", "OrderItem"]

/-- What a service method throws: an `Error` it builds itself, with its
message; the `TypeError` of a property read on `undefined`; an error of the
persistence layer, with its name. -/
inductive Failure where
  | error (message : String)
  | typeError
  | sequelize (name : String)
deriving DecidableEq

/-- Argument of `processPayment`; `amount` in cents. -/
structure PaymentData where
  orderId : Id
  paymentMethod : String
  amount : Int
  userId : Id
deriving DecidableEq

/-- Result of a simulated gateway call (`simulatePaymentProcessing`,
`simulateRefundProcessing`): success with the generated transaction id, or
failure with its `error` text. -/
inductive GatewayResult where
  | success (transactionId : String)
  | failure (error : String)
deriving DecidableEq

/-- What a payment or refund attempt draws from outside the database: the key
and transaction id that are generated, the clock, the outcome of the gateway.
`centApartExceeds` is the outcome of `Math.abs(order.totalAmount - amount) >
0.01` for two amounts one cent apart, which double precision decides either way
(it holds of 199.99 and 199.98, whose difference is 0.010000000000019327, and
not of 0.02 and 0.01) and the embedding does not compute. -/
structure PaymentEnv where
  paymentId : Id
  generatedTransactionId : String
  now : Nat
  gateway : GatewayResult
  centApartExceeds : Bool
deriving DecidableEq

/-- The message of the error `transaction.rollback()` throws on a transaction
that is already rolled back. -/
def rollbackFinished : String :=
  "Transaction cannot be rolled back because it has been finished with state: rollback"

/-- The associations `src/models/index.js` defines, as model and alias. -/
def associations : List (String × String) :=
  [("User", "orders"), ("Order", "user"), ("Order", "orderItems"),
   ("OrderItem", "order"), ("Product", "orderItems"), ("OrderItem", "product"),
   ("Order", "products"), ("Product", "orders")]

/-- The check `Math.abs(order.totalAmount - amount) > 0.01` on two amounts in
cents: false of equal amounts, true of amounts two cents apart or more. -/
def amountMismatch (env : PaymentEnv) (totalAmount amount : Int) : Bool :=
  decide ((totalAmount - amount).natAbs > 1) ||
    ((totalAmount - amount).natAbs == 1 && env.centApartExceeds)

/-- The object `processPayment` returns on success. -/
structure PaymentReceipt where
  transactionId : String
  paymentId : Id
  orderStatus : String
deriving DecidableEq

/-- `validPaymentMethods` of `processPayment`. -/
def validPaymentMethods : List String :=
  ["credit_card", "debit_card", "bank_transfer", "digital_wallet", "cash"]

/-- `Model.findByPk` on the payments table. -/
def findPayment (db : Db) (id : Id) : Option Payment :=
  db.payments.find? (fun p => p.id == id)

/-- `Payment.create` inside the transaction: `beforeCreate` fills an absent
`transactionId`; `amount` is validated (0.01 to 999999.99); `id` and
`transaction_id` are unique. -/
def Payment.create (db : Db) (row : Payment) (generated : String) :
    Except Failure (Db × Payment) :=
  let row := { row with
    transactionId := if truthy row.transactionId then row.transactionId
                     else some generated }
  if row.amount < 1 || 99999999 < row.amount then
    .error (.sequelize "SequelizeValidationError")
  else if db.payments.any (fun p => p.id == row.id ||
      (p.transactionId.isSome && p.transactionId == row.transactionId)) then
    .error (.sequelize "SequelizeUniqueConstraintError")
  else .ok ({ db with payments := db.payments ++ [row] }, row)

/-- The values a `payment.update` call sets. -/
structure PaymentPatch where
  status : Option String
  transactionId : Option String
  processedAt : Option Nat
  refundReason : Option String
  refundRequestedAt : Option Nat
  refundedAt : Option Nat
  refundTransactionId : Option String
deriving DecidableEq

/-- Instance method `payment.update(values)` inside the transaction: the values
are set, then `beforeUpdate` stamps `processedAt` (`refundedAt`) when the
status changed to `completed` (`refunded`) and the stamp is still empty; the
unique columns are checked against the other rows; the row is written back. -/
def Payment.update (db : Db) (p : Payment) (u : PaymentPatch) (now : Nat) :
    Except Failure (Db × Payment) :=
  let q : Payment := { p with
    status := u.status.getD p.status
    transactionId := u.transactionId.orElse (fun _ => p.transactionId)
    processedAt := u.processedAt.orElse (fun _ => p.processedAt)
    refundReason := u.refundReason.orElse (fun _ => p.refundReason)
    refundRequestedAt := u.refundRequestedAt.orElse (fun _ => p.refundRequestedAt)
    refundedAt := u.refundedAt.orElse (fun _ => p.refundedAt)
    refundTransactionId :=
      u.refundTransactionId.orElse (fun _ => p.refundTransactionId) }
  let changed := q.status != p.status
  let q : Payment := { q with
    processedAt :=
      if changed && q.status == "completed" && q.processedAt.isNone then some now
      else q.processedAt }
  let q : Payment := { q with
    refundedAt :=
      if changed && q.status == "refunded" && q.refundedAt.isNone then some now
      else q.refundedAt }
  if db.payments.any (fun r => r.id != q.id &&
      ((r.transactionId.isSome && r.transactionId == q.transactionId) ||
       (r.refundTransactionId.isSome &&
         r.refundTransactionId == q.refundTransactionId))) then
    .error (.sequelize "SequelizeUniqueConstraintError")
  else
    .ok ({ db with payments := db.payments.map (fun r =>
        if r.id == q.id then q else r) }, q)

/-- Lift a failure of `order.update` into what the service rethrows. -/
def orderUpdate (o : Order) (u : OrderPatch) (now : Nat) : Except Failure Order :=
  match o.update u now with
  | .ok o1 => .ok o1
  | .error name => .error (.sequelize name)

/-- `PaymentService.processPayment`, with the names exported by the module it
destructures `Payment` from as a parameter.  The key `paidAt` of the order
update names no attribute of `Order` and sets nothing.  Every `throw` reaches
the `catch`, which rolls back and rethrows; after a gateway failure the
transaction is rolled back already, the rollback of the `catch` throws, and its
error is the one that leaves the method. -/
def processPaymentIn (exports : List String) (db : Db) (data : PaymentData)
    (env : PaymentEnv) : Db × Except Failure PaymentReceipt :=
  match findOrder db data.orderId with
  | none =>
    -- `findByPk` throws on an `orderId` that is no UUID
    if !isUuid data.orderId then (db, .error (.sequelize "SequelizeDatabaseError"))
    else (db, .error (.error "订单不存在"))
  | some order =>
    if order.userId != data.userId then (db, .error (.error "无权操作此订单"))
    else if order.status = "completed" then
      (db, .error (.error "订单已完成，无需重复支付"))
    else if order.status = "cancelled" then
      (db, .error (.error "订单已取消，无法支付"))
    else if amountMismatch env order.totalAmount data.amount then
      (db, .error (.error "支付金额与订单金额不匹配"))
    else if !validPaymentMethods.contains data.paymentMethod then
      (db, .error (.error "不支持的支付方式"))
    else if !exports.contains "Payment" then
      -- `Payment` is `undefined`: `Payment.create` throws
      (db, .error .typeError)
    else
      let row : Payment :=
        { id := env.paymentId, orderId := data.orderId, userId := data.userId
          amount := data.amount, paymentMethod := data.paymentMethod
          status := "pending", transactionId := none, processedAt := none
          transactionDate := env.now, refundReason := none
          refundRequestedAt := none, refundedAt := none
          refundTransactionId := none, retryCount := 0, lastRetryAt := none }
      match Payment.create db row env.generatedTransactionId with
      | .error e => (db, .error e)
      | .ok (db1, payment) =>
        match env.gateway with
        | .failure _ =>
          -- `throw new Error(paymentResult.error || ...)`, replaced in the `catch`
          (db, .error (.error rollbackFinished))
        | .success transactionId =>
          match Payment.update db1 payment
              { status := some "completed", transactionId := some transactionId
                processedAt := some env.now, refundReason := none
                refundRequestedAt := none, refundedAt := none
                refundTransactionId := none } env.now with
          | .error e => (db, .error e)
          | .ok (db2, payment) =>
            match orderUpdate order
                { status := some "completed", paymentStatus := some "paid" }
                env.now with
            | .error e => (db, .error e)
            | .ok order =>
              (db2.putOrder order,
                .ok { transactionId := transactionId, paymentId := payment.id
                      orderStatus := "completed" })

/-- `PaymentService.processPayment` as the module is written. -/
def processPayment (db : Db) (data : PaymentData) (env : PaymentEnv) :
    Db × Except Failure PaymentReceipt :=
  processPaymentIn modelsExports db data env

/-- `PaymentService.processRefund`, with the exported names as a parameter; on
success it returns the refund transaction id.  `findByPk` is asked to include
the association `order` of `Payment` and throws when there is none;
`payment.order` is the order loaded with the payment.  After a gateway failure
the rollback of the `catch` throws, as in `processPayment`. -/
def processRefundIn (exports : List String) (db : Db) (paymentId userId : Id)
    (reason : String) (env : PaymentEnv) : Db × Except Failure String :=
  if !exports.contains "Payment" then
    -- `Payment` is `undefined`: `Payment.findByPk` throws
    (db, .error .typeError)
  else if !associations.contains ("Payment", "order") then
    (db, .error (.sequelize "SequelizeEagerLoadingError"))
  else
    match findPayment db paymentId with
    | none =>
      -- `findByPk` throws on a `paymentId` that is no UUID
      if !isUuid paymentId then (db, .error (.sequelize "SequelizeDatabaseError"))
      else (db, .error (.error "支付记录不存在"))
    | some payment =>
      if payment.userId != userId then (db, .error (.error "无权操作此支付记录"))
      else if payment.status != "completed" then
        (db, .error (.error "只有已完成的支付才能申请退款"))
      else
        match Payment.update db payment
            { status := some "refunding", transactionId := none
              processedAt := none, refundReason := some reason
              refundRequestedAt := some env.now, refundedAt := none
              refundTransactionId := none } env.now with
        | .error e => (db, .error e)
        | .ok (db1, payment) =>
          match findOrder db payment.orderId with
          | none => (db, .error .typeError)
          | some order =>
            match orderUpdate order
                { status := some "refunding", paymentStatus := some "refunding" }
                env.now with
            | .error e => (db, .error e)
            | .ok order =>
              let db2 := db1.putOrder order
              match env.gateway with
              | .failure _ =>
                -- `throw new Error(refundResult.error || ...)`, replaced in the `catch`
                (db, .error (.error rollbackFinished))
              | .success refundTransactionId =>
                match Payment.update db2 payment
                    { status := some "refunded", transactionId := none
                      processedAt := none, refundReason := none
                      refundRequestedAt := none, refundedAt := some env.now
                      refundTransactionId := some refundTransactionId }
                    env.now with
                | .error e => (db, .error e)
                | .ok (db3, _) =>
                  match orderUpdate order
                      { status := some "refunded", paymentStatus := some "refunded" }
                      env.now with
                  | .error e => (db, .error e)
                  | .ok order => (db3.putOrder order, .ok refundTransactionId)

/-- `PaymentService.processRefund` as the module is written. -/
def processRefund (db : Db) (paymentId userId : Id) (reason : String)
    (env : PaymentEnv) : Db × Except Failure String :=
  processRefundIn modelsExports db paymentId userId reason env

/-! ## Sequences of workflow operations -/

/-- One call of a workflow operation that acts on existing orders. -/
inductive WorkflowOp where
  | updateOrderStatus (id : Id) (req : StatusUpdate) (now : Nat)
  | processPayment (data : PaymentData) (env : PaymentEnv)
  | processRefund (paymentId userId : Id) (reason : String) (env : PaymentEnv)
deriving DecidableEq

/-- The database after one operation. -/
def WorkflowOp.run (exports : List String) (db : Db) : WorkflowOp → Db
  | .updateOrderStatus id req now => (Erp.updateOrderStatus db id req now).1
  | .processPayment data env => (processPaymentIn exports db data env).1
  | .processRefund paymentId userId reason env =>
    (processRefundIn exports db paymentId userId reason env).1

/-- The database after a sequence of operations, run one after the other. -/
def runWorkflow (exports : List String) (db : Db) (ops : List WorkflowOp) : Db :=
  ops.foldl (WorkflowOp.run exports) db

/-! ## The specification's transition table and sample data -/

/-- The legal transitions of an order's status, as the specification lists
them: pending to processing or cancelled, processing to completed or
cancelled. -/
def legalTransitions : List (String × String) :=
  [("pending", "processing"), ("pending", "cancelled"),
   ("processing", "completed"), ("processing", "cancelled")]

/-- An active user. -/
def sampleUser : User := { id := 1, isActive := true }

/-- Product with stock 1000 and price 99.99. -/
def highStock : Product :=
  { id := 10, name := "high stock", price := 9999, stockQuantity := 1000
    isActive := true }

/-- Product with stock 5 and price 49.99. -/
def lowStock : Product :=
  { id := 11, name := "low stock", price := 4999, stockQuantity := 5
    isActive := true }

/-- A stored order, pending and unpaid. -/
def pendingOrder : Order :=
  { id := 100, userId := 1, orderNumber := "ORD-1", totalAmount := 19998
    status := "pending", paymentStatus := "pending", shippingAddress := none
    notes := none, createdAt := 0, updatedAt := 0 }

/-- A stored order that has been completed and paid. -/
def completedOrder : Order :=
  { id := 101, userId := 1, orderNumber := "ORD-2", totalAmount := 4999
    status := "completed", paymentStatus := "paid", shippingAddress := none
    notes := none, createdAt := 0, updatedAt := 1 }

/-- A completed card payment of `completedOrder`. -/
def completedPayment : Payment :=
  { id := 300, orderId := 101, userId := 1, amount := 4999
    paymentMethod := "credit_card", status := "completed"
    transactionId := some "TXN_1", processedAt := some 1, transactionDate := 1
    refundReason := none, refundRequestedAt := none, refundedAt := none
    refundTransactionId := none, retryCount := 0, lastRetryAt := none }

/-- A database with one user, two products, two orders and one payment. -/
def sampleDb : Db :=
  { users := [sampleUser], products := [highStock, lowStock]
    orders := [pendingOrder, completedOrder], orderItems := []
    payments := [completedPayment] }

/-- Generated values for an order creation on `sampleDb`. -/
def sampleEnv : CreateEnv :=
  { orderId := 102, orderNumber := "ORD-3", itemId := fun n => 200 + n, now := 7 }

/-- Generated values and a succeeding gateway for a payment or refund. -/
def samplePaymentEnv : PaymentEnv :=
  { paymentId := 301, generatedTransactionId := "TXN_2", now := 9
    gateway := .success "TXN_3", centApartExceeds := true }

/-- Scenario A: two units of the product with stock 1000 and price 99.99. -/
def scenarioA : OrderRequest :=
  { user_id := 1, products := [⟨10, 2⟩], shipping_address := some "1 Test Street"
    notes := some "test order" }

/-- Scenario B: ten units of the product with stock 5. -/
def scenarioB : OrderRequest :=
  { user_id := 1, products := [⟨11, 10⟩], shipping_address := none, notes := none }

/-- A line asking exactly the stock (1000), then a line asking too much. -/
def mixedRequest : OrderRequest :=
  { user_id := 1, products := [⟨10, 1000⟩, ⟨11, 10⟩], shipping_address := none
    notes := none }

/-- Two distinct products, three units and two units. -/
def twoProducts : OrderRequest :=
  { user_id := 1, products := [⟨10, 3⟩, ⟨11, 2⟩], shipping_address := none
    notes := none }

/-- The same product twice, each line asking more than its stock. -/
def duplicateLines : OrderRequest :=
  { user_id := 1, products := [⟨11, 10⟩, ⟨11, 10⟩], shipping_address := none
    notes := none }

/-- A line asking exactly the stock of its product (5). -/
def exactStock : OrderRequest :=
  { user_id := 1, products := [⟨11, 5⟩], shipping_address := none, notes := none }

/-- A line with quantity 0: it passes the stock check, and `OrderItem.create`
is reached after the order row has been written to the working copy. -/
def zeroQuantity : OrderRequest :=
  { user_id := 1, products := [⟨10, 0⟩], shipping_address := none, notes := none }

/-- One unit pair of the product priced 99.99, with the required fields only. -/
def minimalRequest : OrderRequest :=
  { user_id := 1, products := [⟨10, 2⟩], shipping_address := none, notes := none }

/-! ## `validateOrderInput` (`src/middleware/validation.js`, 2-125) -/

/-- A value read from a field of the JSON body, as far as the validator looks
at it: absent (`undefined`), `null`, a boolean, a number, a string, or an
array or object. -/
inductive Field where
  | undefined
  | null
  | bool (b : Bool)
  | num (q : ℚ)
  | str (s : String)
  | object
deriving DecidableEq

/-- JavaScript truthiness of a field value. -/
def Field.truthy : Field → Bool
  | .undefined => false
  | .null => false
  | .bool b => b
  | .num q => q != 0
  | .str s => s != ""
  | .object => true

/-- `typeof v === 'string'`. -/
def Field.isString : Field → Bool
  | .str _ => true
  | _ => false

/-- `typeof v === 'number'`. -/
def Field.isNumber : Field → Bool
  | .num _ => true
  | _ => false

/-- `v <= 0` for a value that is a number; the validator evaluates it only
after `typeof v !== 'number'` was false. -/
def Field.nonPositive : Field → Bool
  | .num q => q ≤ 0
  | _ => false

/-- `Number.isInteger(v)`. -/
def Field.isInteger : Field → Bool
  | .num q => q.den == 1
  | _ => false

/-- `v > 10000`; only numbers reach this comparison. -/
def Field.exceedsLimit : Field → Bool
  | .num q => 10000 < q
  | _ => false

/-- An element of the `products` array: `null` or `undefined`, on which a
property read throws, or a value with its `product_id` and `quantity`
properties (both `undefined` on a value that has none). -/
inductive Entry where
  | nullish
  | fields (product_id : Field) (quantity : Field)
deriving DecidableEq

/-- The `product_id` of an entry. -/
def Entry.productId : Entry → Field
  | .nullish => .undefined
  | .fields p _ => p

/-- The `quantity` of an entry. -/
def Entry.quantity : Entry → Field
  | .nullish => .undefined
  | .fields _ q => q

/-- The `products` field of the body: something that is not an array (absent
included), or an array. -/
inductive ProductsField where
  | notArray
  | array (entries : List Entry)
deriving DecidableEq

/-- Body of `POST /orders` as the validator receives it. -/
structure OrderBody where
  user_id : Field
  products : ProductsField
  shipping_address : Field
  notes : Field
deriving DecidableEq

/-- What the middleware does with a request: it calls `next()`, or answers
with a status, an `error` code and, for some errors, an `index`, or a property
read on `null` throws. -/
inductive Validation where
  | next
  | reject (status : Nat) (error : String) (index : Option Nat)
  | throw
deriving DecidableEq

/-- The loop of lines 32-72 from index `i` on: `none` when every entry passes,
else what the first failing entry causes. -/
def checkEntries : List Entry → Nat → Option Validation
  | [], _ => none
  | .nullish :: _, _ => some .throw
  | .fields product_id quantity :: rest, i =>
    if !product_id.truthy then
      some (.reject 400 "MISSING_PRODUCT_ID" (some i))
    else if !quantity.truthy || !quantity.isNumber || quantity.nonPositive then
      some (.reject 400 "INVALID_QUANTITY" (some i))
    else if !quantity.isInteger then
      some (.reject 400 "QUANTITY_MUST_BE_INTEGER" (some i))
    else if !product_id.isString && !product_id.isNumber then
      some (.reject 400 "INVALID_PRODUCT_ID_FORMAT" (some i))
    else checkEntries rest (i + 1)

/-- The loop of lines 101-110 from index `i` on. -/
def checkQuantities : List Entry → Nat → Option Validation
  | [], _ => none
  | .nullish :: _, _ => some .throw
  | .fields _ quantity :: rest, i =>
    if quantity.exceedsLimit then
      some (.reject 400 "QUANTITY_TOO_LARGE" (some i))
    else checkQuantities rest (i + 1)

/-- Middleware `validateOrderInput`.  The `Set` of line 114 holds strings and
numbers only (the first loop let nothing else through), so its size is the
number of distinct values. -/
def validateOrderInput (body : OrderBody) : Validation :=
  if !body.user_id.truthy then .reject 400 "MISSING_USER_ID" none
  else
    match body.products with
    | .notArray => .reject 400 "MISSING_OR_EMPTY_PRODUCTS" none
    | .array products =>
      if products.length == 0 then .reject 400 "MISSING_OR_EMPTY_PRODUCTS" none
      else if !body.user_id.isString && !body.user_id.isNumber then
        .reject 400 "INVALID_USER_ID_FORMAT" none
      else
        match checkEntries products 0 with
        | some answer => answer
        | none =>
          if body.shipping_address.truthy && !body.shipping_address.isString then
            .reject 400 "INVALID_SHIPPING_ADDRESS_FORMAT" none
          else if body.notes.truthy && !body.notes.isString then
            .reject 400 "INVALID_NOTES_FORMAT" none
          else if products.length > 100 then
            .reject 400 "TOO_MANY_PRODUCTS" none
          else
            match checkQuantities products 0 with
            | some answer => answer
            | none =>
              let productIds := products.map Entry.productId
              if productIds.length != productIds.dedup.length then
                .reject 400 "DUPLICATE_PRODUCTS" none
              else .next

/-- An entry that passes the per-entry checks but for the upper bound on the
quantity: its `product_id` is present (truthy) and a string or a number, its
`quantity` an integer that is at least 1. -/
def Entry.wellFormed (e : Entry) : Prop :=
  e.productId.truthy = true ∧
  (e.productId.isString = true ∨ e.productId.isNumber = true) ∧
  ∃ n : ℤ, e.quantity = .num n ∧ 1 ≤ n

/-- An entry as the specification admits it: well formed, with a quantity of
at most 10000. -/
def Entry.accepted (e : Entry) : Prop :=
  e.productId.truthy = true ∧
  (e.productId.isString = true ∨ e.productId.isNumber = true) ∧
  ∃ n : ℤ, e.quantity = .num n ∧ 1 ≤ n ∧ n ≤ 10000

/-- A request as the specification admits it.  A field is present when it is
truthy and absent when it is falsy, the test the middleware applies (`0` and
the empty string count as missing). -/
def OrderBody.accepted (b : OrderBody) : Prop :=
  b.user_id.truthy = true ∧
  (b.user_id.isString = true ∨ b.user_id.isNumber = true) ∧
  (∃ entries, b.products = .array entries ∧
    1 ≤ entries.length ∧ entries.length ≤ 100 ∧
    (∀ e ∈ entries, e.accepted) ∧
    (entries.map Entry.productId).Nodup) ∧
  (b.shipping_address.truthy = false ∨ b.shipping_address.isString = true) ∧
  (b.notes.truthy = false ∨ b.notes.isString = true)

/-- A request for one product with quantity exactly 10000. -/
def limitQuantityBody : OrderBody :=
  { user_id := .str "user-1"
    products := .array [.fields (.str "product-1") (.num (10000 : ℤ))]
    shipping_address := .undefined, notes := .undefined }

/-- A request whose second entry, and third, ask more than 10000. -/
def overLimitBody : OrderBody :=
  { user_id := .str "user-1"
    products := .array [.fields (.str "product-1") (.num (10000 : ℤ)),
      .fields (.str "product-2") (.num (10001 : ℤ)),
      .fields (.str "product-3") (.num (20000 : ℤ))]
    shipping_address := .str "1 Test Street", notes := .undefined }

/-- The entry number `i` of a request naming the products 1, 2, 3, ... -/
def numberedEntry (i : Nat) : Entry :=
  .fields (.num (((i : ℤ) + 1 : ℤ) : ℚ)) (.num (1 : ℤ))

/-- A request for exactly 100 distinct products, one unit each. -/
def hundredProductsBody : OrderBody :=
  { user_id := .str "user-1"
    products := .array ((List.range 100).map numberedEntry)
    shipping_address := .undefined, notes := .undefined }

/-- A request with 101 entries, all naming the same product. -/
def tooManyProductsBody : OrderBody :=
  { user_id := .str "user-1"
    products := .array (List.replicate 101 (.fields (.str "product-1") (.num (1 : ℤ))))
    shipping_address := .undefined, notes := .undefined }

/-! ## `Payment` model: instance methods (`src/models/Payment.js`, 231-241) -/

/-- Thirty days in milliseconds: `30 * 24 * 60 * 60 * 1000`. -/
def thirtyDays : Int := 30 * 24 * 60 * 60 * 1000

/-- Five minutes in milliseconds: `5 * 60 * 1000`. -/
def fiveMinutes : Int := 5 * 60 * 1000

/-- `Payment.prototype.isRefundable`, with the clock `new Date()` as `now`;
instants are milliseconds since the epoch.  In `new Date() - this.processedAt`
a `null` stamp converts to 0. -/
def Payment.isRefundable (p : Payment) (now : Nat) : Bool :=
  p.status == "completed" && p.paymentMethod != "cash" &&
    decide ((now : Int) - ((p.processedAt.getD 0 : Nat) : Int) < thirtyDays)

/-- `Payment.prototype.canRetry`, with the clock `new Date()` as `now`. -/
def Payment.canRetry (p : Payment) (now : Nat) : Bool :=
  p.status == "failed" && decide (p.retryCount < 3) &&
    (match p.lastRetryAt with
     | none => true
     | some t => decide ((now : Int) - (t : Int) > fiveMinutes))

/-- The names `src/models/index.js` would export with the `Payment` model
added. -/
def exportsWithPayment : List String := "Payment" :: modelsExports

/-- A payment of the pending order of `sampleDb` by its owner, with a valid
method and the exact total. -/
def validAttempt : PaymentData :=
  { orderId := 100, paymentMethod := "credit_card", amount := 19998, userId := 1 }

/-- Generated values and a failing gateway for a payment attempt. -/
def failingGatewayEnv : PaymentEnv :=
  { paymentId := 301, generatedTransactionId := "TXN_2", now := 9
    gateway := .failure "余额不足", centApartExceeds := true }

/-- A completed card payment processed at instant 1000. -/
def cardPayment : Payment :=
  { completedPayment with processedAt := some 1000 }

/-- A completed cash payment. -/
def cashPayment : Payment :=
  { completedPayment with id := 302, paymentMethod := "cash"
                          transactionId := some "TXN_4" }

/-- A failed payment, retried once at instant 1000. -/
def failedPayment : Payment :=
  { completedPayment with status := "failed", processedAt := none
                          retryCount := 1, lastRetryAt := some 1000 }

/-- A database holding the completed cash payment. -/
def cashDb : Db := { sampleDb with payments := [cashPayment] }

/-! ## Any workflow operation -/

/-- One call of a workflow operation, `createOrder` included. -/
inductive Operation where
  | createOrder (req : OrderRequest) (env : CreateEnv)
  | updateOrderStatus (id : Id) (req : StatusUpdate) (now : Nat)
  | processPayment (data : PaymentData) (env : PaymentEnv)
  | processRefund (paymentId userId : Id) (reason : String) (env : PaymentEnv)

/-- The database after one operation, for a given scope of `createOrder`
(`bodyVars` as the handler is written) and given exported names
(`modelsExports` as the module is written). -/
def Operation.run (scope : OrderRequest → List (String × Option String))
    (exports : List String) (db : Db) : Operation → Db
  | .createOrder req env => (createOrderIn (scope req) db req env).1
  | .updateOrderStatus id req now => (Erp.updateOrderStatus db id req now).1
  | .processPayment data env => (processPaymentIn exports db data env).1
  | .processRefund paymentId userId reason env =>
    (processRefundIn exports db paymentId userId reason env).1

/-- The enumerations of the data model hold on every order: its status is one
of pending, processing, completed, cancelled and its payment status one of
pending, paid, failed. -/
def Db.statusesValid (db : Db) : Prop :=
  ∀ o ∈ db.orders, o.status ∈ orderStatuses ∧ o.paymentStatus ∈ orderPaymentStatuses

/-- Generated values for a refund requested 31 days after instant 1. -/
def lateRefundEnv : PaymentEnv :=
  { paymentId := 303, generatedTransactionId := "TXN_5", now := 2678400001
    gateway := .success "REF_1", centApartExceeds := true }

/-- A completed card payment whose processing time was never stamped. -/
def unstampedPayment : Payment :=
  { completedPayment with processedAt := none }

/-- A request whose `user_id` is the number 0. -/
def zeroUserBody : OrderBody :=
  { limitQuantityBody with user_id := .num 0 }

/-- A request whose `shipping_address` is `false` and whose `notes` is `null`. -/
def falsyOptionalsBody : OrderBody :=
  { limitQuantityBody with shipping_address := .bool false, notes := .null }

/-! ## `Payment` model: the `beforeUpdate` hook (`src/models/Payment.js`, 216-226) -/

/-- The values of a patch set on the instance (`payment.set(values)`). -/
def Payment.set (p : Payment) (u : PaymentPatch) : Payment :=
  { p with
    status := u.status.getD p.status
    transactionId := u.transactionId.orElse (fun _ => p.transactionId)
    processedAt := u.processedAt.orElse (fun _ => p.processedAt)
    refundReason := u.refundReason.orElse (fun _ => p.refundReason)
    refundRequestedAt := u.refundRequestedAt.orElse (fun _ => p.refundRequestedAt)
    refundedAt := u.refundedAt.orElse (fun _ => p.refundedAt)
    refundTransactionId :=
      u.refundTransactionId.orElse (fun _ => p.refundTransactionId) }

/-- Hook `beforeUpdate` on the instance about to be written; `previous` is the
status of the stored row, so that `payment.changed('status')` is
`payment.status != previous`. -/
def Payment.beforeUpdate (previous : String) (payment : Payment) (now : Nat) :
    Payment :=
  let payment :=
    if payment.status != previous && payment.status == "completed" &&
        payment.processedAt.isNone then
      { payment with processedAt := some now }
    else payment
  if payment.status != previous && payment.status == "refunded" &&
      payment.refundedAt.isNone then
    { payment with refundedAt := some now }
  else payment

/-- The row a successful `payment.update(values)` writes: the values are set,
then the hook runs. -/
def Payment.updated (p : Payment) (u : PaymentPatch) (now : Nat) : Payment :=
  Payment.beforeUpdate p.status (p.set u) now

/-- The row after a sequence of successful updates, each given by its values
and the instant of its write. -/
def Payment.updates (p : Payment) (us : List (PaymentPatch × Nat)) : Payment :=
  us.foldl (fun row x => row.updated x.1 x.2) p

/-- Instant of the first update of a sequence that changes the status to
`target`, for a row whose status is `status`; `none` when no update does. -/
def firstTransition (target : String) : String → List (PaymentPatch × Nat) → Option Nat
  | _, [] => none
  | status, (u, now) :: rest =>
    let next := u.status.getD status
    if next != status && next == target then some now
    else firstTransition target next rest

/-- A patch that sets the status only. -/
def statusPatch (s : String) : PaymentPatch :=
  { status := some s, transactionId := none, processedAt := none
    refundReason := none, refundRequestedAt := none, refundedAt := none
    refundTransactionId := none }

/-- A patch that sets `processedAt` only. -/
def restampPatch (t : Nat) : PaymentPatch :=
  { status := none, transactionId := none, processedAt := some t
    refundReason := none, refundRequestedAt := none, refundedAt := none
    refundTransactionId := none }

/-- A pending payment that was never processed. -/
def pendingPayment : Payment :=
  { completedPayment with status := "pending", processedAt := none }

/-- A database whose only payment is the completed card payment. -/
def cardDb : Db := { sampleDb with payments := [cardPayment] }

/-- Pending to completed, to refunding, to refunded, and back to completed. -/
def lifecycle : List (PaymentPatch × Nat) :=
  [(statusPatch "completed", 10), (statusPatch "refunding", 20),
   (statusPatch "refunded", 30), (statusPatch "completed", 40)]

/-- Whether an update passes the two stamps the way the services do, on the row
it is made on.  It passes `processedAt` only as the instant of the write,
together with the status completed, on a row that is not completed and has no
`processedAt` (`processPayment`, lines 73-77, on the payment created at line
59); it passes `refundedAt` only as the instant of the write, together with the
status refunded, on a row that is not refunded and has no `refundedAt`
(`processRefund`, lines 291-295).  An update that passes neither stamp
qualifies. -/
def Payment.stampsAsServices (p : Payment) (u : PaymentPatch) (now : Nat) : Bool :=
  (match u.processedAt with
   | none => true
   | some t => t == now && u.status == some "completed" && p.status != "completed" &&
       p.processedAt.isNone) &&
  (match u.refundedAt with
   | none => true
   | some t => t == now && u.status == some "refunded" && p.status != "refunded" &&
       p.refundedAt.isNone)

/-- Whether every update of a sequence passes its stamps the way the services
do, each on the row the updates before it have left. -/
def Payment.admits : Payment → List (PaymentPatch × Nat) → Bool
  | _, [] => true
  | p, (u, now) :: rest => p.stampsAsServices u now && (p.updated u now).admits rest

/-- The values `processPayment` passes after a successful gateway call (lines
73-77). -/
def completionPatch (transactionId : String) (now : Nat) : PaymentPatch :=
  { status := some "completed", transactionId := some transactionId
    processedAt := some now, refundReason := none
    refundRequestedAt := none, refundedAt := none
    refundTransactionId := none }

/-- The values `processRefund` passes before the gateway call (lines 274-278). -/
def refundRequestPatch (reason : String) (now : Nat) : PaymentPatch :=
  { status := some "refunding", transactionId := none
    processedAt := none, refundReason := some reason
    refundRequestedAt := some now, refundedAt := none
    refundTransactionId := none }

/-- The values `processRefund` passes after a successful gateway call (lines
291-295). -/
def refundPatch (refundTransactionId : String) (now : Nat) : PaymentPatch :=
  { status := some "refunded", transactionId := none
    processedAt := none, refundReason := none
    refundRequestedAt := none, refundedAt := some now
    refundTransactionId := some refundTransactionId }

/-- The updates of a payment that is completed by `processPayment` at instant
10 and refunded by `processRefund` at instant 30, with two updates of the
status alone after them. -/
def serviceHistory : List (PaymentPatch × Nat) :=
  [(completionPatch "TXN_3" 10, 10), (refundRequestPatch "damaged on arrival" 30, 30),
   (refundPatch "REF_1" 30, 30), (statusPatch "failed", 50), (statusPatch "completed", 60)]

/-! ## `validateOrderStatusUpdate` (`src/middleware/validation.js`, 128-166) -/

/-- `values.includes(v)` for an array of strings: only a string is found. -/
def Field.isOneOf (v : Field) (values : List String) : Bool :=
  match v with
  | .str s => values.contains s
  | _ => false

/-- Middleware `validateOrderStatusUpdate` on the two fields it reads from the
body. -/
def validateOrderStatusUpdate (status payment_status : Field) : Validation :=
  if !status.truthy && !payment_status.truthy then
    .reject 400 "MISSING_UPDATE_FIELDS" none
  else if status.truthy &&
      !status.isOneOf ["pending", "processing", "completed", "cancelled"] then
    .reject 400 "INVALID_STATUS" none
  else if payment_status.truthy &&
      !payment_status.isOneOf ["pending", "paid", "failed"] then
    .reject 400 "INVALID_PAYMENT_STATUS" none
  else .next

/-- A status update as the specification admits it: at least one of the two
fields is supplied (truthy), and a supplied field holds one of the values of
its enumeration. -/
def statusUpdateAccepted (status payment_status : Field) : Prop :=
  (status.truthy = true ∨ payment_status.truthy = true) ∧
  (status.truthy = true → ∃ s ∈ orderStatuses, status = .str s) ∧
  (payment_status.truthy = true → ∃ s ∈ orderPaymentStatuses, payment_status = .str s)

/-- A stored order that is being processed and has not been paid. -/
def processingOrder : Order :=
  { pendingOrder with id := 103, orderNumber := "ORD-4", status := "processing" }

/-- A database holding the unpaid order in processing. -/
def processingDb : Db := { sampleDb with orders := [processingOrder] }

/-! ## The orders router (`src/routes/orders.js`) -/

/-- The routes of the orders router: `POST /`, `GET /`, `GET /:id` and
`PATCH /:id/status`. -/
inductive Route where
  | postOrders
  | getOrders
  | getOrderById
  | patchOrderStatus
deriving DecidableEq

/-- The middleware the router places before the controller of a route (lines
8, 11, 14 and 17): `router.post('/', validateOrderInput, createOrder)`, and a
controller alone on the other routes. -/
def routeMiddleware : Route → List String
  | .postOrders => ["validateOrderInput"]
  | .getOrders => []
  | .getOrderById => []
  | .patchOrderStatus => []

/-- A field of the body of a status update as the validator reads it. -/
def StatusUpdate.field : Option String → Field
  | none => .undefined
  | some s => .str s

/-- `PATCH /:id/status` on a route that carries the given middleware: Express
runs `validateOrderStatusUpdate`, when the route has it, before the controller,
and the controller only when the middleware calls `next`. -/
def patchOrderStatusVia (middleware : List String) (db : Db) (id : Id)
    (req : StatusUpdate) (now : Nat) : Db × Response :=
  if middleware.contains "validateOrderStatusUpdate" then
    match validateOrderStatusUpdate (StatusUpdate.field req.status)
        (StatusUpdate.field req.payment_status) with
    | .next => updateOrderStatus db id req now
    | .reject status error _ => (db, ⟨status, .failure error⟩)
    | .throw => (db, ⟨500, .failure "INTERNAL_SERVER_ERROR"⟩)
  else updateOrderStatus db id req now

/-- `PATCH /:id/status` as the router is written. -/
def patchOrderStatus (db : Db) (id : Id) (req : StatusUpdate) (now : Nat) :
    Db × Response :=
  patchOrderStatusVia (routeMiddleware .patchOrderStatus) db id req now

/-! ## `OrderItem` model: hooks and `updateQuantity` (`src/models/OrderItem.js`) -/

/-- Value of a `DECIMAL(10, 2)` attribute on an instance: `null`, a number, or
the text of a number with two decimals (what `toFixed(2)` returns); numbers and
texts are held in cents. -/
inductive Amount where
  | null
  | number (cents : Int)
  | text (cents : Int)
deriving DecidableEq

/-- JavaScript truthiness: `null` and the number 0 are falsy, a text such as
`"0.00"` is truthy. -/
def Amount.truthy : Amount → Bool
  | .null => false
  | .number c => c != 0
  | .text _ => true

/-- The numeric value of an amount in a product or in `parseFloat`, in cents
(`null` converts to 0). -/
def Amount.cents : Amount → Int
  | .null => 0
  | .number c => c
  | .text c => c

/-- An `OrderItem` instance in memory, the attributes the hooks read and
write. -/
structure ItemInstance where
  quantity : Int
  unitPrice : Amount
  totalPrice : Amount
deriving DecidableEq

/-- JavaScript's arithmetic on amounts, which the embedding does not compute:
it is carried out in double precision and written with `toFixed(2)`.
`product q c` is the amount, in cents, that `(q * price).toFixed(2)` writes for
a quantity `q` and a price of `c` cents; `fixed c` is the amount that
`parseFloat(price).toFixed(2)` writes for a price of `c` cents. -/
structure Arithmetic where
  product : Int → Int → Int
  fixed : Int → Int

/-- Double precision is exact to the cent on the amounts a `DECIMAL(10, 2)`
column holds: `toFixed(2)` gives a price of the column back, and the product of
a quantity and such a price that is itself an amount of the column is written
exactly.  (Beyond the column it is not: 2147483647 times 99999999.99 is written
as 214748364678525152.00.) -/
def Arithmetic.exactInRange (js : Arithmetic) : Prop :=
  (∀ c : Int, 0 ≤ c → c ≤ maxAmount → js.fixed c = c) ∧
  (∀ q c : Int, 0 ≤ q → 0 ≤ c → c ≤ maxAmount → q * c ≤ maxAmount →
    js.product q c = q * c)

/-- An arithmetic that is exact on every amount; it is exact in the range of
the column in particular. -/
def exactArithmetic : Arithmetic :=
  { product := fun q c => q * c, fixed := fun c => c }

/-- Hook `beforeValidate` (lines 69-76). -/
def OrderItem.beforeValidate (js : Arithmetic) (orderItem : ItemInstance) :
    ItemInstance :=
  let orderItem :=
    if orderItem.unitPrice.truthy then
      { orderItem with unitPrice := .text (js.fixed orderItem.unitPrice.cents) }
    else orderItem
  if orderItem.quantity != 0 && orderItem.unitPrice.truthy then
    { orderItem with
      totalPrice := .text (js.product orderItem.quantity orderItem.unitPrice.cents) }
  else orderItem

/-- Hook `beforeCreate` (lines 77-81). -/
def OrderItem.beforeCreate (js : Arithmetic) (orderItem : ItemInstance) : ItemInstance :=
  if orderItem.quantity != 0 && orderItem.unitPrice.truthy then
    { orderItem with
      totalPrice := .text (js.product orderItem.quantity orderItem.unitPrice.cents) }
  else orderItem

/-- Hook `beforeUpdate` (lines 82-86). -/
def OrderItem.beforeUpdate (js : Arithmetic) (orderItem : ItemInstance) : ItemInstance :=
  if orderItem.quantity != 0 && orderItem.unitPrice.truthy then
    { orderItem with
      totalPrice := .text (js.product orderItem.quantity orderItem.unitPrice.cents) }
  else orderItem

/-- The validators of the three attributes: `quantity` at least 1, the prices
not null and at least 0. -/
def OrderItem.validate (orderItem : ItemInstance) : Bool :=
  decide (1 ≤ orderItem.quantity) &&
  orderItem.unitPrice != .null && decide (0 ≤ orderItem.unitPrice.cents) &&
  orderItem.totalPrice != .null && decide (0 ≤ orderItem.totalPrice.cents)

/-- Whether the values fit their columns: `quantity` an `INTEGER`, the prices
`DECIMAL(10, 2)`. -/
def OrderItem.fitsColumns (orderItem : ItemInstance) : Bool :=
  decide (orderItem.quantity ≤ maxInteger) &&
  decide (orderItem.unitPrice.cents ≤ maxAmount) &&
  decide (orderItem.totalPrice.cents ≤ maxAmount)

/-- `instance.save()`: `beforeValidate`, the validators, then `beforeCreate`
for a new record and `beforeUpdate` for a stored one, then the write, which the
database refuses when a value does not fit its column.  The result is the
instance as the call leaves it and whether the write was made. -/
def OrderItem.save (js : Arithmetic) (isNewRecord : Bool) (orderItem : ItemInstance) :
    ItemInstance × Except String Unit :=
  let orderItem := OrderItem.beforeValidate js orderItem
  if !OrderItem.validate orderItem then (orderItem, .error "SequelizeValidationError")
  else
    let orderItem :=
      if isNewRecord then OrderItem.beforeCreate js orderItem
      else OrderItem.beforeUpdate js orderItem
    if !OrderItem.fitsColumns orderItem then (orderItem, .error "SequelizeDatabaseError")
    else (orderItem, .ok ())

/-- `OrderItem.prototype.updateQuantity` (lines 95-99) on a stored item. -/
def OrderItem.updateQuantity (js : Arithmetic) (orderItem : ItemInstance)
    (newQuantity : Int) : ItemInstance × Except String Unit :=
  OrderItem.save js false
    { orderItem with
      quantity := newQuantity
      totalPrice := .text (js.product newQuantity orderItem.unitPrice.cents) }

/-- Three units at 19.99 with a stale total. -/
def staleItem : ItemInstance :=
  { quantity := 3, unitPrice := .number 1999, totalPrice := .text 100 }

/-- Two units at a unit price that is the number 0, with a total of 5.00. -/
def freeItem : ItemInstance :=
  { quantity := 2, unitPrice := .number 0, totalPrice := .text 500 }

/-! ## Error answers -/

/-- The `catch` block of `createOrder` as a whole (lines 152-184), entered with
the database as it was when the transaction began and the `name` of the error
thrown inside the `try`: it rolls the transaction back, which restores that
database, and answers from the name. -/
def createOrderRaised (before : Db) (name : String) : Db × Response :=
  (before, createOrderCatch name)

/-- An error object, the properties an error handler may read. -/
structure JsError where
  name : String
  message : String
  stack : String
  statusCode : Option Nat
  error : Option String
deriving DecidableEq

/-- The JSON answer of an error handler with its status: `success`, `message`,
`error` and, when present, `stack`. -/
structure ErrorAnswer where
  status : Nat
  success : Bool
  message : String
  error : String
  stack : Option String
deriving DecidableEq

/-- `securityConfig.isProduction()` (`src/config/security.js`, 135 and 219):
`process.env.NODE_ENV === 'production'`, on the value of the variable. -/
def isProduction (nodeEnv : Option String) : Bool :=
  nodeEnv == some "production"

/-- Middleware `errorHandler` of `src/middleware/security.js` (lines 290-318),
with the value of `NODE_ENV`; what it writes to the log is left out. -/
def Security.errorHandler (nodeEnv : Option String) (err : JsError) : ErrorAnswer :=
  if isProduction nodeEnv then
    ⟨500, false, "服务器内部错误", "INTERNAL_SERVER_ERROR", none⟩
  else ⟨500, false, err.message, err.name, some err.stack⟩

/-- An error whose message and stack hold a secret. -/
def secretError : JsError :=
  { name := "Error", message := "connect ECONNREFUSED db-internal:5432 password=hunter2"
    stack := "Error: connect ECONNREFUSED at /srv/app/config/database.js:78:5"
    statusCode := none, error := none }
/-! ## Calls that finish the transaction -/

/-- A call that finishes a Sequelize transaction. -/
inductive TxCall where
  | commit
  | rollback
deriving DecidableEq

/-- The calls of `transaction.commit()` and `transaction.rollback()` that
`createOrder` makes, in order: each early answer rolls back and returns, a
`throw` inside the `try` reaches the `catch` (line 154), the end of the `try`
commits (line 136). -/
def createOrderCalls (vars : List (String × Option String)) (db : Db)
    (req : OrderRequest) (env : CreateEnv) : List TxCall :=
  match findUser db req.user_id with
  | none => [.rollback]
  | some user =>
    if !user.isActive then [.rollback]
    else
      let productIds := req.products.map (fun p => p.product_id)
      let dbProducts := findActiveProducts db productIds
      if dbProducts.length != productIds.length then [.rollback]
      else
        match stockLoop (productMap dbProducts) req.products 0 [] with
        | .error _ => [.rollback]
        | .ok (totalAmount, orderItems) =>
          match persistOrder vars db req env totalAmount orderItems with
          | .error _ => [.rollback]
          | .ok _ => [.commit]

/-- The finishing calls of `updateOrderStatus` (lines 304, 321, 336, 350). -/
def updateOrderStatusCalls (db : Db) (id : Id) (req : StatusUpdate) (now : Nat) :
    List TxCall :=
  match findOrder db id with
  | none => [.rollback]
  | some order =>
    let check : Except String Bool :=
      if truthy req.status then
        match validStatusTransitions order.status with
        | none => .error "TypeError"
        | some allowed => .ok (!allowed.contains (req.status.getD ""))
      else .ok false
    match check with
    | .error _ => [.rollback]
    | .ok true => [.rollback]
    | .ok false =>
      let updateData : OrderPatch :=
        { status := if truthy req.status then req.status else none
          paymentStatus :=
            if truthy req.payment_status then req.payment_status else none }
      match order.update updateData now with
      | .error _ => [.rollback]
      | .ok _ => [.commit]

/-- The finishing calls of `processPayment`.  Every `throw` of the `try` block
reaches the `catch`, which rolls back (line 104); the branch of a failed
gateway call rolls back itself (line 98) and then throws; the branch of a
successful one commits (line 87). -/
def processPaymentCalls (exports : List String) (db : Db) (data : PaymentData)
    (env : PaymentEnv) : List TxCall :=
  match findOrder db data.orderId with
  | none => [.rollback]
  | some order =>
    if order.userId != data.userId then [.rollback]
    else if order.status = "completed" then [.rollback]
    else if order.status = "cancelled" then [.rollback]
    else if amountMismatch env order.totalAmount data.amount then [.rollback]
    else if !validPaymentMethods.contains data.paymentMethod then [.rollback]
    else if !exports.contains "Payment" then [.rollback]
    else
      let row : Payment :=
        { id := env.paymentId, orderId := data.orderId, userId := data.userId
          amount := data.amount, paymentMethod := data.paymentMethod
          status := "pending", transactionId := none, processedAt := none
          transactionDate := env.now, refundReason := none
          refundRequestedAt := none, refundedAt := none
          refundTransactionId := none, retryCount := 0, lastRetryAt := none }
      match Payment.create db row env.generatedTransactionId with
      | .error _ => [.rollback]
      | .ok (db1, payment) =>
        match env.gateway with
        | .failure _ => [.rollback, .rollback]
        | .success transactionId =>
          match Payment.update db1 payment
              { status := some "completed", transactionId := some transactionId
                processedAt := some env.now, refundReason := none
                refundRequestedAt := none, refundedAt := none
                refundTransactionId := none } env.now with
          | .error _ => [.rollback]
          | .ok _ =>
            match orderUpdate order
                { status := some "completed", paymentStatus := some "paid" }
                env.now with
            | .error _ => [.rollback]
            | .ok _ => [.commit]

/-- The finishing calls of `processRefund`: as in `processPayment`, the branch
of a failed gateway call rolls back (line 311) and throws into the `catch`,
which rolls back (line 316). -/
def processRefundCalls (exports : List String) (db : Db) (paymentId userId : Id)
    (reason : String) (env : PaymentEnv) : List TxCall :=
  if !exports.contains "Payment" then [.rollback]
  else if !associations.contains ("Payment", "order") then [.rollback]
  else
    match findPayment db paymentId with
    | none => [.rollback]
    | some payment =>
      if payment.userId != userId then [.rollback]
      else if payment.status != "completed" then [.rollback]
      else
        match Payment.update db payment
            { status := some "refunding", transactionId := none
              processedAt := none, refundReason := some reason
              refundRequestedAt := some env.now, refundedAt := none
              refundTransactionId := none } env.now with
        | .error _ => [.rollback]
        | .ok (db1, payment) =>
          match findOrder db payment.orderId with
          | none => [.rollback]
          | some order =>
            match orderUpdate order
                { status := some "refunding", paymentStatus := some "refunding" }
                env.now with
            | .error _ => [.rollback]
            | .ok order =>
              let db2 := db1.putOrder order
              match env.gateway with
              | .failure _ => [.rollback, .rollback]
              | .success refundTransactionId =>
                match Payment.update db2 payment
                    { status := some "refunded", transactionId := none
                      processedAt := none, refundReason := none
                      refundRequestedAt := none, refundedAt := some env.now
                      refundTransactionId := some refundTransactionId }
                    env.now with
                | .error _ => [.rollback]
                | .ok _ =>
                  match orderUpdate order
                      { status := some "refunded", paymentStatus := some "refunded" }
                      env.now with
                  | .error _ => [.rollback]
                  | .ok _ => [.commit]

/-- The finishing calls of an operation, for a given scope of `createOrder`
and given exported names. -/
def Operation.calls (scope : OrderRequest → List (String × Option String))
    (exports : List String) (db : Db) : Operation → List TxCall
  | .createOrder req env => createOrderCalls (scope req) db req env
  | .updateOrderStatus id req now => updateOrderStatusCalls db id req now
  | .processPayment data env => processPaymentCalls exports db data env
  | .processRefund paymentId userId reason env =>
    processRefundCalls exports db paymentId userId reason env

/-! ## `Order.canBeCompleted` (`src/models/Order.js`, 112-114) -/

/-- `Order.prototype.canBeCompleted`. -/
def Order.canBeCompleted (o : Order) : Bool :=
  o.status == "processing" && o.paymentStatus == "paid"

/-! ## Order status: lemmas -/

theorem findOrder_id {db : Db} {id : Id} {o : Order} (h : findOrder db id = some o) :
    o.id = id := by
  have := List.find?_some h
  simpa using this

theorem find_put_self (l : List Order) (id : Id) (row : Order) (hrow : row.id = id)
    (h : (l.find? (fun o => o.id == id)).isSome = true) :
    (l.map (fun o => if o.id == row.id then row else o)).find?
      (fun o => o.id == id) = some row := by
  induction l with
  | nil => simp at h
  | cons a l ih =>
    simp only [List.map_cons, List.find?_cons] at h ⊢
    by_cases ha : a.id = id
    · have h2 : (a.id == row.id) = true := by simp [ha, hrow]
      have h3 : (row.id == id) = true := by simp [hrow]
      simp only [h2, if_true, h3]
    · have h1 : (a.id == id) = false := by simpa using ha
      have h2 : (a.id == row.id) = false := by simpa [hrow] using ha
      simp only [h1, h2, Bool.false_eq_true, if_false] at h ⊢
      exact ih h

theorem find_put_other (l : List Order) (id : Id) (row : Order) (hrow : row.id ≠ id) :
    (l.map (fun o => if o.id == row.id then row else o)).find?
      (fun o => o.id == id) = l.find? (fun o => o.id == id) := by
  induction l with
  | nil => rfl
  | cons a l ih =>
    simp only [List.map_cons, List.find?_cons]
    by_cases ha : a.id = row.id
    · have h1 : (a.id == id) = false := by simpa [ha] using hrow
      have h2 : (row.id == id) = false := by simpa using hrow
      have h4 : (a.id == row.id) = true := by simp [ha]
      simp only [h4, if_true, h2, h1]
      exact ih
    · have h2 : (a.id == row.id) = false := by simpa using ha
      simp only [h2]
      by_cases hb : a.id = id
      · have h3 : (a.id == id) = true := by simp [hb]
        simp [h3]
      · have h3 : (a.id == id) = false := by simpa using hb
        simp only [h3, Bool.false_eq_true, if_false]
        exact ih

theorem findOrder_putOrder_self {db : Db} {id : Id} {o row : Order}
    (h : findOrder db id = some o) (hrow : row.id = id) :
    findOrder (db.putOrder row) id = some row := by
  unfold findOrder at h
  exact find_put_self db.orders id row hrow (by simp [h])

theorem findOrder_putOrder_other (db : Db) (id : Id) (row : Order)
    (hrow : row.id ≠ id) :
    findOrder (db.putOrder row) id = findOrder db id :=
  find_put_other db.orders id row hrow

/-- The table of the controller holds exactly the transitions the
specification lists. -/
theorem validStatusTransitions_legal (cur s : String) (hcur : cur ∈ orderStatuses) :
    ∃ allowed, validStatusTransitions cur = some allowed ∧
      (allowed.contains s = true ↔ (cur, s) ∈ legalTransitions) := by
  simp only [orderStatuses, List.mem_cons, List.mem_singleton, List.not_mem_nil,
    or_false] at hcur
  rcases hcur with h | h | h | h <;> subst h <;>
    simp [validStatusTransitions, legalTransitions]

theorem updateOrderStatus_illegal {db : Db} {id : Id} {o : Order} {s : String}
    (ps : Option String) (now : Nat) (hfind : findOrder db id = some o)
    (hst : o.status ∈ orderStatuses) (hs : s ≠ "")
    (hbad : (o.status, s) ∉ legalTransitions) :
    updateOrderStatus db id ⟨some s, ps⟩ now =
      (db, ⟨400, .failure "INVALID_STATUS_TRANSITION"⟩) := by
  obtain ⟨allowed, htab, hiff⟩ := validStatusTransitions_legal o.status s hst
  have hc : allowed.contains s = false := by
    cases hv : allowed.contains s with
    | false => rfl
    | true => exact absurd (hiff.mp hv) hbad
  have ht : truthy (some s) = true := by simp [truthy, hs]
  have hm : s ∉ allowed := by simpa using hc
  simp [updateOrderStatus, hfind, ht, htab, hm]

theorem updateOrderStatus_legal {db : Db} {id : Id} {o : Order} {s : String}
    (ps : Option String) (now : Nat) (hfind : findOrder db id = some o)
    (hst : o.status ∈ orderStatuses) (hs : s ≠ "")
    (hok : (o.status, s) ∈ legalTransitions) :
    updateOrderStatus db id ⟨some s, ps⟩ now =
      match o.update ⟨some s, if truthy ps then ps else none⟩ now with
      | .error _ => (db, updateStatusFailed)
      | .ok row =>
        (db.putOrder row,
          ⟨200, .updated o.id row.status row.paymentStatus o.updatedAt⟩) := by
  obtain ⟨allowed, htab, hiff⟩ := validStatusTransitions_legal o.status s hst
  have hc : allowed.contains s = true := hiff.mpr hok
  have ht : truthy (some s) = true := by simp [truthy, hs]
  have hm : s ∈ allowed := by simpa using hc
  simp [updateOrderStatus, hfind, ht, htab, hm]

/-! ## Order status: transition table (C1, C2) -/

/-- The transition table as the controller applies it.  For an existing order
whose status is one of pending, processing, completed, cancelled and a request
that supplies a status (a truthy one, the test the handler applies),
`updateOrderStatus` answers 400 `INVALID_STATUS_TRANSITION` if and only if the
pair (current, requested) is not one of the four legal transitions.  In the
four legal cases, when the request's `payment_status` is absent or one of
pending, paid, failed, it stores the requested status, stamps the row and
answers success, with the `updatedAt` the order was loaded with; when
`payment_status` is another value the model's validation refuses the update,
the answer is 500 and nothing is stored. -/
theorem updateOrderStatus_transition_table (db : Db) (id : Id) (o : Order)
    (s : String) (ps : Option String) (now : Nat)
    (hfind : findOrder db id = some o) (hst : o.status ∈ orderStatuses)
    (hs : s ≠ "") :
    ((updateOrderStatus db id ⟨some s, ps⟩ now).2 =
        ⟨400, .failure "INVALID_STATUS_TRANSITION"⟩ ↔
      (o.status, s) ∉ legalTransitions) ∧
    ((o.status, s) ∈ legalTransitions →
      (truthy ps = true → ∃ p ∈ orderPaymentStatuses, ps = some p) →
      (updateOrderStatus db id ⟨some s, ps⟩ now).2 =
          ⟨200, .updated id s
            (if truthy ps then ps.getD "" else o.paymentStatus) o.updatedAt⟩ ∧
        findOrder (updateOrderStatus db id ⟨some s, ps⟩ now).1 id =
          some { o with
            status := s
            paymentStatus := if truthy ps then ps.getD "" else o.paymentStatus
            updatedAt := now }) ∧
    ((o.status, s) ∈ legalTransitions →
      (truthy ps = true ∧ ∀ p ∈ orderPaymentStatuses, ps ≠ some p) →
      updateOrderStatus db id ⟨some s, ps⟩ now =
        (db, ⟨500, .failure "INTERNAL_SERVER_ERROR"⟩)) := by
  have hid := findOrder_id hfind
  have hsin : ∀ h : (o.status, s) ∈ legalTransitions, orderStatuses.contains s = true := by
    intro h
    simp only [legalTransitions, List.mem_cons, Prod.mk.injEq, List.mem_singleton,
      List.not_mem_nil, or_false] at h
    rcases h with ⟨-, h⟩ | ⟨-, h⟩ | ⟨-, h⟩ | ⟨-, h⟩ <;> subst h <;> decide
  refine ⟨⟨fun h hok => ?_, fun h => ?_⟩, fun hok hps => ?_, fun hok hps => ?_⟩
  · rw [updateOrderStatus_legal ps now hfind hst hs hok] at h
    cases hu : o.update ⟨some s, if truthy ps then ps else none⟩ now with
    | error e => rw [hu] at h; simp [updateStatusFailed] at h
    | ok row => rw [hu] at h; simp at h
  · rw [updateOrderStatus_illegal ps now hfind hst hs h]
  · rw [updateOrderStatus_legal ps now hfind hst hs hok]
    have hv : (OrderPatch.mk (some s) (if truthy ps then ps else none)).valid = true := by
      simp only [OrderPatch.valid, hsin hok, Bool.true_and]
      by_cases ht : truthy ps = true
      · obtain ⟨p, hp, rfl⟩ := hps ht
        simp only [ht, if_true]
        simpa using hp
      · simp [ht]
    have hne : (s != o.status) = true := by
      have h := hok
      simp only [legalTransitions, List.mem_cons, Prod.mk.injEq, List.mem_singleton,
        List.not_mem_nil, or_false] at h
      rcases h with ⟨h1, h2⟩ | ⟨h1, h2⟩ | ⟨h1, h2⟩ | ⟨h1, h2⟩ <;> rw [h1, h2] <;> decide
    simp only [Order.update, hv, if_true, Option.getD_some, hne, Bool.true_or]
    by_cases ht : truthy ps = true
    · obtain ⟨p, hp, rfl⟩ := hps ht
      refine ⟨by simp [ht, hid], ?_⟩
      rw [findOrder_putOrder_self hfind (by simpa using hid)]
      simp [ht]
    · refine ⟨by simp [ht, hid], ?_⟩
      rw [findOrder_putOrder_self hfind (by simpa using hid)]
      simp [ht]
  · rw [updateOrderStatus_legal ps now hfind hst hs hok]
    obtain ⟨ht, hno⟩ := hps
    have hv : (OrderPatch.mk (some s) (if truthy ps then ps else none)).valid = false := by
      cases ps with
      | none => simp [truthy] at ht
      | some p =>
        have hp : p ∉ orderPaymentStatuses := fun hp => hno p hp rfl
        simp only [OrderPatch.valid, ht, if_true, Bool.and_eq_false_iff]
        right
        simpa using hp
    simp [Order.update, hv, updateStatusFailed]

/-- The transition table at a pending order asked to become processing: it is
answered 200 and stored as processing. -/
theorem updateOrderStatus_transition_table_witness :
    findOrder sampleDb 100 = some pendingOrder ∧
    pendingOrder.status ∈ orderStatuses ∧ "processing" ≠ "" ∧
    updateOrderStatus sampleDb 100 ⟨some "processing", none⟩ 5 =
      (sampleDb.putOrder { pendingOrder with status := "processing", updatedAt := 5 },
        ⟨200, .updated 100 "processing" "pending" pendingOrder.updatedAt⟩) ∧
    ((updateOrderStatus sampleDb 100 ⟨some "processing", none⟩ 5).2 =
        ⟨400, .failure "INVALID_STATUS_TRANSITION"⟩ ↔
      (pendingOrder.status, "processing") ∉ legalTransitions) ∧
    ((pendingOrder.status, "processing") ∈ legalTransitions →
      (truthy none = true → ∃ p ∈ orderPaymentStatuses, none = some p) →
      (updateOrderStatus sampleDb 100 ⟨some "processing", none⟩ 5).2 =
          ⟨200, .updated 100 "processing"
            (if truthy none then (none : Option String).getD ""
              else pendingOrder.paymentStatus) pendingOrder.updatedAt⟩ ∧
        findOrder (updateOrderStatus sampleDb 100 ⟨some "processing", none⟩ 5).1 100 =
          some { pendingOrder with
            status := "processing"
            paymentStatus := if truthy none then (none : Option String).getD ""
              else pendingOrder.paymentStatus
            updatedAt := 5 }) ∧
    ((pendingOrder.status, "processing") ∈ legalTransitions →
      (truthy none = true ∧ ∀ p ∈ orderPaymentStatuses, none ≠ some p) →
      updateOrderStatus sampleDb 100 ⟨some "processing", none⟩ 5 =
        (sampleDb, ⟨500, .failure "INTERNAL_SERVER_ERROR"⟩)) :=
  ⟨by decide, by decide, by decide, by decide,
    updateOrderStatus_transition_table sampleDb 100 pendingOrder "processing" none 5
      (by decide) (by decide) (by decide)⟩

/-- C1 fails on the code: a pending order and a request for the legal status
processing that also carries a `payment_status` outside pending, paid, failed.
The claim has the status stored and success answered in every legal case; the
handler, reached without `validateOrderStatusUpdate`, lets the model refuse the
update, answers 500 `INTERNAL_SERVER_ERROR` and stores nothing. -/
theorem updateOrderStatus_unvalidated_payment_status :
    findOrder sampleDb 100 = some pendingOrder ∧
    pendingOrder.status = "pending" ∧
    ("pending", "processing") ∈ legalTransitions ∧
    updateOrderStatus sampleDb 100 ⟨some "processing", some "bogus"⟩ 5 =
      (sampleDb, ⟨500, .failure "INTERNAL_SERVER_ERROR"⟩) := by
  decide

/-- C2: for a stored order (status one of the four values of its column) and a
supplied status that is not a legal transition from it, `updateOrderStatus`
answers 400 `INVALID_STATUS_TRANSITION` and returns the database it was given,
whatever else the request carries; the same request sent again, at any later
time, gets the same answer and again changes nothing. -/
theorem updateOrderStatus_illegal_idempotent (db : Db) (id : Id) (o : Order)
    (s : String) (ps : Option String) (now later : Nat)
    (hfind : findOrder db id = some o) (hst : o.status ∈ orderStatuses)
    (hs : s ≠ "") (hbad : (o.status, s) ∉ legalTransitions) :
    updateOrderStatus db id ⟨some s, ps⟩ now =
      (db, ⟨400, .failure "INVALID_STATUS_TRANSITION"⟩) ∧
    updateOrderStatus (updateOrderStatus db id ⟨some s, ps⟩ now).1 id
        ⟨some s, ps⟩ later =
      (db, ⟨400, .failure "INVALID_STATUS_TRANSITION"⟩) := by
  have h1 := updateOrderStatus_illegal ps now hfind hst hs hbad
  have h2 := updateOrderStatus_illegal ps later hfind hst hs hbad
  refine ⟨h1, ?_⟩
  rw [h1]
  exact h2

/-- Witness of C2: a pending order asked twice to become completed, the
request also carrying a payment status; the order stays pending and unpaid. -/
theorem updateOrderStatus_illegal_idempotent_witness :
    findOrder sampleDb 100 = some pendingOrder ∧
    pendingOrder.status ∈ orderStatuses ∧ "completed" ≠ "" ∧
    (pendingOrder.status, "completed") ∉ legalTransitions ∧
    updateOrderStatus sampleDb 100 ⟨some "completed", some "paid"⟩ 5 =
      (sampleDb, ⟨400, .failure "INVALID_STATUS_TRANSITION"⟩) ∧
    updateOrderStatus
        (updateOrderStatus sampleDb 100 ⟨some "completed", some "paid"⟩ 5).1 100
        ⟨some "completed", some "paid"⟩ 6 =
      (sampleDb, ⟨400, .failure "INVALID_STATUS_TRANSITION"⟩) :=
  ⟨by decide, by decide, by decide, by decide,
    updateOrderStatus_illegal_idempotent sampleDb 100 pendingOrder "completed"
      (some "paid") 5 6 (by decide) (by decide) (by decide) (by decide)⟩

/-! ## Terminal states (C3) -/

theorem Order.update_id {o row : Order} {u : OrderPatch} {now : Nat}
    (h : o.update u now = .ok row) : row.id = o.id := by
  unfold Order.update at h
  split at h
  · cases h; rfl
  · cases h

theorem Order.update_status_none {o row : Order} {ps : Option String} {now : Nat}
    (h : o.update ⟨none, ps⟩ now = .ok row) : row.status = o.status := by
  unfold Order.update at h
  split at h
  · cases h; rfl
  · cases h

theorem orderUpdate_id {o row : Order} {u : OrderPatch} {now : Nat}
    (h : orderUpdate o u now = .ok row) : row.id = o.id := by
  unfold orderUpdate at h
  split at h
  · rename_i o1 h1
    cases h
    exact Order.update_id h1
  · cases h

/-- The `Order` model refuses the status `refunding`. -/
theorem orderUpdate_refunding (o : Order) (ps : Option String) (now : Nat) :
    orderUpdate o ⟨some "refunding", ps⟩ now =
      .error (.sequelize "SequelizeValidationError") := by
  have hv : (OrderPatch.mk (some "refunding") ps).valid = false := by
    simp [OrderPatch.valid, orderStatuses]
  simp [orderUpdate, Order.update, hv]

theorem ok_of_ite {ε α : Type} {c : Prop} [Decidable c] {e : ε} {x y : α}
    (h : (if c then Except.error e else Except.ok x) = Except.ok y) :
    x = y ∧ ¬c := by
  by_cases hc : c
  · rw [if_pos hc] at h; cases h
  · rw [if_neg hc] at h; cases h; exact ⟨rfl, hc⟩

theorem ok_of_ite_ite {ε α : Type} {c d : Prop} [Decidable c] [Decidable d]
    {e f : ε} {x y : α}
    (h : (if c then Except.error e else if d then Except.error f else Except.ok x) =
      Except.ok y) :
    x = y ∧ ¬c ∧ ¬d := by
  by_cases hc : c
  · rw [if_pos hc] at h; cases h
  · rw [if_neg hc] at h
    exact ⟨(ok_of_ite h).1, hc, (ok_of_ite h).2⟩

theorem Payment.create_orders {db db1 : Db} {row p : Payment} {g : String}
    (h : Payment.create db row g = .ok (db1, p)) : db1.orders = db.orders := by
  unfold Payment.create at h
  have h1 := (ok_of_ite_ite h).1
  simp only [Prod.mk.injEq] at h1
  rw [← h1.1]

theorem Payment.update_orders {db db1 : Db} {p q : Payment} {u : PaymentPatch}
    {now : Nat} (h : Payment.update db p u now = .ok (db1, q)) :
    db1.orders = db.orders := by
  unfold Payment.update at h
  have h1 := (ok_of_ite h).1
  simp only [Prod.mk.injEq] at h1
  rw [← h1.1]

/-- `processRefund` never commits: the order update to `refunding` is refused
(and, as the module is written, `Payment` is not even bound). -/
theorem processRefundIn_db (exports : List String) (db : Db) (paymentId userId : Id)
    (reason : String) (env : PaymentEnv) :
    (processRefundIn exports db paymentId userId reason env).1 = db := by
  simp only [processRefundIn, orderUpdate_refunding]
  repeat' split
  all_goals rfl

/-- Either `processPayment` returns the database it was given, or it wrote one
order row: the order it was called for, which was neither completed nor
cancelled. -/
theorem processPaymentIn_db (exports : List String) (db : Db) (data : PaymentData)
    (env : PaymentEnv) :
    (processPaymentIn exports db data env).1 = db ∨
    ∃ (order : Order) (db2 : Db) (row : Order), findOrder db data.orderId = some order ∧
      order.status ≠ "completed" ∧ order.status ≠ "cancelled" ∧
      db2.orders = db.orders ∧ row.id = order.id ∧
      (processPaymentIn exports db data env).1 = db2.putOrder row := by
  have key : ∀ r, processPaymentIn exports db data env = r →
      r.1 = db ∨ ∃ (order : Order) (db2 : Db) (row : Order), findOrder db data.orderId = some order ∧
        order.status ≠ "completed" ∧ order.status ≠ "cancelled" ∧
        db2.orders = db.orders ∧ row.id = order.id ∧ r.1 = db2.putOrder row := by
    intro r hr
    unfold processPaymentIn at hr
    dsimp only at hr
    repeat' split at hr
    all_goals first
      | (subst hr; exact Or.inl rfl)
      | skip
    rename_i _ order hfind _ h2 h3 _ _ _ _ db1 pay hc _ txn _ _ db2 pay2 hu _ row hrow
    subst hr
    refine Or.inr ⟨order, db2, row, hfind, h2, h3, ?_, orderUpdate_id hrow, rfl⟩
    rw [Payment.update_orders hu, Payment.create_orders hc]
  exact key _ rfl

/-- Either `updateOrderStatus` returns the database it was given, or it wrote
one order row: the order it was called for, with its status kept when that
status was completed or cancelled. -/
theorem updateOrderStatus_db (db : Db) (id : Id) (req : StatusUpdate) (now : Nat) :
    (updateOrderStatus db id req now).1 = db ∨
    ∃ (order : Order) (row : Order), findOrder db id = some order ∧
      row.id = order.id ∧
      (order.status = "completed" ∨ order.status = "cancelled" →
        row.status = order.status) ∧
      (updateOrderStatus db id req now).1 = db.putOrder row := by
  cases hfind : findOrder db id with
  | none =>
    left
    unfold updateOrderStatus
    simp only [hfind]
    split <;> rfl
  | some order =>
    by_cases ht : truthy req.status = true
    · cases hv : validStatusTransitions order.status with
      | none => left; simp [updateOrderStatus, hfind, ht, hv]
      | some allowed =>
        by_cases hc : allowed.contains (req.status.getD "") = true
        · have hm : req.status.getD "" ∈ allowed := by simpa using hc
          cases hu : order.update ⟨req.status, if truthy req.payment_status then
              req.payment_status else none⟩ now with
          | error e => left; simp [updateOrderStatus, hfind, ht, hv, hm, hu]
          | ok row =>
            right
            refine ⟨order, row, rfl, Order.update_id hu, ?_, ?_⟩
            · intro hterm
              exfalso
              rcases hterm with h | h <;>
                · rw [h] at hv
                  simp [validStatusTransitions] at hv
                  subst hv
                  simp at hc
            · simp [updateOrderStatus, hfind, ht, hv, hm, hu]
        · left
          have hm : req.status.getD "" ∉ allowed := by simpa using hc
          simp [updateOrderStatus, hfind, ht, hv, hm]
    · have ht2 : truthy req.status = false := by simpa using ht
      cases hu : order.update ⟨none, if truthy req.payment_status then
          req.payment_status else none⟩ now with
      | error e => left; simp [updateOrderStatus, hfind, ht2, hu]
      | ok row =>
        right
        refine ⟨order, row, rfl, Order.update_id hu, fun _ => Order.update_status_none hu, ?_⟩
        simp [updateOrderStatus, hfind, ht2, hu]

/-- One workflow operation keeps the status of an order that is completed or
cancelled. -/
theorem WorkflowOp.run_terminal (exports : List String) (op : WorkflowOp) (db : Db)
    (id : Id) (o : Order) (hfind : findOrder db id = some o)
    (hterm : o.status = "completed" ∨ o.status = "cancelled") :
    ∃ o1, findOrder (op.run exports db) id = some o1 ∧ o1.status = o.status := by
  cases op with
  | updateOrderStatus id1 req now =>
    simp only [WorkflowOp.run]
    rcases updateOrderStatus_db db id1 req now with h | ⟨order, row, hf, hid, hst, h⟩
    · rw [h]; exact ⟨o, hfind, rfl⟩
    · rw [h]
      by_cases hi : id1 = id
      · subst hi
        rw [hfind] at hf
        cases hf
        refine ⟨row, findOrder_putOrder_self hfind ?_, hst hterm⟩
        rw [hid]; exact findOrder_id hfind
      · rw [findOrder_putOrder_other db id row (by rw [hid, findOrder_id hf]; exact hi)]
        exact ⟨o, hfind, rfl⟩
  | processPayment data env =>
    simp only [WorkflowOp.run]
    rcases processPaymentIn_db exports db data env with h |
      ⟨order, db2, row, hf, hn1, hn2, hords, hid, h⟩
    · rw [h]; exact ⟨o, hfind, rfl⟩
    · rw [h]
      have hne : row.id ≠ id := by
        intro hi
        have h1 : data.orderId = id := by rw [← findOrder_id hf, ← hid, hi]
        rw [h1, hfind] at hf
        cases hf
        rcases hterm with h | h
        · exact hn1 h
        · exact hn2 h
      rw [findOrder_putOrder_other db2 id row hne]
      have : findOrder db2 id = findOrder db id := by
        unfold findOrder; rw [hords]
      rw [this]
      exact ⟨o, hfind, rfl⟩
  | processRefund paymentId userId reason env =>
    simp only [WorkflowOp.run, processRefundIn_db]
    exact ⟨o, hfind, rfl⟩

/-- C3: once an order is completed or cancelled, no sequence of
`updateOrderStatus`, `processPayment` and `processRefund` calls, whatever their
arguments, gateway outcomes and order, changes that order's status; this holds
for the service as the module is written (`exports = modelsExports`) and
whatever the module it imports from exports. -/
theorem terminal_status_stable (exports : List String) (ops : List WorkflowOp)
    (db : Db) (id : Id) (o : Order) (hfind : findOrder db id = some o)
    (hterm : o.status = "completed" ∨ o.status = "cancelled") :
    (findOrder (runWorkflow exports db ops) id).map (fun r => r.status) =
      some o.status := by
  induction ops generalizing db o with
  | nil => simp [runWorkflow, hfind]
  | cons op rest ih =>
    obtain ⟨o1, h1, hs⟩ := WorkflowOp.run_terminal exports op db id o hfind hterm
    have := ih (op.run exports db) o1 h1 (by rw [hs]; exact hterm)
    rw [hs] at this
    simpa [runWorkflow] using this

/-- Witness of C3: the completed order of `sampleDb` after a status update to
cancelled, a payment attempt, a refund of its payment and a payment-status
update. -/
theorem terminal_status_stable_witness :
    findOrder sampleDb 101 = some completedOrder ∧
    (completedOrder.status = "completed" ∨ completedOrder.status = "cancelled") ∧
    (findOrder (runWorkflow modelsExports sampleDb
        [.updateOrderStatus 101 ⟨some "cancelled", none⟩ 3,
         .processPayment ⟨101, "cash", 4999, 1⟩ samplePaymentEnv,
         .processRefund 300 1 "damaged on arrival" samplePaymentEnv,
         .updateOrderStatus 101 ⟨none, some "failed"⟩ 4]) 101).map
      (fun r => r.status) = some completedOrder.status :=
  ⟨by decide, by decide,
    terminal_status_stable modelsExports _ sampleDb 101 completedOrder (by decide)
      (by decide)⟩

/-! ## `createOrder`: the stock loop -/

/-- An answer of the stock loop is the first failing line's: either the line's
product is not in the map, or it is the first line, in request order, whose
quantity exceeds the stock of its product, and the answer reports that
product and that line. -/
theorem stockLoop_error {pm : Id → Option Product} {lines : List OrderLine}
    {total : Int} {items : List ItemData} {r : Response}
    (h : stockLoop pm lines total items = .error r) :
    r = ⟨400, .failure "PRODUCT_NOT_FOUND"⟩ ∨
    ∃ pre line post p, lines = pre ++ line :: post ∧
      pm line.product_id = some p ∧ p.stockQuantity < line.quantity ∧
      (∀ l ∈ pre, ∃ q, pm l.product_id = some q ∧ l.quantity ≤ q.stockQuantity) ∧
      r = ⟨400, .insufficientStock p.id p.name p.stockQuantity line.quantity⟩ := by
  induction lines generalizing total items with
  | nil => simp [stockLoop] at h
  | cons item rest ih =>
    unfold stockLoop at h
    cases hp : pm item.product_id with
    | none =>
      simp only [hp] at h
      cases h
      exact Or.inl rfl
    | some product =>
      simp only [hp] at h
      by_cases hlt : product.stockQuantity < item.quantity
      · rw [if_pos hlt] at h
        cases h
        exact Or.inr ⟨[], item, rest, product, rfl, hp, hlt, by simp, rfl⟩
      · rw [if_neg hlt] at h
        rcases ih h with h1 | ⟨pre, line, post, p, hl, hpm, hshort, hpre, hr⟩
        · exact Or.inl h1
        · refine Or.inr ⟨item :: pre, line, post, p, by simp [hl], hpm, hshort, ?_, hr⟩
          intro l hl1
          rcases List.mem_cons.mp hl1 with rfl | hl2
          · exact ⟨product, hp, not_lt.mp hlt⟩
          · exact hpre l hl2

/-- When every line has its product in the map and some line asks more than
the stock of its product, the loop answers `INSUFFICIENT_STOCK`. -/
theorem stockLoop_short {pm : Id → Option Product} {lines : List OrderLine}
    (total : Int) (items : List ItemData)
    (hall : ∀ l ∈ lines, ∃ p, pm l.product_id = some p)
    (hshort : ∃ l ∈ lines, ∃ p, pm l.product_id = some p ∧
      p.stockQuantity < l.quantity) :
    ∃ id name cur want, stockLoop pm lines total items =
      .error ⟨400, .insufficientStock id name cur want⟩ := by
  induction lines generalizing total items with
  | nil => obtain ⟨l, hl, -⟩ := hshort; simp at hl
  | cons item rest ih =>
    obtain ⟨product, hp⟩ := hall item (List.mem_cons_self _ _)
    unfold stockLoop
    simp only [hp]
    by_cases hlt : product.stockQuantity < item.quantity
    · rw [if_pos hlt]
      exact ⟨_, _, _, _, rfl⟩
    · rw [if_neg hlt]
      apply ih
      · exact fun l hl => hall l (List.mem_cons_of_mem _ hl)
      · obtain ⟨l, hl, p, hpl, hs⟩ := hshort
        rcases List.mem_cons.mp hl with rfl | hl2
        · rw [hp] at hpl; cases hpl; exact absurd hs hlt
        · exact ⟨l, hl2, p, hpl, hs⟩

/-- When the loop completes, every line had its product in the map with
enough stock; the prepared items are, in order, those of the lines, and the
total is the sum of their subtotals. -/
theorem stockLoop_ok {pm : Id → Option Product} {lines : List OrderLine}
    {total total1 : Int} {items items1 : List ItemData}
    (h : stockLoop pm lines total items = .ok (total1, items1)) :
    ∃ added, items1 = items ++ added ∧
      total1 = total + (added.map (fun i => i.total_price)).sum ∧
      List.Forall₂ (fun l i => ∃ p, pm l.product_id = some p ∧
        l.quantity ≤ p.stockQuantity ∧ i = lineItem p l) lines added := by
  induction lines generalizing total items with
  | nil =>
    simp only [stockLoop, Except.ok.injEq, Prod.mk.injEq] at h
    exact ⟨[], by simp [h.2], by simp [h.1], List.Forall₂.nil⟩
  | cons item rest ih =>
    unfold stockLoop at h
    cases hp : pm item.product_id with
    | none => simp only [hp] at h; cases h
    | some product =>
      simp only [hp] at h
      by_cases hlt : product.stockQuantity < item.quantity
      · rw [if_pos hlt] at h; cases h
      · rw [if_neg hlt] at h
        obtain ⟨added, hi, ht, hf⟩ := ih h
        refine ⟨lineItem product item :: added, ?_, ?_, ?_⟩
        · simp [hi, lineItem]
        · simp only [ht, lineItem, List.map_cons, List.sum_cons]; ring
        · exact List.Forall₂.cons ⟨product, hp, not_lt.mp hlt, rfl⟩ hf

/-! ## `createOrder`: what the handler reaches -/

theorem stockLoop_error_status {pm : Id → Option Product} {lines : List OrderLine}
    {total : Int} {items : List ItemData} {r : Response}
    (h : stockLoop pm lines total items = .error r) : r.status = 400 := by
  rcases stockLoop_error h with h1 | ⟨_, _, _, _, _, _, _, _, h1⟩ <;> rw [h1]

theorem createOrderCatch_status (name : String) :
    (createOrderCatch name).status ≠ 201 := by
  unfold createOrderCatch
  split_ifs <;> simp

/-- Line 108 reads `shippingAddress`, which line 10 does not declare. -/
theorem persistOrder_bodyVars (db : Db) (req : OrderRequest) (env : CreateEnv)
    (totalAmount : Int) (orderItems : List ItemData) :
    persistOrder (bodyVars req) db req env totalAmount orderItems =
      .error "ReferenceError" := by
  simp [persistOrder, evalIdent, bodyVars, List.lookup]

/-- The answers of `createOrderIn` other than 201 come with the database the
handler was given. -/
theorem createOrderIn_rollback (vars : List (String × Option String)) (db : Db)
    (req : OrderRequest) (env : CreateEnv)
    (h : (createOrderIn vars db req env).2.status ≠ 201) :
    (createOrderIn vars db req env).1 = db := by
  have key : ∀ r, createOrderIn vars db req env = r → r.2.status ≠ 201 → r.1 = db := by
    intro r hr h
    unfold createOrderIn at hr
    dsimp only at hr
    repeat' split at hr
    all_goals first
      | (subst hr; rfl)
      | (subst hr; exact absurd rfl h)
  exact key _ rfl h

/-- `createOrder` never answers 201 and never changes the database: a request
that passes every check ends in the `catch` block. -/
theorem createOrder_never_created (db : Db) (req : OrderRequest) (env : CreateEnv) :
    (createOrder db req env).2.status ≠ 201 ∧ (createOrder db req env).1 = db := by
  have key : ∀ r, createOrder db req env = r → r.2.status ≠ 201 := by
    intro r hr
    unfold createOrder createOrderIn at hr
    simp only [persistOrder_bodyVars] at hr
    repeat' split at hr
    all_goals first
      | (subst hr; exact createOrderCatch_status _)
      | (subst hr; rename_i h; rw [stockLoop_error_status h]; decide)
      | (subst hr; dsimp only; decide)
  exact ⟨key _ rfl, createOrderIn_rollback _ db req env (key _ rfl)⟩

/-! ## `createOrder`: the product lookup -/

theorem productMap_fold_some (l : List Product) (m : Id → Option Product) (k : Id)
    (p : Product)
    (h : l.foldl (fun m p => fun k => if k == p.id then some p else m k) m k = some p) :
    (p ∈ l ∧ p.id = k) ∨ m k = some p := by
  induction l generalizing m with
  | nil => exact Or.inr h
  | cons a t ih =>
    simp only [List.foldl_cons] at h
    rcases ih _ h with ⟨hm, hk⟩ | h1
    · exact Or.inl ⟨List.mem_cons_of_mem _ hm, hk⟩
    · by_cases hka : k = a.id
      · simp only [hka, beq_self_eq_true, if_true, Option.some.injEq] at h1
        subst h1
        exact Or.inl ⟨List.mem_cons_self _ _, hka.symm⟩
      · have : (k == a.id) = false := by simpa using hka
        simp only [this, Bool.false_eq_true, if_false] at h1
        exact Or.inr h1

theorem productMap_fold_isSome (l : List Product) (m : Id → Option Product) (k : Id)
    (h : (m k).isSome = true ∨ ∃ p ∈ l, p.id = k) :
    (l.foldl (fun m p => fun k => if k == p.id then some p else m k) m k).isSome =
      true := by
  induction l generalizing m with
  | nil =>
    rcases h with h | ⟨p, hp, -⟩
    · exact h
    · simp at hp
  | cons a t ih =>
    simp only [List.foldl_cons]
    apply ih
    by_cases hka : k = a.id
    · left; simp [hka]
    · have hb : (k == a.id) = false := by simpa using hka
      rcases h with h | ⟨p, hp, hk⟩
      · left; simpa [hb] using h
      · rcases List.mem_cons.mp hp with rfl | hp2
        · exact absurd hk.symm hka
        · exact Or.inr ⟨p, hp2, hk⟩

/-- A product read from the map is a row of the list the map was filled from,
and its key is the key asked for. -/
theorem productMap_some {l : List Product} {k : Id} {p : Product}
    (h : productMap l k = some p) : p ∈ l ∧ p.id = k := by
  rcases productMap_fold_some l _ k p h with h1 | h1
  · exact h1
  · cases h1

/-- A key carried by a row of the list is in the map. -/
theorem productMap_of_mem {l : List Product} {p : Product} (hp : p ∈ l) :
    ∃ q, productMap l p.id = some q := by
  have := productMap_fold_isSome l (fun _ => none) p.id (Or.inr ⟨p, hp, rfl⟩)
  exact Option.isSome_iff_exists.mp this

theorem mem_findActiveProducts {db : Db} {ids : List Id} {p : Product} :
    p ∈ findActiveProducts db ids ↔
      p ∈ db.products ∧ p.id ∈ ids ∧ p.isActive = true := by
  simp [findActiveProducts, List.mem_filter]

/-- With unique primary keys, two rows of `products` with the same key are the
same row. -/
theorem product_unique {db : Db} (hpk : (db.products.map (fun p => p.id)).Nodup)
    {p q : Product} (hp : p ∈ db.products) (hq : q ∈ db.products)
    (h : p.id = q.id) : p = q :=
  List.inj_on_of_nodup_map hpk hp hq h

theorem findActiveProducts_keys_nodup {db : Db}
    (hpk : (db.products.map (fun p => p.id)).Nodup) (ids : List Id) :
    ((findActiveProducts db ids).map (fun p => p.id)).Nodup := by
  unfold findActiveProducts
  exact hpk.sublist (List.Sublist.map _ (List.filter_sublist _))

/-- With unique primary keys, `findAll` returns fewer rows than there are
requested lines as soon as one requested key has no active product. -/
theorem findActiveProducts_length_lt {db : Db}
    (hpk : (db.products.map (fun p => p.id)).Nodup) (ids : List Id) (k : Id)
    (hk : k ∈ ids)
    (hmiss : ∀ p ∈ db.products, p.id = k → p.isActive = false) :
    (findActiveProducts db ids).length < ids.length := by
  have hnd := findActiveProducts_keys_nodup hpk ids
  have hnot : k ∉ (findActiveProducts db ids).map (fun p => p.id) := by
    intro hmem
    obtain ⟨p, hp, hpk1⟩ := List.mem_map.mp hmem
    have := mem_findActiveProducts.mp hp
    have h2 := hmiss p this.1 hpk1
    rw [this.2.2] at h2
    cases h2
  have hnd2 : (k :: (findActiveProducts db ids).map (fun p => p.id)).Nodup :=
    List.nodup_cons.mpr ⟨hnot, hnd⟩
  have hsub : (k :: (findActiveProducts db ids).map (fun p => p.id)) ⊆ ids := by
    intro x hx
    rcases List.mem_cons.mp hx with rfl | hx2
    · exact hk
    · obtain ⟨p, hp, rfl⟩ := List.mem_map.mp hx2
      exact (mem_findActiveProducts.mp hp).2.1
  have := (List.subperm_of_subset hnd2 hsub).length_le
  simp only [List.length_cons, List.length_map] at this
  omega

/-- With unique primary keys, when `findAll` returns as many rows as there are
requested lines, the requested keys are pairwise distinct and each has its
product among the rows returned. -/
theorem findActiveProducts_length_eq {db : Db}
    (hpk : (db.products.map (fun p => p.id)).Nodup) (ids : List Id)
    (hlen : (findActiveProducts db ids).length = ids.length) :
    ids.Nodup ∧ ∀ k ∈ ids, ∃ p ∈ findActiveProducts db ids, p.id = k := by
  have hnd := findActiveProducts_keys_nodup hpk ids
  have hsub : (findActiveProducts db ids).map (fun p => p.id) ⊆ ids := by
    intro x hx
    obtain ⟨p, hp, rfl⟩ := List.mem_map.mp hx
    exact (mem_findActiveProducts.mp hp).2.1
  have hperm : List.Perm ((findActiveProducts db ids).map (fun p => p.id)) ids :=
    (List.subperm_of_subset hnd hsub).perm_of_length_le (by simp [hlen])
  refine ⟨hperm.nodup_iff.mp hnd, fun k hk => ?_⟩
  obtain ⟨p, hp, hpk1⟩ := List.mem_map.mp (hperm.mem_iff.mpr hk)
  exact ⟨p, hp, hpk1⟩

/-- With unique primary keys and pairwise distinct requested keys that all
have an active product, `findAll` returns as many rows as there are lines. -/
theorem findActiveProducts_length_of_all {db : Db}
    (hpk : (db.products.map (fun p => p.id)).Nodup) (ids : List Id)
    (hnd : ids.Nodup)
    (hall : ∀ k ∈ ids, ∃ p ∈ db.products, p.id = k ∧ p.isActive = true) :
    (findActiveProducts db ids).length = ids.length := by
  have hnd1 := findActiveProducts_keys_nodup hpk ids
  have hperm : List.Perm ((findActiveProducts db ids).map (fun p => p.id)) ids := by
    rw [List.perm_ext_iff_of_nodup hnd1 hnd]
    intro k
    constructor
    · intro hx
      obtain ⟨p, hp, rfl⟩ := List.mem_map.mp hx
      exact (mem_findActiveProducts.mp hp).2.1
    · intro hk
      obtain ⟨p, hp, hpk1, hact⟩ := hall k hk
      exact List.mem_map.mpr ⟨p, mem_findActiveProducts.mpr ⟨hp, hpk1 ▸ hk, hact⟩, hpk1⟩
  simpa using hperm.length_eq

theorem createOrderCatch_error (name : String) :
    (createOrderCatch name).body.error? ≠ some "INSUFFICIENT_STOCK" := by
  unfold createOrderCatch
  split_ifs <;> simp [Body.error?]

/-- An `INSUFFICIENT_STOCK` answer of `createOrderIn` comes from the stock
loop, at the first line in request order that asks more than the stock of
its product. -/
theorem createOrderIn_insufficient (vars : List (String × Option String)) (db : Db)
    (req : OrderRequest) (env : CreateEnv)
    (hpk : (db.products.map (fun p => p.id)).Nodup)
    (h : (createOrderIn vars db req env).2.body.error? = some "INSUFFICIENT_STOCK") :
    ∃ pre line post p, req.products = pre ++ line :: post ∧
      p ∈ db.products ∧ p.id = line.product_id ∧
      p.stockQuantity < line.quantity ∧
      (∀ l ∈ pre, ∀ q ∈ db.products, q.id = l.product_id →
        l.quantity ≤ q.stockQuantity) ∧
      createOrderIn vars db req env =
        (db, ⟨400, .insufficientStock p.id p.name p.stockQuantity line.quantity⟩) := by
  have key : ∀ r, createOrderIn vars db req env = r →
      r.2.body.error? = some "INSUFFICIENT_STOCK" →
      ∃ pre line post p, req.products = pre ++ line :: post ∧
        p ∈ db.products ∧ p.id = line.product_id ∧
        p.stockQuantity < line.quantity ∧
        (∀ l ∈ pre, ∀ q ∈ db.products, q.id = l.product_id →
          l.quantity ≤ q.stockQuantity) ∧
        r = (db, ⟨400, .insufficientStock p.id p.name p.stockQuantity
          line.quantity⟩) := by
    intro r hr h
    unfold createOrderIn at hr
    dsimp only at hr
    repeat' split at hr
    all_goals first
      | (subst hr; exact absurd h (createOrderCatch_error _))
      | (subst hr; simp [Body.error?] at h; done)
      | skip
    rename_i answer hloop
    subst hr
    rcases stockLoop_error hloop with h1 | ⟨pre, line, post, p, hl, hpm, hshort, hpre, hans⟩
    · rw [h1] at h; simp [Body.error?] at h
    · obtain ⟨hp, hid⟩ := productMap_some hpm
      refine ⟨pre, line, post, p, hl, (mem_findActiveProducts.mp hp).1, hid, hshort,
        ?_, by rw [hans]⟩
      intro l hl1 q hq hqid
      obtain ⟨q1, hq1, hle⟩ := hpre l hl1
      obtain ⟨hq1m, hq1id⟩ := productMap_some hq1
      have : q = q1 :=
        product_unique hpk hq (mem_findActiveProducts.mp hq1m).1 (by rw [hqid, hq1id])
      rw [this]; exact hle
  exact key _ rfl h

/-! ## `createOrder`: order of the checks (C4) and the stock report (C9) -/

/-- C9: when `createOrder` answers `INSUFFICIENT_STOCK` (product keys being
unique), the request splits at a line whose product is in the database with a
stock below the line's quantity, every earlier line asks no more than the stock
of its product, and the answer is 400 with `product.id` and `product.name` that
product's, `current_stock` its stock before the call and `requested_quantity`
the line's quantity; the database is returned as it was. -/
theorem createOrder_reports_first_short_line (db : Db) (req : OrderRequest)
    (env : CreateEnv) (hpk : (db.products.map (fun p => p.id)).Nodup)
    (h : (createOrder db req env).2.body.error? = some "INSUFFICIENT_STOCK") :
    ∃ pre line post p, req.products = pre ++ line :: post ∧
      p ∈ db.products ∧ p.id = line.product_id ∧
      p.stockQuantity < line.quantity ∧
      (∀ l ∈ pre, ∀ q ∈ db.products, q.id = l.product_id →
        l.quantity ≤ q.stockQuantity) ∧
      createOrder db req env =
        (db, ⟨400, .insufficientStock p.id p.name p.stockQuantity line.quantity⟩) :=
  createOrderIn_insufficient (bodyVars req) db req env hpk h

/-- Witness of C9: stock 5, quantity 10, after a line that can be served. -/
theorem createOrder_reports_first_short_line_witness :
    (sampleDb.products.map (fun p => p.id)).Nodup ∧
    (createOrder sampleDb mixedRequest sampleEnv).2.body.error? =
      some "INSUFFICIENT_STOCK" ∧
    createOrder sampleDb mixedRequest sampleEnv =
      (sampleDb, ⟨400, .insufficientStock 11 "low stock" 5 10⟩) ∧
    ∃ (pre : List OrderLine) (line : OrderLine) (post : List OrderLine)
      (p : Product), mixedRequest.products = pre ++ line :: post ∧
      p ∈ sampleDb.products ∧ p.id = line.product_id ∧
      p.stockQuantity < line.quantity ∧
      (∀ l ∈ pre, ∀ q ∈ sampleDb.products, q.id = l.product_id →
        l.quantity ≤ q.stockQuantity) ∧
      createOrder sampleDb mixedRequest sampleEnv =
        (sampleDb, ⟨400, .insufficientStock p.id p.name p.stockQuantity
          line.quantity⟩) :=
  ⟨by decide, by decide, by decide,
    createOrder_reports_first_short_line sampleDb mixedRequest sampleEnv
      (by decide) (by decide)⟩

theorem createOrderIn_products_not_found (vars : List (String × Option String))
    (db : Db) (req : OrderRequest) (env : CreateEnv) (u : User)
    (hu : findUser db req.user_id = some u) (hact : u.isActive = true)
    (hids : ∀ l ∈ req.products, isUuid l.product_id = true)
    (hlen : (findActiveProducts db (req.products.map (fun p => p.product_id))).length ≠
      (req.products.map (fun p => p.product_id)).length) :
    createOrderIn vars db req env = (db, ⟨400, .failure "PRODUCTS_NOT_FOUND"⟩) := by
  have hall : (req.products.map (fun p => p.product_id)).all isUuid = true := by
    simp only [List.all_eq_true, List.mem_map]
    rintro _ ⟨l, hl, rfl⟩
    exact hids l hl
  have hne : ((findActiveProducts db (req.products.map (fun p => p.product_id))).length !=
      (req.products.map (fun p => p.product_id)).length) = true := by
    simpa using hlen
  unfold createOrderIn
  simp only [hu, hact, Bool.not_true, Bool.false_eq_true, if_false, hne, if_true, hall]

theorem createOrderIn_malformed_product (vars : List (String × Option String))
    (db : Db) (req : OrderRequest) (env : CreateEnv) (u : User)
    (hu : findUser db req.user_id = some u) (hact : u.isActive = true)
    (hids : ∃ l ∈ req.products, isUuid l.product_id = false)
    (hlen : (findActiveProducts db (req.products.map (fun p => p.product_id))).length ≠
      (req.products.map (fun p => p.product_id)).length) :
    createOrderIn vars db req env = (db, createOrderCatch "SequelizeDatabaseError") := by
  have hall : (req.products.map (fun p => p.product_id)).all isUuid = false := by
    obtain ⟨l, hl, hno⟩ := hids
    rw [Bool.eq_false_iff]
    intro h
    simp only [List.all_eq_true, List.mem_map] at h
    have := h l.product_id ⟨l, hl, rfl⟩
    rw [hno] at this
    cases this
  have hne : ((findActiveProducts db (req.products.map (fun p => p.product_id))).length !=
      (req.products.map (fun p => p.product_id)).length) = true := by
    simpa using hlen
  unfold createOrderIn
  simp only [hu, hact, Bool.not_true, Bool.false_eq_true, if_false, hne, if_true, hall,
    Bool.not_false]

theorem createOrderIn_loop (vars : List (String × Option String))
    (db : Db) (req : OrderRequest) (env : CreateEnv) (u : User)
    (hu : findUser db req.user_id = some u) (hact : u.isActive = true)
    (hlen : (findActiveProducts db (req.products.map (fun p => p.product_id))).length =
      (req.products.map (fun p => p.product_id)).length) :
    createOrderIn vars db req env =
      match stockLoop (productMap (findActiveProducts db
          (req.products.map (fun p => p.product_id)))) req.products 0 [] with
      | .error answer => (db, answer)
      | .ok (totalAmount, orderItems) =>
        match persistOrder vars db req env totalAmount orderItems with
        | .error name => (db, createOrderCatch name)
        | .ok (db1, order, count) =>
          (db1, ⟨201, .created order.id order.orderNumber
            (toFixed2 order.totalAmount) order.status count order.createdAt⟩) := by
  simp only [List.length_map] at hlen
  simp [createOrderIn, hu, hact, hlen]

/-- A `user_id` that is no UUID names no row: `findByPk` raises on it, and the
`catch` block answers 500 `INTERNAL_SERVER_ERROR`, touching nothing. -/
theorem createOrder_malformed_user (db : Db) (req : OrderRequest) (env : CreateEnv)
    (h : findUser db req.user_id = none) (hid : isUuid req.user_id = false) :
    createOrder db req env = (db, ⟨500, .failure "INTERNAL_SERVER_ERROR"⟩) := by
  unfold createOrder createOrderIn
  simp only [h, hid, Bool.not_false, if_true]
  rfl

/-- C4: for every order request and database (product keys unique; the
identifiers of the request UUIDs, as everywhere in the interface),
`createOrder` reports the first failing check only.  A missing user gives 404
`USER_NOT_FOUND` and an inactive user 400 `USER_INACTIVE`, whatever the
products.  With an active user, a requested product that is missing or
inactive gives 400 `PRODUCTS_NOT_FOUND`, whatever the stock.  With an active
user and all requested products present and active, the answer is 400
`INSUFFICIENT_STOCK` exactly when some line asks more than the current stock of
its product (a line asking exactly the stock passes).  The last part is for
requests as `validateOrderInput` lets them through to the handler, with no
product named twice. -/
theorem createOrder_check_order (db : Db) (req : OrderRequest) (env : CreateEnv)
    (hpk : (db.products.map (fun p => p.id)).Nodup) :
    (findUser db req.user_id = none → isUuid req.user_id = true →
      createOrder db req env = (db, ⟨404, .failure "USER_NOT_FOUND"⟩)) ∧
    (∀ u, findUser db req.user_id = some u → u.isActive = false →
      createOrder db req env = (db, ⟨400, .failure "USER_INACTIVE"⟩)) ∧
    (∀ u, findUser db req.user_id = some u → u.isActive = true →
      ((∀ l ∈ req.products, isUuid l.product_id = true) →
        (∃ l ∈ req.products, ∀ p ∈ db.products, p.id = l.product_id →
          p.isActive = false) →
        createOrder db req env = (db, ⟨400, .failure "PRODUCTS_NOT_FOUND"⟩)) ∧
      ((∀ l ∈ req.products, ∃ p ∈ db.products, p.id = l.product_id ∧
          p.isActive = true) →
        (req.products.map (fun l => l.product_id)).Nodup →
        (((createOrder db req env).2.status = 400 ∧
            (createOrder db req env).2.body.error? = some "INSUFFICIENT_STOCK") ↔
          ∃ l ∈ req.products, ∃ p ∈ db.products, p.id = l.product_id ∧
            p.stockQuantity < l.quantity))) := by
  refine ⟨fun h hid => ?_, fun u hu hact => ?_, fun u hu hact => ⟨fun hids hmiss => ?_,
    fun hall hnd => ⟨fun h => ?_, fun h => ?_⟩⟩⟩
  · unfold createOrder createOrderIn
    simp only [h, hid, Bool.not_true, Bool.false_eq_true, if_false]
  · simp [createOrder, createOrderIn, hu, hact]
  · obtain ⟨l, hl, hno⟩ := hmiss
    apply createOrderIn_products_not_found _ db req env u hu hact hids
    exact ne_of_lt (findActiveProducts_length_lt hpk _ l.product_id
      (List.mem_map.mpr ⟨l, hl, rfl⟩) hno)
  · obtain ⟨pre, line, post, p, hl, hp, hid, hshort, -, -⟩ :=
      createOrderIn_insufficient (bodyVars req) db req env hpk h.2
    exact ⟨line, by simp [hl], p, hp, hid, hshort⟩
  · have hall2 : ∀ k ∈ req.products.map (fun l => l.product_id),
        ∃ p ∈ db.products, p.id = k ∧ p.isActive = true := by
      intro k hk
      obtain ⟨l, hl, rfl⟩ := List.mem_map.mp hk
      exact hall l hl
    have hlen := findActiveProducts_length_of_all hpk _ hnd hall2
    have hpm : ∀ l ∈ req.products, ∀ p ∈ db.products, p.id = l.product_id →
        p.isActive = true →
        productMap (findActiveProducts db
          (req.products.map (fun l => l.product_id))) l.product_id = some p := by
      intro l hl p hp hid hact1
      have hmem : p ∈ findActiveProducts db (req.products.map (fun l => l.product_id)) :=
        mem_findActiveProducts.mpr ⟨hp, List.mem_map.mpr ⟨l, hl, hid.symm⟩, hact1⟩
      obtain ⟨q, hq⟩ := productMap_of_mem hmem
      obtain ⟨hq1, hq2⟩ := productMap_some hq
      have : q = p := product_unique hpk (mem_findActiveProducts.mp hq1).1 hp hq2
      rw [← hid, hq, this]
    have hA : ∀ l ∈ req.products, ∃ p, productMap (findActiveProducts db
        (req.products.map (fun l => l.product_id))) l.product_id = some p := by
      intro l hl
      obtain ⟨p, hp, hid, hact1⟩ := hall l hl
      exact ⟨p, hpm l hl p hp hid hact1⟩
    have hS : ∃ l ∈ req.products, ∃ p, productMap (findActiveProducts db
        (req.products.map (fun l => l.product_id))) l.product_id = some p ∧
        p.stockQuantity < l.quantity := by
      obtain ⟨l, hl, p, hp, hid, hshort⟩ := h
      obtain ⟨p1, hp1, hid1, hact1⟩ := hall l hl
      have : p = p1 := product_unique hpk hp hp1 (by rw [hid, hid1])
      exact ⟨l, hl, p, hpm l hl p hp hid (this ▸ hact1), hshort⟩
    obtain ⟨a, b, c, d, hloop⟩ := stockLoop_short 0 [] hA hS
    unfold createOrder
    rw [createOrderIn_loop _ db req env u hu hact hlen, hloop]
    exact ⟨rfl, rfl⟩

/-- Witness of C4: on `sampleDb`, a request of a user that is not stored is
answered 404, one for a product that is not stored 400 `PRODUCTS_NOT_FOUND`;
a line asking exactly the stock passes and the next line, asking more than its
stock, is reported. -/
theorem createOrder_check_order_witness :
    (sampleDb.products.map (fun p => p.id)).Nodup ∧
    createOrder sampleDb { mixedRequest with user_id := 2 } sampleEnv =
      (sampleDb, ⟨404, .failure "USER_NOT_FOUND"⟩) ∧
    createOrder sampleDb { mixedRequest with products := [⟨10, 1⟩, ⟨12, 1⟩] } sampleEnv =
      (sampleDb, ⟨400, .failure "PRODUCTS_NOT_FOUND"⟩) ∧
    findUser sampleDb mixedRequest.user_id = some sampleUser ∧
    (createOrder sampleDb mixedRequest sampleEnv).2.status = 400 ∧
    (createOrder sampleDb mixedRequest sampleEnv).2.body.error? =
      some "INSUFFICIENT_STOCK" ∧
    (∃ l ∈ mixedRequest.products, ∃ p ∈ sampleDb.products,
      p.id = l.product_id ∧ p.stockQuantity < l.quantity) :=
  ⟨by decide,
    (createOrder_check_order sampleDb { mixedRequest with user_id := 2 } sampleEnv
      (by decide)).1 (by decide) (by decide),
    ((createOrder_check_order sampleDb
      { mixedRequest with products := [⟨10, 1⟩, ⟨12, 1⟩] } sampleEnv (by decide)).2.2
      sampleUser (by decide) (by decide)).1 (by decide) (by decide),
    by decide, by decide, by decide,
    ((createOrder_check_order sampleDb mixedRequest sampleEnv (by decide)).2.2
      sampleUser (by decide) (by decide)).2 (by decide) (by decide) |>.mp
      ⟨by decide, by decide⟩⟩

/-- A request naming a product twice, which `validateOrderInput` answers with
`DUPLICATE_PRODUCTS` before the handler runs: the handler itself would answer
`PRODUCTS_NOT_FOUND`, the rows found being fewer than the lines. -/
theorem createOrder_duplicate_lines :
    findUser sampleDb duplicateLines.user_id = some sampleUser ∧
    sampleUser.isActive = true ∧
    (∀ l ∈ duplicateLines.products, ∃ p ∈ sampleDb.products,
      p.id = l.product_id ∧ p.isActive = true) ∧
    (∃ l ∈ duplicateLines.products, ∃ p ∈ sampleDb.products,
      p.id = l.product_id ∧ p.stockQuantity < l.quantity) ∧
    createOrder sampleDb duplicateLines sampleEnv =
      (sampleDb, ⟨400, .failure "PRODUCTS_NOT_FOUND"⟩) := by
  decide

/-! ## `createOrder`: the writes of the transaction -/

theorem orderCreate_ok {db db1 : Db} {row : Order} (h : Order.create db row = .ok db1) :
    db1 = { db with orders := db.orders ++ [row] } := by
  unfold Order.create at h
  exact ((ok_of_ite_ite h).1).symm

/-- Every `OrderItem.create` of lines 113-120 is refused: of the keys of the
object it is handed, `product_id`, `unit_price` and `total_price` name no
attribute, so `productId`, `unitPrice` and `totalPrice` are null. -/
theorem orderItemCreate_itemValues (db : Db) (id orderId : Id) (item : ItemData) :
    OrderItem.create db id (itemValues orderId item) =
      .error "SequelizeValidationError" :=
  rfl

theorem createItems_cons (itemId : Nat → Id) (orderId : Id) (item : ItemData)
    (rest : List ItemData) (n : Nat) (db : Db) :
    createItems itemId orderId (item :: rest) n db =
      .error "SequelizeValidationError" := by
  unfold createItems
  rw [orderItemCreate_itemValues]

/-- The items created for an order: `createItems` succeeds on the empty list
only, and writes nothing then. -/
theorem createItems_ok {itemId : Nat → Id} {orderId : Id} {items : List ItemData}
    {n : Nat} {db db1 : Db} {rows : List OrderItem}
    (h : createItems itemId orderId items n db = .ok (db1, rows)) :
    items = [] ∧ db1 = db ∧ rows = [] := by
  cases items with
  | nil =>
    simp only [createItems, Except.ok.injEq, Prod.mk.injEq] at h
    exact ⟨rfl, h.1.symm, h.2.symm⟩
  | cons item rest =>
    rw [createItems_cons] at h
    cases h

theorem find_none_of_not_mem (items : List ItemData) (k : Id)
    (h : k ∉ items.map (fun i => i.product_id)) :
    items.find? (fun i => i.product_id == k) = none := by
  rw [List.find?_eq_none]
  intro i hi hk
  exact h (List.mem_map.mpr ⟨i, hi, by simpa using hk⟩)

/-- The decrements of lines naming pairwise distinct products leave every
product with its stock less the quantity of its line, and the others as they
were. -/
theorem decrementAll_eq (db : Db) (items : List ItemData)
    (hnd : (items.map (fun i => i.product_id)).Nodup) :
    decrementAll db items =
      { db with products := db.products.map (afterDecrement items) } := by
  induction items generalizing db with
  | nil =>
    have : afterDecrement [] = fun p => p := by
      funext p; simp [afterDecrement]
    simp [decrementAll, this]
  | cons it rest ih =>
    simp only [List.map_cons, List.nodup_cons] at hnd
    have hstep : decrementAll db (it :: rest) =
        decrementAll (db.decrementStock it.product_id it.quantity) rest := by
      simp [decrementAll]
    rw [hstep, ih _ hnd.2]
    simp only [Db.decrementStock, List.map_map]
    congr 1
    apply List.map_congr_left
    intro p _
    simp only [Function.comp]
    by_cases hp : p.id = it.product_id
    · have h1 : (p.id == it.product_id) = true := by simp [hp]
      have h2 : (it.product_id == p.id) = true := by simp [hp]
      simp only [h1, if_true, afterDecrement, List.find?_cons, h2]
      rw [find_none_of_not_mem rest p.id (by rw [hp]; exact hnd.1)]
    · have h1 : (p.id == it.product_id) = false := by simpa using hp
      have h2 : (it.product_id == p.id) = false := by
        simpa using fun h => hp h.symm
      simp only [h1, Bool.false_eq_true, if_false, afterDecrement, List.find?_cons, h2]

/-- What `persistOrder` commits: the order row, and nothing else, there being
no prepared item when it succeeds. -/
theorem persistOrder_ok {vars : List (String × Option String)} {db db1 : Db}
    {req : OrderRequest} {env : CreateEnv} {total : Int} {items : List ItemData}
    {order : Order} {count : Nat}
    (h : persistOrder vars db req env total items = .ok (db1, order, count)) :
    items = [] ∧
      db1 = { db with orders := db.orders ++ [order] } ∧
      order.id = env.orderId ∧ order.userId = req.user_id ∧
      order.orderNumber = env.orderNumber ∧ order.totalAmount = total ∧
      order.status = "pending" ∧ order.paymentStatus = "pending" ∧
      order.createdAt = env.now ∧ count = 0 := by
  unfold persistOrder at h
  cases h1 : evalIdent vars "shippingAddress" with
  | error e => simp only [h1] at h; cases h
  | ok sa =>
    cases h2 : evalIdent vars "notes" with
    | error e => simp only [h1, h2] at h; cases h
    | ok nt =>
      simp only [h1, h2] at h
      split at h
      · cases h
      · rename_i d1 hc
        split at h
        · cases h
        · rename_i d2 rows hi
          simp only [Except.ok.injEq, Prod.mk.injEq] at h
          obtain ⟨rfl, rfl, rfl⟩ := h
          obtain ⟨hnil, hd2, hrows⟩ := createItems_ok hi
          subst hnil
          subst hrows
          refine ⟨rfl, ?_, rfl, rfl, rfl, rfl, rfl, rfl, rfl, rfl⟩
          rw [hd2, orderCreate_ok hc]
          rfl

theorem forall₂_mem_right {α β : Type} {R : α → β → Prop} {l : List α} {m : List β}
    (h : List.Forall₂ R l m) {b : β} (hb : b ∈ m) : ∃ a ∈ l, R a b := by
  induction h with
  | nil => simp at hb
  | cons hr _ ih =>
    rcases List.mem_cons.mp hb with rfl | hb2
    · exact ⟨_, List.mem_cons_self _ _, hr⟩
    · obtain ⟨a, ha, hab⟩ := ih hb2
      exact ⟨a, List.mem_cons_of_mem _ ha, hab⟩

theorem forall₂_map_eq {α β γ : Type} {R : α → β → Prop} {f : α → γ} {g : β → γ}
    {l : List α} {m : List β} (h : List.Forall₂ R l m)
    (hfg : ∀ a b, R a b → g b = f a) : m.map g = l.map f := by
  induction h with
  | nil => rfl
  | cons hr _ ih => simp [hfg _ _ hr, ih]

/-- The success path of `createOrderIn`, in full.  An answer 201 is given only
to a request with no line, which `validateOrderInput` does not let through: a
line that passes the checks is refused by `OrderItem.create`.  One order row is
then added, pending and unpaid, with total 0, and nothing else changes. -/
theorem createOrderIn_created (vars : List (String × Option String)) (db : Db)
    (req : OrderRequest) (env : CreateEnv)
    (h : (createOrderIn vars db req env).2.status = 201) :
    req.products = [] ∧
    ∃ order : Order,
      (createOrderIn vars db req env).1 = { db with orders := db.orders ++ [order] } ∧
      order.id = env.orderId ∧ order.userId = req.user_id ∧
      order.status = "pending" ∧ order.paymentStatus = "pending" ∧
      order.totalAmount = 0 ∧
      (createOrderIn vars db req env).2 =
        ⟨201, .created env.orderId env.orderNumber (toFixed2 0) "pending" 0 env.now⟩ := by
  have key : ∀ r, createOrderIn vars db req env = r → r.2.status = 201 →
      req.products = [] ∧
      ∃ order : Order,
        r.1 = { db with orders := db.orders ++ [order] } ∧
        order.id = env.orderId ∧ order.userId = req.user_id ∧
        order.status = "pending" ∧ order.paymentStatus = "pending" ∧
        order.totalAmount = 0 ∧
        r.2 =
          ⟨201, .created env.orderId env.orderNumber (toFixed2 0) "pending" 0 env.now⟩ := by
    intro r hr h
    unfold createOrderIn at hr
    dsimp only at hr
    repeat' split at hr
    all_goals first
      | (subst hr; exact absurd h (createOrderCatch_status _))
      | (subst hr; rename_i h1; rw [stockLoop_error_status h1] at h; cases h)
      | (subst hr; dsimp only at h; omega)
      | skip
    rename_i _ user hu hact hlen _ total items hloop _ db1 order count hpersist
    subst hr
    obtain ⟨added, hitems, htotal, hf⟩ := stockLoop_ok hloop
    simp only [List.nil_append] at hitems
    subst hitems
    obtain ⟨hnil, hdb, ho1, ho2, ho3, ho4, ho5, ho6, ho7, hcount⟩ :=
      persistOrder_ok hpersist
    subst hnil
    have hp : req.products = [] :=
      List.eq_nil_of_length_eq_zero (by simpa using hf.length_eq)
    have ht : order.totalAmount = 0 := by
      rw [ho4, htotal]
      simp
    refine ⟨hp, order, hdb, ho1, ho2, ho5, ho6, ht, ?_⟩
    simp only [ho1, ho3, ho5, ho7, hcount, ht]
  exact key _ rfl h

/-- A request with a line is never answered 201, whatever the scope. -/
theorem createOrderIn_lines_not_created (vars : List (String × Option String))
    (db : Db) (req : OrderRequest) (env : CreateEnv) (h : req.products ≠ []) :
    (createOrderIn vars db req env).2.status ≠ 201 :=
  fun h201 => h (createOrderIn_created vars db req env h201).1

/-! ## `createOrder`: atomicity (C5) and the stock invariant (C7) -/

/-- C5: whenever the handler answers anything other than 201, the database it
returns is the one it was given: orders, order items and every product's stock
are as before the call, also when the failure comes after writes to the
working copy.  Stated for the body of `createOrder` under any scope `vars`;
`createOrder db req env` is `createOrderIn (bodyVars req) db req env`. -/
theorem createOrder_failure_persists_nothing (vars : List (String × Option String))
    (db : Db) (req : OrderRequest) (env : CreateEnv)
    (h : (createOrderIn vars db req env).2.status ≠ 201) :
    (createOrderIn vars db req env).1 = db :=
  createOrderIn_rollback vars db req env h

/-- Witness of C5: `createOrder` on a request whose second line lacks stock
(400, first line's stock not decremented), and the body under the intended
scope on a line refused by `OrderItem.create` after the order row was written
(400, nothing kept). -/
theorem createOrder_failure_persists_nothing_witness :
    ((createOrder sampleDb mixedRequest sampleEnv).2.status ≠ 201 ∧
      (createOrder sampleDb mixedRequest sampleEnv).2.status = 400 ∧
      (createOrderIn (bodyVars mixedRequest) sampleDb mixedRequest sampleEnv).1 =
        sampleDb) ∧
    ((createOrderIn (intendedVars zeroQuantity) sampleDb zeroQuantity sampleEnv).2 =
        ⟨400, .failure "VALIDATION_ERROR"⟩ ∧
      (createOrderIn (intendedVars zeroQuantity) sampleDb zeroQuantity sampleEnv).1 =
        sampleDb) :=
  ⟨⟨by decide, by decide,
      createOrder_failure_persists_nothing (bodyVars mixedRequest) sampleDb
        mixedRequest sampleEnv (by decide)⟩,
    ⟨by decide,
      createOrder_failure_persists_nothing (intendedVars zeroQuantity) sampleDb
        zeroQuantity sampleEnv (by decide)⟩⟩

theorem afterDecrement_nonneg {db : Db} {lines : List OrderLine}
    {items : List ItemData} (hpk : (db.products.map (fun p => p.id)).Nodup)
    (hf : List.Forall₂ (fun l i => ∃ p ∈ db.products, p.id = l.product_id ∧
      p.isActive = true ∧ l.quantity ≤ p.stockQuantity ∧ i = lineItem p l)
      lines items)
    {p : Product} (hp : p ∈ db.products) (hnn : 0 ≤ p.stockQuantity) :
    0 ≤ (afterDecrement items p).stockQuantity := by
  unfold afterDecrement
  cases hfind : items.find? (fun i => i.product_id == p.id) with
  | none => exact hnn
  | some i =>
    have hi := List.mem_of_find?_eq_some hfind
    have hid : i.product_id = p.id := by
      simpa using List.find?_some hfind
    obtain ⟨l, -, q, hq, -, -, hle, hiq⟩ := forall₂_mem_right hf hi
    have hqp : q = p := by
      apply product_unique hpk hq hp
      rw [← hid, hiq]; rfl
    subst hqp
    simp only [hiq, lineItem]
    omega

/-- The decrements of lines 123-133 after the stock check of lines 61-86: on
a database with unique product keys in which no product has a negative stock,
for lines naming pairwise distinct products that passed the loop, no product
has a negative stock once the prepared items are applied. -/
theorem decrementAll_stock_nonneg {db : Db} {lines : List OrderLine} {total : Int}
    {items : List ItemData} (hpk : (db.products.map (fun p => p.id)).Nodup)
    (hnd : (lines.map (fun l => l.product_id)).Nodup)
    (hloop : stockLoop (productMap (findActiveProducts db
      (lines.map (fun l => l.product_id)))) lines 0 [] = .ok (total, items))
    (hnn : ∀ p ∈ db.products, 0 ≤ p.stockQuantity) :
    ∀ p ∈ (decrementAll db items).products, 0 ≤ p.stockQuantity := by
  obtain ⟨added, hitems, -, hf⟩ := stockLoop_ok hloop
  simp only [List.nil_append] at hitems
  subst hitems
  have hf2 : List.Forall₂ (fun l i => ∃ p ∈ db.products, p.id = l.product_id ∧
      p.isActive = true ∧ l.quantity ≤ p.stockQuantity ∧ i = lineItem p l)
      lines items := by
    refine hf.imp ?_
    rintro l i ⟨p, hpm, hle, hi⟩
    obtain ⟨hmem, hid⟩ := productMap_some hpm
    obtain ⟨hp, -, hactive⟩ := mem_findActiveProducts.mp hmem
    exact ⟨p, hp, hid, hactive, hle, hi⟩
  have hids : items.map (fun i => i.product_id) = lines.map (fun l => l.product_id) := by
    apply forall₂_map_eq hf2
    rintro l i ⟨p, -, hid, -, -, hi⟩
    rw [hi]; exact hid
  rw [decrementAll_eq _ _ (by rw [hids]; exact hnd)]
  intro p hp
  obtain ⟨q, hq, rfl⟩ := List.mem_map.mp hp
  exact afterDecrement_nonneg hpk hf2 hq (hnn q hq)

/-- C7: on a database in which no product has a negative stock, the database
the handler returns, whether it answers 201 or fails, again has no product with
a negative stock.  Stated for the body of `createOrder` under any scope `vars`;
`createOrder db req env` is `createOrderIn (bodyVars req) db req env`. -/
theorem createOrder_stock_never_negative (vars : List (String × Option String))
    (db : Db) (req : OrderRequest) (env : CreateEnv)
    (hnn : ∀ p ∈ db.products, 0 ≤ p.stockQuantity) :
    ∀ p ∈ (createOrderIn vars db req env).1.products, 0 ≤ p.stockQuantity := by
  by_cases h : (createOrderIn vars db req env).2.status = 201
  · obtain ⟨-, order, hdb, -⟩ := createOrderIn_created vars db req env h
    rw [hdb]
    exact hnn
  · rw [createOrderIn_rollback vars db req env h]
    exact hnn

/-- Witness of C7: `createOrder` on scenario A, and the body under the
intended scope on a line asking exactly the stock, which passes the stock check
and is refused at `OrderItem.create`, the stock staying as it was. -/
theorem createOrder_stock_never_negative_witness :
    (∀ p ∈ sampleDb.products, 0 ≤ p.stockQuantity) ∧
    (∀ p ∈ (createOrder sampleDb scenarioA sampleEnv).1.products,
      0 ≤ p.stockQuantity) ∧
    (createOrderIn (intendedVars exactStock) sampleDb exactStock sampleEnv).1.products =
      [highStock, lowStock] ∧
    (∀ p ∈ (createOrderIn (intendedVars exactStock) sampleDb exactStock
        sampleEnv).1.products, 0 ≤ p.stockQuantity) :=
  ⟨by decide,
    createOrder_stock_never_negative (bodyVars scenarioA) sampleDb scenarioA
      sampleEnv (by decide),
    by decide,
    createOrder_stock_never_negative (intendedVars exactStock) sampleDb exactStock
      sampleEnv (by decide)⟩

/-! ## `createOrder`: the success path is not reached (C6, C8, C10) -/

/-- C6, the code at scenario A (stock 1000, quantity 2, every check passed):
`createOrder` answers 500 `INTERNAL_SERVER_ERROR` and the stock stays 1000,
where the claim has 201 and 998. -/
theorem createOrder_scenarioA_stock :
    createOrder sampleDb scenarioA sampleEnv =
      (sampleDb, ⟨500, .failure "INTERNAL_SERVER_ERROR"⟩) ∧
    (createOrder sampleDb scenarioA sampleEnv).1.products.map
      (fun p => (p.id, p.stockQuantity)) = [(10, 1000), (11, 5)] := by
  decide

/-- C8, the code at price 99.99 and quantity 2: `createOrder` answers 500
`INTERNAL_SERVER_ERROR` and stores no order, where the claim has a stored
pending order and `total_amount` "199.98". -/
theorem createOrder_minimal_total :
    (createOrder sampleDb minimalRequest sampleEnv).2 =
      ⟨500, .failure "INTERNAL_SERVER_ERROR"⟩ ∧
    (createOrder sampleDb minimalRequest sampleEnv).1.orders = sampleDb.orders ∧
    findOrder (createOrder sampleDb minimalRequest sampleEnv).1 sampleEnv.orderId =
      none := by
  decide

/-- C10, the code at a request for two distinct products in stock:
`createOrder` answers 500 `INTERNAL_SERVER_ERROR` and stores no order item,
where the claim has 201 and two items. -/
theorem createOrder_twoProducts_items :
    (createOrder sampleDb twoProducts sampleEnv).2 =
      ⟨500, .failure "INTERNAL_SERVER_ERROR"⟩ ∧
    (createOrder sampleDb twoProducts sampleEnv).1.orderItems = [] := by
  decide

/-- Under the scope line 108 reads, scenario A is not answered 201 either: the
order row is written, `OrderItem.create` is refused for its null attributes,
the `catch` block rolls back and answers 400 `VALIDATION_ERROR`; the stock
stays 1000 and no order is kept. -/
theorem createOrderIn_intended_scenarioA :
    createOrderIn (intendedVars scenarioA) sampleDb scenarioA sampleEnv =
      (sampleDb, ⟨400, .failure "VALIDATION_ERROR"⟩) := by
  decide

/-- Under the scope line 108 reads, the request for two distinct products is
answered 400 `VALIDATION_ERROR` and stores no item. -/
theorem createOrderIn_intended_twoProducts :
    createOrderIn (intendedVars twoProducts) sampleDb twoProducts sampleEnv =
      (sampleDb, ⟨400, .failure "VALIDATION_ERROR"⟩) := by
  decide

/-! ## `validateOrderInput`: lemmas -/

/-- The quantity tests of lines 44-61 let through exactly the integers that
are at least 1. -/
theorem quantity_checks_iff (q : Field) :
    ((!q.truthy || !q.isNumber || q.nonPositive) = false ∧ q.isInteger = true) ↔
      ∃ n : ℤ, q = .num n ∧ 1 ≤ n := by
  constructor
  · rintro ⟨h1, h2⟩
    cases q with
    | num r =>
      simp only [Field.truthy, Field.isNumber, Field.nonPositive, Bool.not_true,
        Bool.or_false, Bool.or_eq_false_iff, Bool.not_eq_false', bne_iff_ne, ne_eq,
        decide_eq_false_iff_not, not_le] at h1
      simp only [Field.isInteger, beq_iff_eq] at h2
      refine ⟨r.num, by rw [Rat.coe_int_num_of_den_eq_one h2], ?_⟩
      have : (0 : ℚ) < r.num := by rw [Rat.coe_int_num_of_den_eq_one h2]; exact h1.2
      have : 0 < r.num := by exact_mod_cast this
      omega
    | _ => simp [Field.isInteger] at h2
  · rintro ⟨n, rfl, hn⟩
    have hpos : (0 : ℚ) < n := by exact_mod_cast (by omega : 0 < n)
    refine ⟨?_, ?_⟩
    · simp only [Field.truthy, Field.isNumber, Field.nonPositive, Bool.not_true,
        Bool.or_false, Bool.or_eq_false_iff, Bool.not_eq_false', bne_iff_ne, ne_eq,
        decide_eq_false_iff_not, not_le]
      exact ⟨ne_of_gt hpos, hpos⟩
    · simp [Field.isInteger]

theorem exceedsLimit_intCast (n : ℤ) :
    (Field.num n).exceedsLimit = true ↔ 10001 ≤ n := by
  simp only [Field.exceedsLimit, decide_eq_true_eq]
  constructor
  · intro h
    have : (10000 : ℤ) < n := by exact_mod_cast h
    omega
  · intro h
    exact_mod_cast (by omega : (10000 : ℤ) < n)

/-- The first loop lets a list through exactly when each entry is well
formed. -/
theorem checkEntries_none_iff (l : List Entry) (i : Nat) :
    checkEntries l i = none ↔ ∀ e ∈ l, e.wellFormed := by
  induction l generalizing i with
  | nil => simp [checkEntries]
  | cons e rest ih =>
    cases e with
    | nullish =>
      simp only [checkEntries, List.mem_cons, forall_eq_or_imp]
      refine ⟨fun h => (by cases h), fun h => ?_⟩
      have := h.1.1
      simp [Entry.productId, Field.truthy] at this
    | fields pid q =>
      simp only [checkEntries, List.mem_cons, forall_eq_or_imp]
      by_cases h1 : pid.truthy = true
      · by_cases h2 : (!q.truthy || !q.isNumber || q.nonPositive) = true
        · have hq : ¬ ∃ n : ℤ, q = .num n ∧ 1 ≤ n := by
            intro hn
            have := ((quantity_checks_iff q).mpr hn).1
            rw [this] at h2; cases h2
          simp only [h1, h2, Bool.not_true, Bool.false_eq_true, if_false, if_true]
          exact ⟨fun h => (by cases h), fun h => absurd h.1.2.2 hq⟩
        · have h2f : (!q.truthy || !q.isNumber || q.nonPositive) = false := by
            simpa using h2
          by_cases h3 : q.isInteger = true
          · have hq := (quantity_checks_iff q).mp ⟨h2f, h3⟩
            by_cases h4 : (!pid.isString && !pid.isNumber) = true
            · simp only [h1, h2f, h3, h4, Bool.not_true, Bool.false_eq_true, if_false,
                if_true]
              refine ⟨fun h => (by cases h), fun h => ?_⟩
              rcases h.1.2.1 with h5 | h5 <;>
                simp only [Entry.productId] at h5 <;> simp [h5] at h4
            · have h4f : (!pid.isString && !pid.isNumber) = false := by simpa using h4
              simp only [h1, h2f, h3, h4f, Bool.not_true, Bool.false_eq_true, if_false,
                ih (i + 1)]
              constructor
              · intro h
                refine ⟨⟨h1, ?_, hq⟩, h⟩
                simp only [Entry.productId]
                cases hs : pid.isString
                · right
                  simpa [hs] using h4f
                · left; rfl
              · exact fun h => h.2
          · have hq : ¬ ∃ n : ℤ, q = .num n ∧ 1 ≤ n := by
              intro hn
              exact h3 ((quantity_checks_iff q).mpr hn).2
            have h3f : (!q.isInteger) = true := by simpa using h3
            simp only [h1, h2f, h3f, Bool.not_true, Bool.false_eq_true, if_false,
              if_true]
            exact ⟨fun h => (by cases h), fun h => absurd h.1.2.2 hq⟩
      · have h1f : (!pid.truthy) = true := by simpa using h1
        simp only [h1f, if_true]
        exact ⟨fun h => (by cases h), fun h => absurd h.1.1 h1⟩

/-- On well-formed entries, the second loop answers at the first entry whose
quantity is 10001 or more. -/
theorem checkQuantities_first (pre : List Entry) (e : Entry) (post : List Entry)
    (n : ℤ) (i : Nat) (hq : e.quantity = .num n) (hn : 10001 ≤ n)
    (hpre : ∀ x ∈ pre, ∃ m : ℤ, x.quantity = .num m ∧ m ≤ 10000) :
    checkQuantities (pre ++ e :: post) i =
      some (.reject 400 "QUANTITY_TOO_LARGE" (some (i + pre.length))) := by
  induction pre generalizing i with
  | nil =>
    cases e with
    | nullish => simp [Entry.quantity] at hq
    | fields p q =>
      simp only [Entry.quantity] at hq
      subst hq
      simp [checkQuantities, (exceedsLimit_intCast n).mpr hn]
  | cons x rest ih =>
    obtain ⟨m, hm, hle⟩ := hpre x (List.mem_cons_self _ _)
    cases x with
    | nullish => simp [Entry.quantity] at hm
    | fields p q =>
      simp only [Entry.quantity] at hm
      subst hm
      have hx : (Field.num (m : ℚ)).exceedsLimit = false := by
        cases h : (Field.num (m : ℚ)).exceedsLimit with
        | false => rfl
        | true => have := (exceedsLimit_intCast m).mp h; omega
      have hstep : checkQuantities (Entry.fields p (Field.num (m : ℚ)) :: rest ++ e :: post) i =
          checkQuantities (rest ++ e :: post) (i + 1) := by
        simp [checkQuantities, hx]
      rw [hstep, ih (i + 1) (fun y hy => hpre y (List.mem_cons_of_mem _ hy))]
      simp only [List.length_cons]
      congr 3
      omega

/-- The second loop lets a list of entries with integer quantities through
exactly when no quantity exceeds 10000. -/
theorem checkQuantities_none_iff (l : List Entry) (i : Nat)
    (hwf : ∀ e ∈ l, ∃ n : ℤ, e.quantity = .num n) :
    checkQuantities l i = none ↔
      ∀ e ∈ l, ∀ n : ℤ, e.quantity = .num n → n ≤ 10000 := by
  induction l generalizing i with
  | nil => simp [checkQuantities]
  | cons x rest ih =>
    obtain ⟨m, hm⟩ := hwf x (List.mem_cons_self _ _)
    have hrest := ih (i + 1) (fun y hy => hwf y (List.mem_cons_of_mem _ hy))
    cases x with
    | nullish => simp [Entry.quantity] at hm
    | fields p q =>
      simp only [Entry.quantity] at hm
      subst hm
      simp only [checkQuantities, List.mem_cons, forall_eq_or_imp, Entry.quantity,
        Field.num.injEq]
      by_cases hx : (Field.num (m : ℚ)).exceedsLimit = true
      · have := (exceedsLimit_intCast m).mp hx
        simp only [hx, if_true]
        refine ⟨fun h => (by cases h), fun h => ?_⟩
        have := h.1 m rfl
        omega
      · have hxf : (Field.num (m : ℚ)).exceedsLimit = false := by simpa using hx
        have hm2 : m ≤ 10000 := by
          by_contra hc
          exact hx ((exceedsLimit_intCast m).mpr (by omega))
        simp only [hxf, Bool.false_eq_true, if_false, hrest]
        constructor
        · intro h
          refine ⟨fun n hn => ?_, h⟩
          have : m = n := by exact_mod_cast hn
          omega
        · exact fun h => h.2

theorem dedup_length_iff {α : Type} [DecidableEq α] (l : List α) :
    l.dedup.length = l.length ↔ l.Nodup := by
  constructor
  · intro h
    have := (List.dedup_sublist l).eq_of_length h
    rw [← this]
    exact List.nodup_dedup l
  · intro h
    rw [List.dedup_eq_self.mpr h]

theorem checkEntries_ne_next (l : List Entry) (i : Nat) :
    checkEntries l i ≠ some .next := by
  induction l generalizing i with
  | nil => simp [checkEntries]
  | cons e rest ih =>
    cases e with
    | nullish => simp [checkEntries]
    | fields p q =>
      simp only [checkEntries]
      split_ifs <;> first | exact ih (i + 1) | simp

theorem checkQuantities_ne_next (l : List Entry) (i : Nat) :
    checkQuantities l i ≠ some .next := by
  induction l generalizing i with
  | nil => simp [checkQuantities]
  | cons e rest ih =>
    cases e with
    | nullish => simp [checkQuantities]
    | fields p q =>
      simp only [checkQuantities]
      split_ifs <;> first | exact ih (i + 1) | simp

theorem Entry.wellFormed_quantity {e : Entry} (h : e.wellFormed) :
    ∃ n : ℤ, e.quantity = .num n :=
  let ⟨n, hn, _⟩ := h.2.2
  ⟨n, hn⟩

/-- What the middleware computes once the user id, the array, its entries and
the optional fields have passed: the length check, then the second loop, then
the duplicate check. -/
theorem validateOrderInput_checked (b : OrderBody) (entries : List Entry)
    (hu : b.user_id.truthy = true)
    (hu2 : b.user_id.isString = true ∨ b.user_id.isNumber = true)
    (hp : b.products = .array entries) (hne : 1 ≤ entries.length)
    (hwf : ∀ e ∈ entries, e.wellFormed)
    (hs : b.shipping_address.truthy = false ∨ b.shipping_address.isString = true)
    (hn : b.notes.truthy = false ∨ b.notes.isString = true) :
    validateOrderInput b =
      if entries.length > 100 then .reject 400 "TOO_MANY_PRODUCTS" none
      else
        match checkQuantities entries 0 with
        | some answer => answer
        | none =>
          if (entries.map Entry.productId).length !=
              (entries.map Entry.productId).dedup.length then
            .reject 400 "DUPLICATE_PRODUCTS" none
          else .next := by
  have h0 : (entries.length == 0) = false := by
    simp only [beq_eq_false_iff_ne, ne_eq]; omega
  have hfmt : (!b.user_id.isString && !b.user_id.isNumber) = false := by
    rcases hu2 with h | h <;> simp [h]
  have hs2 : (b.shipping_address.truthy && !b.shipping_address.isString) = false := by
    rcases hs with h | h <;> simp [h]
  have hn2 : (b.notes.truthy && !b.notes.isString) = false := by
    rcases hn with h | h <;> simp [h]
  have hce := (checkEntries_none_iff entries 0).mpr hwf
  simp only [validateOrderInput, hu, hp, h0, hfmt, hce, hs2, hn2, Bool.not_true,
    Bool.false_eq_true, if_false]

/-- A request passes the middleware exactly when the specification admits
it. -/
theorem validateOrderInput_next_iff (b : OrderBody) :
    validateOrderInput b = .next ↔ b.accepted := by
  constructor
  · intro h
    have key : ∀ r, validateOrderInput b = r → r = .next → b.accepted := by
      intro r hr hnext
      unfold validateOrderInput at hr
      dsimp only at hr
      repeat' split at hr
      all_goals first
        | (subst hr; exact Validation.noConfusion hnext)
        | (subst hr; subst hnext; rename_i h1; exact absurd h1 (checkEntries_ne_next _ _))
        | (subst hr; subst hnext; rename_i h1; exact absurd h1 (checkQuantities_ne_next _ _))
        | skip
      rename_i hu _ entries hp h0 hfmt _ hce hs hn hlen _ hcq hdup
      have hwf := (checkEntries_none_iff entries 0).mp hce
      have hint : ∀ e ∈ entries, ∃ n : ℤ, e.quantity = .num n :=
        fun e he => Entry.wellFormed_quantity (hwf e he)
      have hle := (checkQuantities_none_iff entries 0 hint).mp hcq
      refine ⟨by simpa using hu, ?_, ⟨entries, hp, ?_, ?_, ?_, ?_⟩, ?_, ?_⟩
      · cases h1 : b.user_id.isString
        · right; simpa [h1] using hfmt
        · left; rfl
      · have : entries.length ≠ 0 := by simpa using h0
        omega
      · simpa using hlen
      · intro e he
        obtain ⟨ha, hb, n, hq, h1⟩ := hwf e he
        exact ⟨ha, hb, n, hq, h1, hle e he n hq⟩
      · apply (dedup_length_iff _).mp
        have : ¬ ((entries.map Entry.productId).length ≠
            (entries.map Entry.productId).dedup.length) := by simpa using hdup
        exact (not_not.mp this).symm
      · cases h1 : b.shipping_address.truthy
        · left; rfl
        · right; simpa [h1] using hs
      · cases h1 : b.notes.truthy
        · left; rfl
        · right; simpa [h1] using hn
    exact key _ rfl h
  · rintro ⟨hu, hu2, ⟨entries, hp, hne, hlen, hacc, hnd⟩, hs, hn⟩
    have hwf : ∀ e ∈ entries, e.wellFormed := fun e he =>
      let ⟨ha, hb, n, hq, h1, _⟩ := hacc e he
      ⟨ha, hb, n, hq, h1⟩
    have hint : ∀ e ∈ entries, ∃ n : ℤ, e.quantity = .num n :=
      fun e he => Entry.wellFormed_quantity (hwf e he)
    have hcq : checkQuantities entries 0 = none := by
      rw [checkQuantities_none_iff entries 0 hint]
      intro e he n hq
      obtain ⟨-, -, m, hm, -, hle⟩ := hacc e he
      rw [hm] at hq
      have : m = n := by
        have := Field.num.inj hq
        exact_mod_cast this
      omega
    have hdd := (dedup_length_iff _).mpr hnd
    rw [validateOrderInput_checked b entries hu hu2 hp hne hwf hs hn]
    have : ¬ entries.length > 100 := by omega
    simp [this, hcq, hdd]

theorem wellFormed_str (s : String) (n : ℤ) (hs : s ≠ "") (hn : 1 ≤ n) :
    (Entry.fields (.str s) (.num n)).wellFormed :=
  ⟨by simpa [Entry.productId, Field.truthy] using hs, Or.inl rfl, n, rfl, hn⟩

theorem wellFormed_num (k n : ℤ) (hk : k ≠ 0) (hn : 1 ≤ n) :
    (Entry.fields (.num k) (.num n)).wellFormed :=
  ⟨by simpa [Entry.productId, Field.truthy] using hk, Or.inr rfl, n, rfl, hn⟩

theorem quantity_intCast_le {e : Entry} {k : ℤ} (he : e.quantity = .num k)
    (hk : k ≤ 10000) : ∀ n : ℤ, e.quantity = .num n → n ≤ 10000 := by
  intro n hn
  rw [he] at hn
  have : k = n := by exact_mod_cast Field.num.inj hn
  omega

/-! ## `validateOrderInput`: the accepted requests and the two limits (C11-C13) -/

/-- C11: `validateOrderInput` calls `next()`, sending no answer, if and only if
`user_id` is present and a string or number, `products` is an array of 1 to 100
entries, each with a present `product_id` that is a string or number and an
integer `quantity` between 1 and 10000, no two entries carry the same
`product_id`, and `shipping_address` and `notes` are each absent or a string
(`OrderBody.accepted`; present means truthy and absent falsy, the tests the
middleware applies).  In particular a request that repeats a product id is
never passed on, whatever its quantities. -/
theorem validateOrderInput_passes_iff (b : OrderBody) :
    (validateOrderInput b = .next ↔ b.accepted) ∧
    (∀ entries, b.products = .array entries →
      ¬ (entries.map Entry.productId).Nodup → validateOrderInput b ≠ .next) := by
  refine ⟨validateOrderInput_next_iff b, fun entries hp hdup hnext => ?_⟩
  obtain ⟨-, -, ⟨l, hl, -, -, -, hnd⟩, -, -⟩ := (validateOrderInput_next_iff b).mp hnext
  rw [hp] at hl
  cases hl
  exact hdup hnd

/-- The middleware tests truthiness: a `user_id` that is the number 0 is
answered `MISSING_USER_ID`, and optional fields that are falsy without being
strings are let through. -/
theorem validateOrderInput_falsy_fields :
    validateOrderInput zeroUserBody = .reject 400 "MISSING_USER_ID" none ∧
    validateOrderInput falsyOptionalsBody = .next := by
  decide

/-- C12: for a request that is valid but for the upper bound on quantities
(user id, 1 to 100 well-formed entries, optional fields), the middleware passes
it on when every quantity is at most 10000, 10000 included, and the product ids
are distinct; and when some entry has an integer quantity of 10001 or more, it
answers 400 `QUANTITY_TOO_LARGE` with the index of the first such entry. -/
theorem validateOrderInput_quantity_limit (b : OrderBody) (entries : List Entry)
    (hu : b.user_id.truthy = true)
    (hu2 : b.user_id.isString = true ∨ b.user_id.isNumber = true)
    (hp : b.products = .array entries) (hne : 1 ≤ entries.length)
    (hlen : entries.length ≤ 100) (hwf : ∀ e ∈ entries, e.wellFormed)
    (hs : b.shipping_address.truthy = false ∨ b.shipping_address.isString = true)
    (hn : b.notes.truthy = false ∨ b.notes.isString = true) :
    ((∀ e ∈ entries, ∀ n : ℤ, e.quantity = .num n → n ≤ 10000) →
      (entries.map Entry.productId).Nodup → validateOrderInput b = .next) ∧
    (∀ (pre : List Entry) (e : Entry) (post : List Entry) (n : ℤ),
      entries = pre ++ e :: post → e.quantity = .num n → 10001 ≤ n →
      (∀ x ∈ pre, ∀ m : ℤ, x.quantity = .num m → m ≤ 10000) →
      validateOrderInput b = .reject 400 "QUANTITY_TOO_LARGE" (some pre.length)) := by
  have hbase := validateOrderInput_checked b entries hu hu2 hp hne hwf hs hn
  have hnot : ¬ entries.length > 100 := by omega
  have hint : ∀ e ∈ entries, ∃ n : ℤ, e.quantity = .num n :=
    fun e he => Entry.wellFormed_quantity (hwf e he)
  refine ⟨fun hle hnd => ?_, fun pre e post n hsplit hq hbig hpre => ?_⟩
  · have hcq := (checkQuantities_none_iff entries 0 hint).mpr hle
    have hdd := (dedup_length_iff _).mpr hnd
    rw [hbase]
    simp [hnot, hcq, hdd]
  · have hpre2 : ∀ x ∈ pre, ∃ m : ℤ, x.quantity = .num m ∧ m ≤ 10000 := by
      intro x hx
      obtain ⟨m, hm⟩ := hint x (by rw [hsplit]; simp [hx])
      exact ⟨m, hm, hpre x hx m hm⟩
    have hfirst := checkQuantities_first pre e post n 0 hq hbig hpre2
    rw [hbase, hsplit]
    rw [hsplit] at hnot
    simp only [hnot, if_false, hfirst, Nat.zero_add]

/-- Witness of C12: one line with quantity exactly 10000 is passed on; with
lines asking 10000, 10001 and 20000 the answer names index 1. -/
theorem validateOrderInput_quantity_limit_witness :
    validateOrderInput limitQuantityBody = .next ∧
    validateOrderInput overLimitBody = .reject 400 "QUANTITY_TOO_LARGE" (some 1) :=
  ⟨(validateOrderInput_quantity_limit limitQuantityBody
      [.fields (.str "product-1") (.num (10000 : ℤ))] rfl (Or.inl rfl) rfl
      (by decide) (by decide)
      (by
        intro e he
        simp only [List.mem_singleton] at he
        subst he
        exact wellFormed_str _ _ (by decide) (by decide))
      (Or.inl rfl) (Or.inl rfl)).1
      (by
        intro e he
        simp only [List.mem_singleton] at he
        subst he
        exact quantity_intCast_le rfl (by decide))
      (by decide),
    (validateOrderInput_quantity_limit overLimitBody
      [.fields (.str "product-1") (.num (10000 : ℤ)),
        .fields (.str "product-2") (.num (10001 : ℤ)),
        .fields (.str "product-3") (.num (20000 : ℤ))] rfl (Or.inl rfl) rfl
      (by decide) (by decide)
      (by
        intro e he
        simp only [List.mem_cons, List.mem_singleton, List.not_mem_nil, or_false] at he
        rcases he with rfl | rfl | rfl <;>
          exact wellFormed_str _ _ (by decide) (by decide))
      (Or.inr rfl) (Or.inl rfl)).2
      [.fields (.str "product-1") (.num (10000 : ℤ))]
      (.fields (.str "product-2") (.num (10001 : ℤ)))
      [.fields (.str "product-3") (.num (20000 : ℤ))] 10001 rfl rfl (by decide)
      (by
        intro e he
        simp only [List.mem_singleton] at he
        subst he
        exact quantity_intCast_le rfl (by decide))⟩

/-- C13: for a request whose user id and optional fields are valid and whose
entries are individually well formed, a list of exactly 100 entries with
distinct product ids and quantities of at most 10000 is passed on, and a list
of 101 or more entries is answered 400 `TOO_MANY_PRODUCTS`, whatever the
product ids (repeated ones included) and the quantities: the length check
comes before the quantity limit and the duplicate check. -/
theorem validateOrderInput_length_limit (b : OrderBody) (entries : List Entry)
    (hu : b.user_id.truthy = true)
    (hu2 : b.user_id.isString = true ∨ b.user_id.isNumber = true)
    (hp : b.products = .array entries) (hwf : ∀ e ∈ entries, e.wellFormed)
    (hs : b.shipping_address.truthy = false ∨ b.shipping_address.isString = true)
    (hn : b.notes.truthy = false ∨ b.notes.isString = true) :
    (entries.length = 100 →
      (∀ e ∈ entries, ∀ n : ℤ, e.quantity = .num n → n ≤ 10000) →
      (entries.map Entry.productId).Nodup → validateOrderInput b = .next) ∧
    (101 ≤ entries.length →
      validateOrderInput b = .reject 400 "TOO_MANY_PRODUCTS" none) := by
  have hint : ∀ e ∈ entries, ∃ n : ℤ, e.quantity = .num n :=
    fun e he => Entry.wellFormed_quantity (hwf e he)
  refine ⟨fun hlen hle hnd => ?_, fun hlen => ?_⟩
  · have hbase := validateOrderInput_checked b entries hu hu2 hp (by omega) hwf hs hn
    have hnot : ¬ entries.length > 100 := by omega
    have hcq := (checkQuantities_none_iff entries 0 hint).mpr hle
    have hdd := (dedup_length_iff _).mpr hnd
    rw [hbase]
    simp [hnot, hcq, hdd]
  · have hbase := validateOrderInput_checked b entries hu hu2 hp (by omega) hwf hs hn
    have hgt : entries.length > 100 := by omega
    rw [hbase]
    simp only [hgt, if_true]

theorem numberedEntry_wellFormed (i : Nat) : (numberedEntry i).wellFormed :=
  wellFormed_num _ _ (by omega) (by decide)

theorem numberedEntry_productId_injective :
    Function.Injective (fun i : Nat => (numberedEntry i).productId) := by
  intro i j h
  simp only [numberedEntry, Entry.productId, Field.num.injEq] at h
  have : ((i : ℤ) + 1 : ℤ) = ((j : ℤ) + 1 : ℤ) := by exact_mod_cast h
  omega

/-- Witness of C13: 100 distinct products are passed on; 101 entries naming
one product are answered `TOO_MANY_PRODUCTS`, not `DUPLICATE_PRODUCTS`. -/
theorem validateOrderInput_length_limit_witness :
    ((List.range 100).map numberedEntry).length = 100 ∧
    validateOrderInput hundredProductsBody = .next ∧
    (List.replicate 101 (Entry.fields (.str "product-1") (.num (1 : ℤ)))).length = 101 ∧
    validateOrderInput tooManyProductsBody = .reject 400 "TOO_MANY_PRODUCTS" none :=
  ⟨by simp,
    (validateOrderInput_length_limit hundredProductsBody
      ((List.range 100).map numberedEntry) rfl (Or.inl rfl) rfl
      (by
        intro e he
        obtain ⟨i, -, rfl⟩ := List.mem_map.mp he
        exact numberedEntry_wellFormed i)
      (Or.inl rfl) (Or.inl rfl)).1 (by simp)
      (by
        intro e he
        obtain ⟨i, -, rfl⟩ := List.mem_map.mp he
        exact quantity_intCast_le rfl (by decide))
      (by
        rw [List.map_map]
        exact (List.nodup_range 100).map numberedEntry_productId_injective),
    by simp,
    (validateOrderInput_length_limit tooManyProductsBody
      (List.replicate 101 (.fields (.str "product-1") (.num (1 : ℤ)))) rfl
      (Or.inl rfl) rfl
      (by
        intro e he
        rw [List.eq_of_mem_replicate he]
        exact wellFormed_str _ _ (by decide) (by decide))
      (Or.inl rfl) (Or.inl rfl)).2 (by simp)⟩

/-! ## Payment workflow: lemmas -/

/-- Every failure of `processPaymentIn` comes with the database it was given:
the `catch` block rolls back before it rethrows. -/
theorem processPaymentIn_error_db (exports : List String) (db : Db)
    (data : PaymentData) (env : PaymentEnv) (e : Failure)
    (h : (processPaymentIn exports db data env).2 = .error e) :
    (processPaymentIn exports db data env).1 = db := by
  have key : ∀ r, processPaymentIn exports db data env = r → r.2 = .error e →
      r.1 = db := by
    intro r hr h
    unfold processPaymentIn at hr
    dsimp only at hr
    repeat' split at hr
    all_goals first
      | (subst hr; rfl)
      | (subst hr; cases h)
  exact key _ rfl h

/-- The preconditions of `processPayment`: a failed one throws the service's
own error and leaves the database as it was, whatever the module exports. -/
theorem processPaymentIn_precondition (exports : List String) (db : Db)
    (data : PaymentData) (env : PaymentEnv)
    (h : (findOrder db data.orderId = none ∧ isUuid data.orderId = true) ∨
      ∃ o, findOrder db data.orderId = some o ∧
        (o.userId ≠ data.userId ∨ o.status = "completed" ∨ o.status = "cancelled" ∨
          amountMismatch env o.totalAmount data.amount = true ∨
          data.paymentMethod ∉ validPaymentMethods)) :
    (processPaymentIn exports db data env).1 = db ∧
    ∃ message, (processPaymentIn exports db data env).2 = .error (.error message) := by
  rcases h with ⟨h, hid⟩ | ⟨o, ho, h⟩
  · simp [processPaymentIn, h, hid]
  · by_cases h1 : o.userId = data.userId
    · by_cases h2 : o.status = "completed"
      · simp [processPaymentIn, ho, h1, h2]
      · by_cases h3 : o.status = "cancelled"
        · simp [processPaymentIn, ho, h1, h3]
        · by_cases h4 : amountMismatch env o.totalAmount data.amount = true
          · simp [processPaymentIn, ho, h1, h2, h3, h4]
          · have h5 : data.paymentMethod ∉ validPaymentMethods := by
              rcases h with h | h | h | h | h
              · exact absurd h1 h
              · exact absurd h h2
              · exact absurd h h3
              · exact absurd h h4
              · exact h
            simp [processPaymentIn, ho, h1, h2, h3, h4, h5]
    · simp [processPaymentIn, ho, h1]

/-- As the module is written, an attempt that passes every precondition throws
the `TypeError` of `Payment.create` on `undefined`: no payment row is created
and the gateway outcome plays no part. -/
theorem processPayment_passing_attempt (db : Db) (data : PaymentData)
    (env : PaymentEnv) (o : Order) (ho : findOrder db data.orderId = some o)
    (h1 : o.userId = data.userId) (h2 : o.status ≠ "completed")
    (h3 : o.status ≠ "cancelled")
    (h4n : amountMismatch env o.totalAmount data.amount = false)
    (h5 : data.paymentMethod ∈ validPaymentMethods) :
    processPayment db data env = (db, .error .typeError) := by
  have hx : "Payment" ∉ modelsExports := by decide
  simp [processPayment, processPaymentIn, ho, h1, h2, h3, h4n, h5, hx]

/-- `processRefund` always throws. -/
theorem processRefundIn_error (exports : List String) (db : Db)
    (paymentId userId : Id) (reason : String) (env : PaymentEnv) :
    ∃ e, (processRefundIn exports db paymentId userId reason env).2 = .error e := by
  simp only [processRefundIn, orderUpdate_refunding]
  repeat' split
  all_goals exact ⟨_, rfl⟩

/-! ## `processPayment`: the attempt is not reached (C14, C15, C16) -/

/-- C14, the code at a payment of the pending order of `sampleDb` by its owner,
with a valid method and the exact total: every precondition holds, yet
`processPayment` throws a `TypeError` whatever the gateway would answer, and
the payments table is as before; the claim has the payment created as pending
and the gateway invoked. -/
theorem processPayment_valid_attempt :
    findOrder sampleDb validAttempt.orderId = some pendingOrder ∧
    pendingOrder.userId = validAttempt.userId ∧ pendingOrder.status = "pending" ∧
    pendingOrder.totalAmount = validAttempt.amount ∧
    validAttempt.paymentMethod ∈ validPaymentMethods ∧
    (∀ env, processPayment sampleDb validAttempt env = (sampleDb, .error .typeError)) ∧
    (∀ env, (processPayment sampleDb validAttempt env).1.payments = [completedPayment]) :=
  ⟨by decide, by decide, by decide, by decide, by decide, fun _ => rfl, fun _ => rfl⟩

/-- C15, the code at the same payment with a gateway that succeeds:
`processPayment` throws a `TypeError`, no payment is stored and the order stays
pending and unpaid; the claim has a completed payment and a completed, paid
order. -/
theorem processPayment_gateway_success :
    samplePaymentEnv.gateway = .success "TXN_3" ∧
    processPayment sampleDb validAttempt samplePaymentEnv =
      (sampleDb, .error .typeError) ∧
    findPayment (processPayment sampleDb validAttempt samplePaymentEnv).1
      samplePaymentEnv.paymentId = none ∧
    (findOrder (processPayment sampleDb validAttempt samplePaymentEnv).1 100).map
      (fun o => (o.status, o.paymentStatus)) = some ("pending", "pending") :=
  ⟨rfl, rfl, by decide, by decide⟩

/-- C16, the code at the same payment with a gateway that fails with a reason:
`processPayment` throws a `TypeError`, not an error carrying the gateway's
reason; the database is as before. -/
theorem processPayment_gateway_failure :
    failingGatewayEnv.gateway = .failure "余额不足" ∧
    (processPayment sampleDb validAttempt failingGatewayEnv).2 = .error .typeError ∧
    (processPayment sampleDb validAttempt failingGatewayEnv).2 ≠
      .error (.error "余额不足") ∧
    (processPayment sampleDb validAttempt failingGatewayEnv).1 = sampleDb :=
  ⟨rfl, rfl,
    fun h => Failure.noConfusion (Except.error.inj
      (h : (Except.error Failure.typeError : Except Failure PaymentReceipt) = _)),
    by decide⟩

/-- With `Payment` exported, the same payment and a succeeding gateway commit:
the payment is stored as completed with the gateway's transaction id and its
processing time, the order is completed and paid. -/
theorem processPaymentIn_intended_success :
    (processPaymentIn exportsWithPayment sampleDb validAttempt samplePaymentEnv).2 =
      .ok ⟨"TXN_3", 301, "completed"⟩ ∧
    (findPayment (processPaymentIn exportsWithPayment sampleDb validAttempt
        samplePaymentEnv).1 301).map
      (fun p => (p.status, p.transactionId, p.processedAt)) =
      some ("completed", some "TXN_3", some 9) ∧
    (findOrder (processPaymentIn exportsWithPayment sampleDb validAttempt
        samplePaymentEnv).1 100).map (fun o => (o.status, o.paymentStatus)) =
      some ("completed", "paid") :=
  ⟨rfl, by decide, by decide⟩

/-- With `Payment` exported, the same payment and a failing gateway leave the
database as it was, and the error thrown is not the gateway's reason either:
the branch rolls back and throws the reason, the `catch` rolls back again, and
the error of that second rollback replaces it. -/
theorem processPaymentIn_intended_failure :
    processPaymentIn exportsWithPayment sampleDb validAttempt failingGatewayEnv =
      (sampleDb, .error (.error rollbackFinished)) :=
  rfl

/-! ## `processRefund`: requests on payments that are not eligible (C17) -/

/-- C17: a refund request on a payment that is not refund-eligible (its status
is not completed, or its method is cash, or it was processed more than 30 days
before the request) is rejected with an error and the database, payment and
order included, is returned as it was.  This holds as the module is written
(`exports = modelsExports`) and whatever the module it imports from exports;
the rejection does not come from an eligibility test, `processRefund` commits
no request at all. -/
theorem processRefund_rejects_ineligible (exports : List String) (db : Db)
    (paymentId userId : Id) (reason : String) (env : PaymentEnv) (p : Payment)
    (_hfind : findPayment db paymentId = some p)
    (_hineligible : p.status ≠ "completed" ∨ p.paymentMethod = "cash" ∨
      ∃ t : Nat, p.processedAt = some t ∧ (t : Int) + thirtyDays < env.now) :
    (processRefundIn exports db paymentId userId reason env).1 = db ∧
    ∃ e, (processRefundIn exports db paymentId userId reason env).2 = .error e :=
  ⟨processRefundIn_db exports db paymentId userId reason env,
    processRefundIn_error exports db paymentId userId reason env⟩

/-- Witness of C17: a refund of a completed cash payment, with `Payment`
exported and as the module is written, and a refund of a card payment
processed 31 days earlier. -/
theorem processRefund_rejects_ineligible_witness :
    findPayment cashDb 302 = some cashPayment ∧ cashPayment.paymentMethod = "cash" ∧
    ((processRefundIn exportsWithPayment cashDb 302 1 "wrong size" samplePaymentEnv).1 =
        cashDb ∧
      ∃ e, (processRefundIn exportsWithPayment cashDb 302 1 "wrong size"
        samplePaymentEnv).2 = .error e) ∧
    ((processRefundIn modelsExports cashDb 302 1 "wrong size" samplePaymentEnv).1 =
        cashDb ∧
      ∃ e, (processRefundIn modelsExports cashDb 302 1 "wrong size"
        samplePaymentEnv).2 = .error e) ∧
    findPayment sampleDb 300 = some completedPayment ∧
    ((processRefundIn exportsWithPayment sampleDb 300 1 "arrived late" lateRefundEnv).1 =
        sampleDb ∧
      ∃ e, (processRefundIn exportsWithPayment sampleDb 300 1 "arrived late"
        lateRefundEnv).2 = .error e) :=
  ⟨by decide, by decide,
    processRefund_rejects_ineligible exportsWithPayment cashDb 302 1 "wrong size"
      samplePaymentEnv cashPayment (by decide) (Or.inr (Or.inl (by decide))),
    processRefund_rejects_ineligible modelsExports cashDb 302 1 "wrong size"
      samplePaymentEnv cashPayment (by decide) (Or.inr (Or.inl (by decide))),
    by decide,
    processRefund_rejects_ineligible exportsWithPayment sampleDb 300 1 "arrived late"
      lateRefundEnv completedPayment (by decide)
      (Or.inr (Or.inr ⟨1, rfl, by decide⟩))⟩

/-! ## `Payment.isRefundable` and `Payment.canRetry` (C18, C19) -/

/-- C18 (amended): for every payment and every current time that is at least
30 days past the epoch, `isRefundable` returns true exactly when the status is
completed, the method is not cash, and `processedAt` is set and less than 30
days (2592000000 ms) before now. -/
theorem isRefundable_iff (p : Payment) (now : Nat) (hclock : thirtyDays ≤ now) :
    p.isRefundable now = true ↔
      p.status = "completed" ∧ p.paymentMethod ≠ "cash" ∧
        ∃ t : Nat, p.processedAt = some t ∧ (now : Int) - (t : Int) < thirtyDays := by
  simp only [Payment.isRefundable, Bool.and_eq_true, beq_iff_eq, bne_iff_ne, ne_eq,
    decide_eq_true_eq]
  constructor
  · rintro ⟨⟨h1, h2⟩, h3⟩
    refine ⟨h1, h2, ?_⟩
    cases ht : p.processedAt with
    | none =>
      rw [ht] at h3
      simp only [Option.getD_none, Nat.cast_zero, sub_zero] at h3
      omega
    | some t =>
      rw [ht] at h3
      exact ⟨t, rfl, by simpa using h3⟩
  · rintro ⟨h1, h2, t, ht, h3⟩
    refine ⟨⟨h1, h2⟩, ?_⟩
    rw [ht]
    simpa using h3

/-- Witness of C18 (amended): one millisecond short of 30 days after
processing, a completed card payment is refundable. -/
theorem isRefundable_iff_witness :
    thirtyDays ≤ ((1000 + 2592000000 - 1 : Nat) : Int) ∧
    cardPayment.isRefundable (1000 + 2592000000 - 1) = true ∧
    (cardPayment.isRefundable (1000 + 2592000000 - 1) = true ↔
      cardPayment.status = "completed" ∧ cardPayment.paymentMethod ≠ "cash" ∧
        ∃ t : Nat, cardPayment.processedAt = some t ∧
          ((1000 + 2592000000 - 1 : Nat) : Int) - (t : Int) < thirtyDays) :=
  ⟨by decide, by decide, isRefundable_iff cardPayment (1000 + 2592000000 - 1) (by decide)⟩

/-- C18 as stated fails: a completed card payment processed exactly 30 days
before now (so at most 30 days) is not refundable, the comparison being
strict; and at a clock less than 30 days past the epoch a completed card
payment whose `processedAt` is unset is refundable. -/
theorem isRefundable_counterexample :
    cardPayment.status = "completed" ∧ cardPayment.paymentMethod ≠ "cash" ∧
    cardPayment.processedAt = some 1000 ∧
    ((1000 + 2592000000 : Nat) : Int) - (1000 : Int) ≤ thirtyDays ∧
    cardPayment.isRefundable (1000 + 2592000000) = false ∧
    unstampedPayment.processedAt = none ∧
    unstampedPayment.isRefundable 5000 = true := by
  decide

/-- C19 (amended): for every payment and every current time, `canRetry` returns
true exactly when the status is failed, `retryCount` is less than 3, and
either `lastRetryAt` is unset or more than 5 minutes (300000 ms) have elapsed
since `lastRetryAt`. -/
theorem canRetry_iff (p : Payment) (now : Nat) :
    p.canRetry now = true ↔
      p.status = "failed" ∧ p.retryCount < 3 ∧
        (p.lastRetryAt = none ∨
          ∃ t : Nat, p.lastRetryAt = some t ∧ fiveMinutes < (now : Int) - (t : Int)) := by
  simp only [Payment.canRetry, Bool.and_eq_true, beq_iff_eq, decide_eq_true_eq]
  cases ht : p.lastRetryAt with
  | none => simp [and_assoc]
  | some t => simp [and_assoc]

/-- C19 as stated fails: a failed payment with one retry, exactly 5 minutes
after that retry (so at least 5 minutes have elapsed), cannot be retried, the
comparison being strict; one millisecond later it can. -/
theorem canRetry_counterexample :
    failedPayment.status = "failed" ∧ failedPayment.retryCount < 3 ∧
    failedPayment.lastRetryAt = some 1000 ∧
    fiveMinutes ≤ ((1000 + 300000 : Nat) : Int) - (1000 : Int) ∧
    failedPayment.canRetry (1000 + 300000) = false ∧
    failedPayment.canRetry (1000 + 300001) = true := by
  decide

/-! ## The status enumerations are kept by every operation (C20) -/

theorem Order.update_statuses {o row : Order} {u : OrderPatch} {now : Nat}
    (h : o.update u now = .ok row)
    (hs : o.status ∈ orderStatuses) (hp : o.paymentStatus ∈ orderPaymentStatuses) :
    row.status ∈ orderStatuses ∧ row.paymentStatus ∈ orderPaymentStatuses := by
  unfold Order.update at h
  split at h
  · rename_i hv
    cases h
    simp only [OrderPatch.valid, Bool.and_eq_true] at hv
    constructor
    · cases hu : u.status with
      | none => simpa using hs
      | some s =>
        have := hv.1
        rw [hu] at this
        simpa using this
    · cases hu : u.paymentStatus with
      | none => simpa using hp
      | some s =>
        have := hv.2
        rw [hu] at this
        simpa using this
  · cases h

theorem orderUpdate_statuses {o row : Order} {u : OrderPatch} {now : Nat}
    (h : orderUpdate o u now = .ok row)
    (hs : o.status ∈ orderStatuses) (hp : o.paymentStatus ∈ orderPaymentStatuses) :
    row.status ∈ orderStatuses ∧ row.paymentStatus ∈ orderPaymentStatuses := by
  unfold orderUpdate at h
  split at h
  · rename_i o1 h1
    cases h
    exact Order.update_statuses h1 hs hp
  · cases h

theorem findOrder_mem {db : Db} {id : Id} {o : Order} (h : findOrder db id = some o) :
    o ∈ db.orders :=
  List.mem_of_find?_eq_some h

theorem statusesValid_putOrder {db : Db} {row : Order} (h : db.statusesValid)
    (hrow : row.status ∈ orderStatuses ∧ row.paymentStatus ∈ orderPaymentStatuses) :
    (db.putOrder row).statusesValid := by
  intro o ho
  simp only [Db.putOrder, List.mem_map] at ho
  obtain ⟨o1, ho1, rfl⟩ := ho
  split
  · exact hrow
  · exact h o1 ho1

theorem statusesValid_of_orders {db db2 : Db} (h : db.statusesValid)
    (ho : db2.orders = db.orders) : db2.statusesValid := by
  intro o hmem
  rw [ho] at hmem
  exact h o hmem

/-- Either `updateOrderStatus` returns the database it was given, or it wrote
back the order it was called for, as `order.update` returned it. -/
theorem updateOrderStatus_written (db : Db) (id : Id) (req : StatusUpdate) (now : Nat) :
    (updateOrderStatus db id req now).1 = db ∨
    ∃ (order : Order) (u : OrderPatch) (row : Order),
      findOrder db id = some order ∧ order.update u now = .ok row ∧
      (updateOrderStatus db id req now).1 = db.putOrder row := by
  have key : ∀ r, updateOrderStatus db id req now = r →
      r.1 = db ∨ ∃ (order : Order) (u : OrderPatch) (row : Order),
        findOrder db id = some order ∧ order.update u now = .ok row ∧
        r.1 = db.putOrder row := by
    intro r hr
    unfold updateOrderStatus at hr
    dsimp only at hr
    repeat' split at hr
    all_goals first
      | (subst hr; exact Or.inl rfl)
      | (subst hr; exact Or.inr ⟨_, _, _, ‹findOrder db id = some _›, ‹_›, rfl⟩)
  exact key _ rfl

/-- Either `processPayment` returns the database it was given, or it wrote
back the order it was called for, as `order.update` returned it, on a working
copy with the same orders. -/
theorem processPaymentIn_written (exports : List String) (db : Db)
    (data : PaymentData) (env : PaymentEnv) :
    (processPaymentIn exports db data env).1 = db ∨
    ∃ (order : Order) (db2 : Db) (u : OrderPatch) (row : Order),
      findOrder db data.orderId = some order ∧ db2.orders = db.orders ∧
      orderUpdate order u env.now = .ok row ∧
      (processPaymentIn exports db data env).1 = db2.putOrder row := by
  have key : ∀ r, processPaymentIn exports db data env = r →
      r.1 = db ∨ ∃ (order : Order) (db2 : Db) (u : OrderPatch) (row : Order),
        findOrder db data.orderId = some order ∧ db2.orders = db.orders ∧
        orderUpdate order u env.now = .ok row ∧ r.1 = db2.putOrder row := by
    intro r hr
    unfold processPaymentIn at hr
    dsimp only at hr
    repeat' split at hr
    all_goals first
      | (subst hr; exact Or.inl rfl)
      | skip
    rename_i _ order hfind _ _ _ _ _ _ _ db1 pay hc _ txn _ _ db2 pay2 hu _ row hrow
    subst hr
    refine Or.inr ⟨order, db2, _, row, hfind, ?_, hrow, rfl⟩
    rw [Payment.update_orders hu, Payment.create_orders hc]
  exact key _ rfl

theorem decrementAll_orders (db : Db) (items : List ItemData) :
    (decrementAll db items).orders = db.orders := by
  induction items generalizing db with
  | nil => rfl
  | cons it rest ih =>
    have : decrementAll db (it :: rest) =
        decrementAll (db.decrementStock it.product_id it.quantity) rest := by
      simp [decrementAll]
    rw [this, ih]
    rfl

/-- Either `createOrderIn` returns the orders it was given, or it added one
order, pending and unpaid. -/
theorem createOrderIn_orders (vars : List (String × Option String)) (db : Db)
    (req : OrderRequest) (env : CreateEnv) :
    (createOrderIn vars db req env).1.orders = db.orders ∨
    ∃ order : Order, order.status = "pending" ∧ order.paymentStatus = "pending" ∧
      (createOrderIn vars db req env).1.orders = db.orders ++ [order] := by
  by_cases h : (createOrderIn vars db req env).2.status = 201
  · have key : ∀ r, createOrderIn vars db req env = r → r.2.status = 201 →
        ∃ order : Order, order.status = "pending" ∧ order.paymentStatus = "pending" ∧
          r.1.orders = db.orders ++ [order] := by
      intro r hr h
      unfold createOrderIn at hr
      dsimp only at hr
      repeat' split at hr
      all_goals first
        | (subst hr; exact absurd h (createOrderCatch_status _))
        | (subst hr; rename_i h1; rw [stockLoop_error_status h1] at h; cases h)
        | (subst hr; dsimp only at h; omega)
        | skip
      rename_i db1 order count hpersist
      subst hr
      obtain ⟨-, hdb, -, -, -, -, ho5, ho6, -⟩ := persistOrder_ok hpersist
      refine ⟨order, ho5, ho6, ?_⟩
      rw [hdb]
    exact Or.inr (key _ rfl h)
  · left
    rw [createOrderIn_rollback vars db req env h]

/-- C20: when every order of the database has a status among pending,
processing, completed, cancelled and a payment status among pending, paid,
failed, the same holds of the database after `createOrder`,
`updateOrderStatus`, `processPayment` or `processRefund`, whatever the
arguments and the gateway outcome.  Stated for any scope of `createOrder` and
any exported names; the handlers as written are the case `scope = bodyVars`,
`exports = modelsExports`. -/
theorem statusesValid_preserved (scope : OrderRequest → List (String × Option String))
    (exports : List String) (op : Operation) (db : Db) (h : db.statusesValid) :
    (op.run scope exports db).statusesValid := by
  cases op with
  | createOrder req env =>
    simp only [Operation.run]
    rcases createOrderIn_orders (scope req) db req env with h1 | ⟨order, hs, hp, h1⟩
    · exact statusesValid_of_orders h h1
    · intro o ho
      rw [h1] at ho
      rcases List.mem_append.mp ho with ho1 | ho1
      · exact h o ho1
      · simp only [List.mem_singleton] at ho1
        subst ho1
        rw [hs, hp]
        exact ⟨by decide, by decide⟩
  | updateOrderStatus id req now =>
    simp only [Operation.run]
    rcases updateOrderStatus_written db id req now with h1 | ⟨order, u, row, hf, hu, h1⟩
    · rw [h1]; exact h
    · rw [h1]
      have ho := h order (findOrder_mem hf)
      exact statusesValid_putOrder h (Order.update_statuses hu ho.1 ho.2)
  | processPayment data env =>
    simp only [Operation.run]
    rcases processPaymentIn_written exports db data env with h1 |
      ⟨order, db2, u, row, hf, hords, hu, h1⟩
    · rw [h1]; exact h
    · rw [h1]
      have ho := h order (findOrder_mem hf)
      exact statusesValid_putOrder (statusesValid_of_orders h hords)
        (orderUpdate_statuses hu ho.1 ho.2)
  | processRefund paymentId userId reason env =>
    simp only [Operation.run, processRefundIn_db]
    exact h

theorem sampleDb_statusesValid : sampleDb.statusesValid := by
  unfold Db.statusesValid
  decide

/-- Witness of C20: on `sampleDb`, a status update carrying a payment status
the model refuses, a refund of the completed payment, a payment of the pending
order with `Payment` exported and a succeeding gateway, and an order
creation under the intended scope. -/
theorem statusesValid_preserved_witness :
    sampleDb.statusesValid ∧
    ((Operation.updateOrderStatus 100 ⟨some "processing", some "refunding"⟩ 5).run
      bodyVars modelsExports sampleDb).statusesValid ∧
    ((Operation.processRefund 300 1 "damaged on arrival" samplePaymentEnv).run
      bodyVars exportsWithPayment sampleDb).statusesValid ∧
    ((Operation.processPayment validAttempt samplePaymentEnv).run
      bodyVars exportsWithPayment sampleDb).statusesValid ∧
    ((Operation.createOrder scenarioA sampleEnv).run
      intendedVars modelsExports sampleDb).statusesValid :=
  ⟨sampleDb_statusesValid,
    statusesValid_preserved bodyVars modelsExports _ sampleDb sampleDb_statusesValid,
    statusesValid_preserved bodyVars exportsWithPayment _ sampleDb sampleDb_statusesValid,
    statusesValid_preserved bodyVars exportsWithPayment _ sampleDb sampleDb_statusesValid,
    statusesValid_preserved intendedVars modelsExports _ sampleDb sampleDb_statusesValid⟩

theorem Payment.update_row {db db1 : Db} {p q : Payment} {u : PaymentPatch} {now : Nat}
    (h : Payment.update db p u now = .ok (db1, q)) : q = p.updated u now := by
  unfold Payment.update at h
  dsimp only at h
  split at h
  · cases h
  · injection h with h
    injection h with _ h
    subst h
    unfold Payment.updated Payment.beforeUpdate Payment.set
    dsimp only
    split <;> split <;> rfl
theorem Payment.updated_status (p : Payment) (u : PaymentPatch) (now : Nat) :
    (p.updated u now).status = u.status.getD p.status := by
  unfold Payment.updated Payment.beforeUpdate Payment.set
  dsimp only
  split <;> split <;> rfl

theorem Payment.updated_processedAt (p : Payment) (u : PaymentPatch) (now : Nat)
    (hu : u.processedAt = none) :
    (p.updated u now).processedAt =
      if (u.status.getD p.status != p.status && u.status.getD p.status == "completed" &&
          p.processedAt.isNone) = true then some now
      else p.processedAt := by
  unfold Payment.updated Payment.beforeUpdate Payment.set
  dsimp only
  rw [hu]
  simp only [Option.orElse]
  split <;> split <;> simp_all

theorem Payment.updated_refundedAt (p : Payment) (u : PaymentPatch) (now : Nat)
    (hu : u.refundedAt = none) :
    (p.updated u now).refundedAt =
      if (u.status.getD p.status != p.status && u.status.getD p.status == "refunded" &&
          p.refundedAt.isNone) = true then some now
      else p.refundedAt := by
  unfold Payment.updated Payment.beforeUpdate Payment.set
  dsimp only
  rw [hu]
  simp only [Option.orElse]
  split <;> split <;> simp_all

theorem Payment.updates_processedAt (us : List (PaymentPatch × Nat)) :
    ∀ p : Payment, (∀ x ∈ us, x.1.processedAt = none) →
      (p.updates us).processedAt =
        p.processedAt.orElse (fun _ => firstTransition "completed" p.status us) := by
  induction us with
  | nil =>
    intro p _
    cases h : p.processedAt <;> simp [Payment.updates, firstTransition, h]
  | cons x rest ih =>
    intro p hx
    obtain ⟨u, now⟩ := x
    have hu : u.processedAt = none := hx (u, now) (List.mem_cons_self _ _)
    have hrest : ∀ y ∈ rest, y.1.processedAt = none :=
      fun y hy => hx y (List.mem_cons_of_mem _ hy)
    have hfold : p.updates ((u, now) :: rest) = (p.updated u now).updates rest := rfl
    rw [hfold, ih _ hrest, Payment.updated_status, Payment.updated_processedAt p u now hu]
    cases hp : p.processedAt with
    | some t => simp
    | none =>
      by_cases hc : (u.status.getD p.status != p.status &&
          u.status.getD p.status == "completed") = true
      · simp [firstTransition, hc]
      · simp [firstTransition, hc]

theorem Payment.updates_refundedAt (us : List (PaymentPatch × Nat)) :
    ∀ p : Payment, (∀ x ∈ us, x.1.refundedAt = none) →
      (p.updates us).refundedAt =
        p.refundedAt.orElse (fun _ => firstTransition "refunded" p.status us) := by
  induction us with
  | nil =>
    intro p _
    cases h : p.refundedAt <;> simp [Payment.updates, firstTransition, h]
  | cons x rest ih =>
    intro p hx
    obtain ⟨u, now⟩ := x
    have hu : u.refundedAt = none := hx (u, now) (List.mem_cons_self _ _)
    have hrest : ∀ y ∈ rest, y.1.refundedAt = none :=
      fun y hy => hx y (List.mem_cons_of_mem _ hy)
    have hfold : p.updates ((u, now) :: rest) = (p.updated u now).updates rest := rfl
    rw [hfold, ih _ hrest, Payment.updated_status, Payment.updated_refundedAt p u now hu]
    cases hp : p.refundedAt with
    | some t => simp
    | none =>
      by_cases hc : (u.status.getD p.status != p.status &&
          u.status.getD p.status == "refunded") = true
      · simp [firstTransition, hc]
      · simp [firstTransition, hc]
theorem Payment.updates_append (p : Payment) (us later : List (PaymentPatch × Nat)) :
    p.updates (us ++ later) = (p.updates us).updates later := by
  simp [Payment.updates, List.foldl_append]

theorem Payment.beforeUpdate_processedAt (previous : String) (q : Payment) (now : Nat) :
    (Payment.beforeUpdate previous q now).processedAt =
      if q.status ≠ previous ∧ q.status = "completed" ∧ q.processedAt = none then some now
      else q.processedAt := by
  unfold Payment.beforeUpdate
  simp only [Bool.and_eq_true, bne_iff_ne, beq_iff_eq, Option.isNone_iff_eq_none, ne_eq]
  split_ifs <;> first | rfl | (exfalso; tauto)

theorem Payment.beforeUpdate_refundedAt (previous : String) (q : Payment) (now : Nat) :
    (Payment.beforeUpdate previous q now).refundedAt =
      if q.status ≠ previous ∧ q.status = "refunded" ∧ q.refundedAt = none then some now
      else q.refundedAt := by
  unfold Payment.beforeUpdate
  simp only [Bool.and_eq_true, bne_iff_ne, beq_iff_eq, Option.isNone_iff_eq_none, ne_eq]
  split_ifs <;> first | rfl | (exfalso; tauto)

/-! ## Timestamps of a payment (C21) -/

theorem Payment.stampsAsServices_processedAt {p : Payment} {u : PaymentPatch} {now : Nat}
    (h : p.stampsAsServices u now = true) :
    u.processedAt = none ∨
      (u.processedAt = some now ∧ u.status = some "completed" ∧ p.status ≠ "completed" ∧
        p.processedAt = none) := by
  unfold Payment.stampsAsServices at h
  cases hu : u.processedAt with
  | none => exact Or.inl rfl
  | some t =>
    rw [hu] at h
    simp only [Bool.and_eq_true, beq_iff_eq, bne_iff_ne, ne_eq,
      Option.isNone_iff_eq_none] at h
    obtain ⟨⟨⟨⟨h1, h2⟩, h3⟩, h4⟩, -⟩ := h
    exact Or.inr ⟨by rw [h1], h2, h3, h4⟩

theorem Payment.stampsAsServices_refundedAt {p : Payment} {u : PaymentPatch} {now : Nat}
    (h : p.stampsAsServices u now = true) :
    u.refundedAt = none ∨
      (u.refundedAt = some now ∧ u.status = some "refunded" ∧ p.status ≠ "refunded" ∧
        p.refundedAt = none) := by
  unfold Payment.stampsAsServices at h
  cases hu : u.refundedAt with
  | none => exact Or.inl rfl
  | some t =>
    rw [hu] at h
    simp only [Bool.and_eq_true, beq_iff_eq, bne_iff_ne, ne_eq,
      Option.isNone_iff_eq_none] at h
    obtain ⟨-, ⟨⟨h1, h2⟩, h3⟩, h4⟩ := h
    exact Or.inr ⟨by rw [h1], h2, h3, h4⟩

theorem Payment.updated_processedAt_services (p : Payment) (u : PaymentPatch) (now : Nat)
    (h : p.stampsAsServices u now = true) :
    (p.updated u now).processedAt =
      if (u.status.getD p.status != p.status && u.status.getD p.status == "completed" &&
          p.processedAt.isNone) = true then some now
      else p.processedAt := by
  rcases Payment.stampsAsServices_processedAt h with hu | ⟨hu, hs, hne, hp⟩
  · exact Payment.updated_processedAt p u now hu
  · have hne2 : ("completed" != p.status) = true := by
      simp only [bne_iff_ne, ne_eq]
      exact fun h => hne h.symm
    unfold Payment.updated Payment.beforeUpdate Payment.set
    simp [hu, hs, hp, hne2]

theorem Payment.updated_refundedAt_services (p : Payment) (u : PaymentPatch) (now : Nat)
    (h : p.stampsAsServices u now = true) :
    (p.updated u now).refundedAt =
      if (u.status.getD p.status != p.status && u.status.getD p.status == "refunded" &&
          p.refundedAt.isNone) = true then some now
      else p.refundedAt := by
  rcases Payment.stampsAsServices_refundedAt h with hu | ⟨hu, hs, hne, hp⟩
  · exact Payment.updated_refundedAt p u now hu
  · have hne2 : ("refunded" != p.status) = true := by
      simp only [bne_iff_ne, ne_eq]
      exact fun h => hne h.symm
    unfold Payment.updated Payment.beforeUpdate Payment.set
    simp [hu, hs, hp, hne2]

theorem Payment.admits_cons {p : Payment} {u : PaymentPatch} {now : Nat}
    {rest : List (PaymentPatch × Nat)} (h : p.admits ((u, now) :: rest) = true) :
    p.stampsAsServices u now = true ∧ (p.updated u now).admits rest = true := by
  simpa [Payment.admits] using h

theorem Payment.admits_append (us later : List (PaymentPatch × Nat)) :
    ∀ p : Payment, p.admits (us ++ later) = true →
      p.admits us = true ∧ (p.updates us).admits later = true := by
  induction us with
  | nil => intro p h; exact ⟨rfl, h⟩
  | cons x rest ih =>
    intro p h
    obtain ⟨u, now⟩ := x
    obtain ⟨h1, h2⟩ := Payment.admits_cons (show p.admits ((u, now) :: (rest ++ later)) = true from h)
    obtain ⟨h3, h4⟩ := ih _ h2
    refine ⟨?_, h4⟩
    simp [Payment.admits, h1, h3]

theorem Payment.admits_processedAt (us : List (PaymentPatch × Nat)) :
    ∀ p : Payment, p.admits us = true →
      (p.updates us).processedAt =
        p.processedAt.orElse (fun _ => firstTransition "completed" p.status us) := by
  induction us with
  | nil =>
    intro p _
    cases h : p.processedAt <;> simp [Payment.updates, firstTransition, h]
  | cons x rest ih =>
    intro p hx
    obtain ⟨u, now⟩ := x
    obtain ⟨h1, h2⟩ := Payment.admits_cons hx
    have hfold : p.updates ((u, now) :: rest) = (p.updated u now).updates rest := rfl
    rw [hfold, ih _ h2, Payment.updated_status, Payment.updated_processedAt_services p u now h1]
    cases hp : p.processedAt with
    | some t => simp
    | none =>
      by_cases hc : (u.status.getD p.status != p.status &&
          u.status.getD p.status == "completed") = true
      · simp [firstTransition, hc]
      · simp [firstTransition, hc]

theorem Payment.admits_refundedAt (us : List (PaymentPatch × Nat)) :
    ∀ p : Payment, p.admits us = true →
      (p.updates us).refundedAt =
        p.refundedAt.orElse (fun _ => firstTransition "refunded" p.status us) := by
  induction us with
  | nil =>
    intro p _
    cases h : p.refundedAt <;> simp [Payment.updates, firstTransition, h]
  | cons x rest ih =>
    intro p hx
    obtain ⟨u, now⟩ := x
    obtain ⟨h1, h2⟩ := Payment.admits_cons hx
    have hfold : p.updates ((u, now) :: rest) = (p.updated u now).updates rest := rfl
    rw [hfold, ih _ h2, Payment.updated_status, Payment.updated_refundedAt_services p u now h1]
    cases hp : p.refundedAt with
    | some t => simp
    | none =>
      by_cases hc : (u.status.getD p.status != p.status &&
          u.status.getD p.status == "refunded") = true
      · simp [firstTransition, hc]
      · simp [firstTransition, hc]

theorem Payment.admits_of_no_stamp (us : List (PaymentPatch × Nat)) :
    ∀ p : Payment, (∀ x ∈ us, x.1.processedAt = none ∧ x.1.refundedAt = none) →
      p.admits us = true := by
  induction us with
  | nil => intro p _; rfl
  | cons x rest ih =>
    intro p hx
    obtain ⟨u, now⟩ := x
    have hu : u.processedAt = none ∧ u.refundedAt = none :=
      hx (u, now) (List.mem_cons_self _ _)
    have hrest := ih (p.updated u now) (fun y hy => hx y (List.mem_cons_of_mem _ hy))
    have hs : p.stampsAsServices u now = true := by
      unfold Payment.stampsAsServices
      rw [hu.1, hu.2]
      rfl
    simp [Payment.admits, hs, hrest]

theorem Payment.stampsAsServices_completion (p : Payment) (transactionId : String)
    (now : Nat) (hs : p.status ≠ "completed") (hp : p.processedAt = none) :
    p.stampsAsServices (completionPatch transactionId now) now = true := by
  simp [Payment.stampsAsServices, completionPatch, hs, hp]

theorem Payment.stampsAsServices_refundRequest (p : Payment) (reason : String) (now : Nat) :
    p.stampsAsServices (refundRequestPatch reason now) now = true := by
  simp [Payment.stampsAsServices, refundRequestPatch]

theorem Payment.stampsAsServices_refund (p : Payment) (refundTransactionId : String)
    (now : Nat) (hs : p.status ≠ "refunded") (hp : p.refundedAt = none) :
    p.stampsAsServices (refundPatch refundTransactionId now) now = true := by
  simp [Payment.stampsAsServices, refundPatch, hs, hp]

/-- C21: across any sequence of updates to a payment that pass the stamps, when
they pass them, the way `processPayment` and `processRefund` do (the instant of
the write, with the change of the status the stamp belongs to, on a row not yet
stamped), `processedAt`, when unset at the start, is assigned at the first
update that changes the status to completed, and once set it is never changed
by a later update; `refundedAt` likewise for the first change of the status to
refunded.  The `beforeUpdate` hook assigns each timestamp only when the status
has just changed to that value and the timestamp is still unset. -/
theorem payment_stamps_set_once (p : Payment) (us later : List (PaymentPatch × Nat))
    (hus : p.admits (us ++ later) = true) :
    (p.updates us).processedAt =
      p.processedAt.orElse (fun _ => firstTransition "completed" p.status us) ∧
    (p.updates us).refundedAt =
      p.refundedAt.orElse (fun _ => firstTransition "refunded" p.status us) ∧
    (∀ t, (p.updates us).processedAt = some t →
      (p.updates (us ++ later)).processedAt = some t) ∧
    (∀ t, (p.updates us).refundedAt = some t →
      (p.updates (us ++ later)).refundedAt = some t) ∧
    (∀ (previous : String) (q : Payment) (now : Nat),
      (Payment.beforeUpdate previous q now).processedAt =
        (if q.status ≠ previous ∧ q.status = "completed" ∧ q.processedAt = none
          then some now else q.processedAt) ∧
      (Payment.beforeUpdate previous q now).refundedAt =
        (if q.status ≠ previous ∧ q.status = "refunded" ∧ q.refundedAt = none
          then some now else q.refundedAt)) := by
  obtain ⟨h1, h2⟩ := Payment.admits_append us later p hus
  refine ⟨Payment.admits_processedAt us p h1, Payment.admits_refundedAt us p h1, ?_, ?_, ?_⟩
  · intro t ht
    rw [Payment.updates_append, Payment.admits_processedAt later _ h2, ht]
    rfl
  · intro t ht
    rw [Payment.updates_append, Payment.admits_refundedAt later _ h2, ht]
    rfl
  · intro previous q now
    exact ⟨Payment.beforeUpdate_processedAt previous q now,
      Payment.beforeUpdate_refundedAt previous q now⟩

/-- Witness of C21: a pending payment is completed by `processPayment` at
instant 10 and refunded by `processRefund` at instant 30; its `processedAt` is
10 and its `refundedAt` 30, also after the status is set to failed at instant
50 and to completed again at instant 60. -/
theorem payment_stamps_set_once_witness :
    pendingPayment.admits (serviceHistory.take 3 ++ serviceHistory.drop 3) = true ∧
    (pendingPayment.updates (serviceHistory.take 3)).processedAt = some 10 ∧
    (pendingPayment.updates (serviceHistory.take 3)).refundedAt = some 30 ∧
    (pendingPayment.updates (serviceHistory.take 3 ++ serviceHistory.drop 3)).processedAt =
      some 10 ∧
    (pendingPayment.updates (serviceHistory.take 3 ++ serviceHistory.drop 3)).refundedAt =
      some 30 ∧
    (pendingPayment.updates (serviceHistory.take 3 ++ serviceHistory.drop 3)).status =
      "completed" :=
  have h := payment_stamps_set_once pendingPayment (serviceHistory.take 3)
    (serviceHistory.drop 3) (by decide)
  ⟨by decide, by decide, by decide, h.2.2.1 10 (by decide), h.2.2.2.1 30 (by decide),
    by decide⟩

/-- Updates of the status alone, stamped by the hook: pending to completed at
instant 10, to refunding, to refunded at instant 30 and back to completed at
instant 40. -/
theorem Payment.updates_lifecycle :
    pendingPayment.admits lifecycle = true ∧
    (pendingPayment.updates lifecycle).processedAt = some 10 ∧
    (pendingPayment.updates lifecycle).refundedAt = some 30 := by
  decide

/-- Outside these sequences: an update that passes a `processedAt` value to a
payment that was completed, and stamped, before stores the value it passes.
No code of the repository makes such an update. -/
theorem Payment.update_restamp :
    cardPayment.status = "completed" ∧ cardPayment.processedAt = some 1000 ∧
    cardPayment.stampsAsServices (restampPatch 5) 2000 = false ∧
    Payment.update cardDb cardPayment (restampPatch 5) 2000 =
      .ok ({ cardDb with payments := [{ cardPayment with processedAt := some 5 }] },
        { cardPayment with processedAt := some 5 }) :=
  ⟨by decide, by decide, by decide, rfl⟩

/-- The updates of the services are the ones of `completionPatch`,
`refundRequestPatch` and `refundPatch`: with `Payment` exported, a payment of
the pending order of the sample database is stored with the stamp of the
instant of its completion. -/
theorem processPaymentIn_stamps :
    (findPayment (processPaymentIn exportsWithPayment sampleDb validAttempt
        samplePaymentEnv).1 301).map (fun p => (p.status, p.processedAt, p.refundedAt)) =
      some ("completed", some samplePaymentEnv.now, none) := by
  decide

/-! ## Payment status alone (C22) -/

theorem truthy_of_mem_paymentStatuses {ps : String} (h : ps ∈ orderPaymentStatuses) :
    truthy (some ps) = true := by
  simp only [orderPaymentStatuses, List.mem_cons, List.mem_singleton, List.not_mem_nil,
    or_false] at h
  rcases h with h | h | h <;> subst h <;> decide

theorem Order.update_paymentStatus (o : Order) (ps : String) (now : Nat)
    (h : ps ∈ orderPaymentStatuses) :
    o.update ⟨none, some ps⟩ now =
      .ok { o with
        paymentStatus := ps
        updatedAt := if ps != o.paymentStatus then now else o.updatedAt } := by
  simp [Order.update, OrderPatch.valid, h]

/-- C22: for every existing order, whatever its status, and every request that
supplies a `payment_status` among pending, paid, failed and no (truthy)
`status`, `updateOrderStatus` answers 200, stores the requested payment status
and leaves the status of the order as it was.  The row is stamped when the
payment status is a new one; the answer carries the `updatedAt` the order was
loaded with. -/
theorem updateOrderStatus_payment_status_only (db : Db) (id : Id) (order : Order)
    (req : StatusUpdate) (ps : String) (now : Nat)
    (hfind : findOrder db id = some order) (hstatus : truthy req.status = false)
    (hps : req.payment_status = some ps) (hmem : ps ∈ orderPaymentStatuses) :
    updateOrderStatus db id req now =
      (db.putOrder { order with
          paymentStatus := ps
          updatedAt := if ps != order.paymentStatus then now else order.updatedAt },
        ⟨200, .updated order.id order.status ps order.updatedAt⟩) ∧
    findOrder (updateOrderStatus db id req now).1 id =
      some { order with
        paymentStatus := ps
        updatedAt := if ps != order.paymentStatus then now else order.updatedAt } := by
  have htr := truthy_of_mem_paymentStatuses hmem
  have hrun : updateOrderStatus db id req now =
      (db.putOrder { order with
          paymentStatus := ps
          updatedAt := if ps != order.paymentStatus then now else order.updatedAt },
        ⟨200, .updated order.id order.status ps order.updatedAt⟩) := by
    unfold updateOrderStatus
    rw [hfind]
    simp only [hstatus, hps, htr, if_true, Bool.false_eq_true, if_false,
      Order.update_paymentStatus order ps now hmem]
  refine ⟨hrun, ?_⟩
  rw [hrun]
  exact findOrder_putOrder_self hfind (show order.id = id from findOrder_id hfind)

/-- Witness of C22: the completed (terminal) order of the sample database takes
the payment status failed and stays completed. -/
theorem updateOrderStatus_payment_status_only_witness :
    findOrder sampleDb 101 = some completedOrder ∧
    truthy (none : Option String) = false ∧ "failed" ∈ orderPaymentStatuses ∧
    completedOrder.status = "completed" ∧
    (updateOrderStatus sampleDb 101 ⟨none, some "failed"⟩ 5 =
      (sampleDb.putOrder { completedOrder with paymentStatus := "failed", updatedAt := 5 },
        ⟨200, .updated completedOrder.id completedOrder.status "failed"
          completedOrder.updatedAt⟩) ∧
    findOrder (updateOrderStatus sampleDb 101 ⟨none, some "failed"⟩ 5).1 101 =
      some { completedOrder with paymentStatus := "failed", updatedAt := 5 }) :=
  ⟨by decide, by decide, by decide, by decide,
    updateOrderStatus_payment_status_only sampleDb 101 completedOrder
      ⟨none, some "failed"⟩ "failed" 5 (by decide) (by decide) rfl (by decide)⟩
/-! ## `validateOrderStatusUpdate` (C23) -/

theorem Field.isOneOf_iff (v : Field) (values : List String) :
    v.isOneOf values = true ↔ ∃ s ∈ values, v = .str s := by
  cases v <;> simp [Field.isOneOf]

/-- C23: `validateOrderStatusUpdate` calls `next` exactly when at least one of
`status` and `payment_status` is supplied (truthy), a supplied `status` is one
of pending, processing, completed, cancelled and a supplied `payment_status` is
one of pending, paid, failed; otherwise it answers 400 with the first
applicable error in the order MISSING_UPDATE_FIELDS, INVALID_STATUS,
INVALID_PAYMENT_STATUS. -/
theorem validateOrderStatusUpdate_spec (status payment_status : Field) :
    (validateOrderStatusUpdate status payment_status = .next ↔
      statusUpdateAccepted status payment_status) ∧
    (status.truthy = false ∧ payment_status.truthy = false →
      validateOrderStatusUpdate status payment_status =
        .reject 400 "MISSING_UPDATE_FIELDS" none) ∧
    (status.truthy = true ∧ (¬ ∃ s ∈ orderStatuses, status = .str s) →
      validateOrderStatusUpdate status payment_status =
        .reject 400 "INVALID_STATUS" none) ∧
    ((status.truthy = true → ∃ s ∈ orderStatuses, status = .str s) ∧
      payment_status.truthy = true ∧
      (¬ ∃ s ∈ orderPaymentStatuses, payment_status = .str s) →
      validateOrderStatusUpdate status payment_status =
        .reject 400 "INVALID_PAYMENT_STATUS" none) := by
  have hs := Field.isOneOf_iff status orderStatuses
  have hp := Field.isOneOf_iff payment_status orderPaymentStatuses
  simp only [orderStatuses, orderPaymentStatuses] at hs hp
  unfold validateOrderStatusUpdate statusUpdateAccepted
  simp only [orderStatuses, orderPaymentStatuses, ← hs, ← hp]
  cases h1 : status.truthy <;> cases h2 : payment_status.truthy <;>
    cases h3 : status.isOneOf ["pending", "processing", "completed", "cancelled"] <;>
    cases h4 : payment_status.isOneOf ["pending", "paid", "failed"] <;>
    simp

/-! ## The orders router mounts no validator on status updates (C24) -/

theorem patchOrderStatus_eq (db : Db) (id : Id) (req : StatusUpdate) (now : Nat) :
    patchOrderStatus db id req now = updateOrderStatus db id req now := rfl

theorem patchOrderStatusVia_validated :
    patchOrderStatusVia ["validateOrderStatusUpdate"] sampleDb 100 ⟨none, none⟩ 7 =
      (sampleDb, ⟨400, .failure "MISSING_UPDATE_FIELDS"⟩) ∧
    patchOrderStatusVia ["validateOrderStatusUpdate"] sampleDb 100
        ⟨some "invalid_status", none⟩ 7 =
      (sampleDb, ⟨400, .failure "INVALID_STATUS"⟩) ∧
    patchOrderStatusVia ["validateOrderStatusUpdate"] sampleDb 100
        ⟨none, some "invalid_payment_status"⟩ 7 =
      (sampleDb, ⟨400, .failure "INVALID_PAYMENT_STATUS"⟩) := by
  decide

/-- C24 fails on the code: `routes/orders.js` registers `updateOrderStatus`
alone on `PATCH /:id/status`, so the controller runs on every request.  On the
pending order of the sample database an empty body is answered 200, an unknown
status 400 INVALID_STATUS_TRANSITION and an unknown payment status 500, where
the claim (and the tests) expect 400 MISSING_UPDATE_FIELDS, INVALID_STATUS and
INVALID_PAYMENT_STATUS. -/
theorem patchOrderStatus_unvalidated :
    routeMiddleware .patchOrderStatus = [] ∧ routeMiddleware .getOrders = [] ∧
    patchOrderStatus sampleDb 100 ⟨none, none⟩ 7 =
      (sampleDb, ⟨200, .updated 100 "pending" "pending" 0⟩) ∧
    patchOrderStatus sampleDb 100 ⟨some "invalid_status", none⟩ 7 =
      (sampleDb, ⟨400, .failure "INVALID_STATUS_TRANSITION"⟩) ∧
    patchOrderStatus sampleDb 100 ⟨none, some "invalid_payment_status"⟩ 7 =
      (sampleDb, ⟨500, .failure "INTERNAL_SERVER_ERROR"⟩) := by
  decide

/-! ## `OrderItem`: the total follows quantity and unit price (C25) -/

theorem exactArithmetic_exactInRange : exactArithmetic.exactInRange :=
  ⟨fun _ _ _ => rfl, fun _ _ _ _ _ _ => rfl⟩

theorem OrderItem.beforeValidate_eq (js : Arithmetic) (item : ItemInstance)
    (hq : item.quantity ≠ 0) (hp : item.unitPrice.truthy = true) :
    OrderItem.beforeValidate js item =
      { quantity := item.quantity, unitPrice := .text (js.fixed item.unitPrice.cents)
        totalPrice := .text (js.product item.quantity (js.fixed item.unitPrice.cents)) } := by
  have ht : ∀ c, (Amount.text c).truthy = true := fun _ => rfl
  have hv : ∀ c, (Amount.text c).cents = c := fun _ => rfl
  simp [OrderItem.beforeValidate, hp, hq, ht, hv]

theorem OrderItem.beforeCreate_eq (js : Arithmetic) (item : ItemInstance)
    (hq : item.quantity ≠ 0) (hp : item.unitPrice.truthy = true) :
    OrderItem.beforeCreate js item =
      { item with totalPrice := .text (js.product item.quantity item.unitPrice.cents) } := by
  simp [OrderItem.beforeCreate, hp, hq]

theorem OrderItem.beforeUpdate_eq (js : Arithmetic) (item : ItemInstance)
    (hq : item.quantity ≠ 0) (hp : item.unitPrice.truthy = true) :
    OrderItem.beforeUpdate js item =
      { item with totalPrice := .text (js.product item.quantity item.unitPrice.cents) } := by
  simp [OrderItem.beforeUpdate, hp, hq]

theorem OrderItem.updateQuantity_eq (js : Arithmetic) (item : ItemInstance) (n : Int)
    (hjs : js.exactInRange) (hn : 0 < n) (hmax : n ≤ maxInteger)
    (hp : item.unitPrice.truthy = true) (hc : 0 ≤ item.unitPrice.cents)
    (hcmax : item.unitPrice.cents ≤ maxAmount)
    (htmax : n * item.unitPrice.cents ≤ maxAmount) :
    OrderItem.updateQuantity js item n =
      ({ quantity := n, unitPrice := .text item.unitPrice.cents
         totalPrice := .text (n * item.unitPrice.cents) }, .ok ()) := by
  have hn0 : n ≠ 0 := by omega
  have h1 : 1 ≤ n := by omega
  have hn' : 0 ≤ n := by omega
  have hm : 0 ≤ n * item.unitPrice.cents := Int.mul_nonneg hn' hc
  have hv : ∀ c, (Amount.text c).cents = c := fun _ => rfl
  have hfix : js.fixed item.unitPrice.cents = item.unitPrice.cents := hjs.1 _ hc hcmax
  have hprod : js.product n item.unitPrice.cents = n * item.unitPrice.cents :=
    hjs.2 n _ hn' hc hcmax htmax
  have hb : OrderItem.beforeValidate js
      { item with quantity := n, totalPrice := .text (js.product n item.unitPrice.cents) } =
      { quantity := n, unitPrice := .text item.unitPrice.cents
        totalPrice := .text (n * item.unitPrice.cents) } := by
    rw [OrderItem.beforeValidate_eq js
      { item with quantity := n, totalPrice := .text (js.product n item.unitPrice.cents) }
      hn0 hp]
    simp only [hfix, hprod]
  have hu : OrderItem.beforeUpdate js
      { quantity := n, unitPrice := .text item.unitPrice.cents
        totalPrice := .text (n * item.unitPrice.cents) } =
      { quantity := n, unitPrice := .text item.unitPrice.cents
        totalPrice := .text (n * item.unitPrice.cents) } := by
    rw [OrderItem.beforeUpdate_eq js
      { quantity := n, unitPrice := .text item.unitPrice.cents
        totalPrice := .text (n * item.unitPrice.cents) } hn0 rfl]
    simp only [hv, hprod]
  have hval : OrderItem.validate
      { quantity := n, unitPrice := .text item.unitPrice.cents
        totalPrice := .text (n * item.unitPrice.cents) } = true := by
    simp [OrderItem.validate, h1, hc, hm, hv]
  have hfit : OrderItem.fitsColumns
      { quantity := n, unitPrice := .text item.unitPrice.cents
        totalPrice := .text (n * item.unitPrice.cents) } = true := by
    simp [OrderItem.fitsColumns, hmax, hcmax, htmax, hv]
  unfold OrderItem.updateQuantity OrderItem.save
  simp only [hb, hval, hu, hfit, Bool.not_true, Bool.false_eq_true, if_false]

/-- C25 (amended): for every order item with a positive quantity and a unit
price that is truthy (not `null` and not the number 0), the unit price and the
product of quantity and unit price being amounts of a `DECIMAL(10, 2)` column
(from 0 to 99999999.99), after each of the hooks `beforeValidate`,
`beforeCreate` and `beforeUpdate` the total price is the text of quantity times
unit price, quantity and the value of the unit price being kept;
`updateQuantity(n)` with a positive `n` that fits an `INTEGER` column and a
product `n` times unit price that fits the column is saved and leaves quantity
`n`, total price `n` times unit price and the value of the unit price
unchanged.  The arithmetic of JavaScript is a parameter, taken to be exact to the
cent on the amounts of the column (`Arithmetic.exactInRange`). -/
theorem orderItem_totalPrice (js : Arithmetic) (item : ItemInstance)
    (hjs : js.exactInRange) (hq : 0 < item.quantity)
    (hp : item.unitPrice.truthy = true) (hc : 0 ≤ item.unitPrice.cents)
    (hcmax : item.unitPrice.cents ≤ maxAmount)
    (htmax : item.quantity * item.unitPrice.cents ≤ maxAmount) :
    ((OrderItem.beforeValidate js item).totalPrice =
        .text (item.quantity * item.unitPrice.cents) ∧
      (OrderItem.beforeValidate js item).quantity = item.quantity ∧
      (OrderItem.beforeValidate js item).unitPrice.cents = item.unitPrice.cents) ∧
    ((OrderItem.beforeCreate js item).totalPrice =
        .text (item.quantity * item.unitPrice.cents) ∧
      (OrderItem.beforeCreate js item).quantity = item.quantity ∧
      (OrderItem.beforeCreate js item).unitPrice = item.unitPrice) ∧
    ((OrderItem.beforeUpdate js item).totalPrice =
        .text (item.quantity * item.unitPrice.cents) ∧
      (OrderItem.beforeUpdate js item).quantity = item.quantity ∧
      (OrderItem.beforeUpdate js item).unitPrice = item.unitPrice) ∧
    (∀ n : Int, 0 < n → n ≤ maxInteger → n * item.unitPrice.cents ≤ maxAmount →
      (OrderItem.updateQuantity js item n).2 = .ok () ∧
      (OrderItem.updateQuantity js item n).1.quantity = n ∧
      (OrderItem.updateQuantity js item n).1.totalPrice =
        .text (n * item.unitPrice.cents) ∧
      (OrderItem.updateQuantity js item n).1.unitPrice.cents = item.unitPrice.cents) := by
  have hq0 : item.quantity ≠ 0 := by omega
  have hq' : 0 ≤ item.quantity := by omega
  have hfix : js.fixed item.unitPrice.cents = item.unitPrice.cents := hjs.1 _ hc hcmax
  have hprod : js.product item.quantity item.unitPrice.cents =
      item.quantity * item.unitPrice.cents := hjs.2 _ _ hq' hc hcmax htmax
  refine ⟨?_, ?_, ?_, ?_⟩
  · rw [OrderItem.beforeValidate_eq js item hq0 hp, hfix, hprod]
    exact ⟨rfl, rfl, rfl⟩
  · rw [OrderItem.beforeCreate_eq js item hq0 hp, hprod]
    exact ⟨rfl, rfl, rfl⟩
  · rw [OrderItem.beforeUpdate_eq js item hq0 hp, hprod]
    exact ⟨rfl, rfl, rfl⟩
  · intro n hn hmax hnmax
    rw [OrderItem.updateQuantity_eq js item n hjs hn hmax hp hc hcmax hnmax]
    exact ⟨rfl, rfl, rfl, rfl⟩

/-- Witness of C25 (amended): three units at 19.99 with a stale total of 1.00
get the total 59.97 from each hook, and `updateQuantity(5)` leaves the total
99.95. -/
theorem orderItem_totalPrice_witness :
    exactArithmetic.exactInRange ∧
    0 < staleItem.quantity ∧ staleItem.unitPrice.truthy = true ∧
    0 ≤ staleItem.unitPrice.cents ∧ staleItem.unitPrice.cents ≤ maxAmount ∧
    staleItem.quantity * staleItem.unitPrice.cents ≤ maxAmount ∧
    (OrderItem.beforeValidate exactArithmetic staleItem).totalPrice = .text 5997 ∧
    (OrderItem.beforeCreate exactArithmetic staleItem).totalPrice = .text 5997 ∧
    (OrderItem.beforeUpdate exactArithmetic staleItem).totalPrice = .text 5997 ∧
    (OrderItem.updateQuantity exactArithmetic staleItem 5).2 = .ok () ∧
    (OrderItem.updateQuantity exactArithmetic staleItem 5).1.totalPrice = .text 9995 ∧
    toFixed2 5997 = "59.97" ∧ toFixed2 9995 = "99.95" :=
  have h := orderItem_totalPrice exactArithmetic staleItem exactArithmetic_exactInRange
    (by decide) (by decide) (by decide) (by decide) (by decide)
  ⟨exactArithmetic_exactInRange, by decide, by decide, by decide, by decide, by decide,
    h.1.1, h.2.1.1, h.2.2.1.1,
    (h.2.2.2 5 (by decide) (by decide) (by decide)).1,
    (h.2.2.2 5 (by decide) (by decide) (by decide)).2.2.1, by decide, by decide⟩

/-- C25 as stated fails: an item with the positive quantity 2, a unit price
that is the number 0 and a total of 5.00.  The hooks test the unit price for
truthiness, find it falsy and leave the total at 5.00, which is not 2 times 0;
a save runs them and changes nothing either. -/
theorem orderItem_zero_price_counterexample :
    0 < freeItem.quantity ∧ freeItem.unitPrice = .number 0 ∧
    freeItem.totalPrice = .text 500 ∧
    freeItem.quantity * freeItem.unitPrice.cents = 0 ∧
    (∀ js : Arithmetic,
      (OrderItem.beforeValidate js freeItem).totalPrice = .text 500 ∧
      (OrderItem.beforeCreate js freeItem).totalPrice = .text 500 ∧
      (OrderItem.beforeUpdate js freeItem).totalPrice = .text 500 ∧
      OrderItem.save js false freeItem = (freeItem, .ok ())) :=
  ⟨by decide, rfl, rfl, by decide, fun _ => ⟨rfl, rfl, rfl, rfl⟩⟩

/-! ## Failures raised inside `createOrder` (C26) -/

theorem createOrderIn_raised (vars : List (String × Option String)) (db : Db)
    (req : OrderRequest) (env : CreateEnv) (user : User) (totalAmount : Int)
    (orderItems : List ItemData) (name : String)
    (huser : findUser db req.user_id = some user) (hactive : user.isActive = true)
    (hfound : (findActiveProducts db (req.products.map (fun p => p.product_id))).length =
      (req.products.map (fun p => p.product_id)).length)
    (hloop : stockLoop (productMap (findActiveProducts db
      (req.products.map (fun p => p.product_id)))) req.products 0 [] =
        .ok (totalAmount, orderItems))
    (hraise : persistOrder vars db req env totalAmount orderItems = .error name) :
    createOrderIn vars db req env = createOrderRaised db name := by
  unfold createOrderIn createOrderRaised
  simp only [huser, hactive, Bool.not_true, Bool.false_eq_true, if_false, hfound,
    bne_self_eq_false, hloop, hraise]

/-- What the `catch` block of `createOrder` does with a failure raised inside
the transaction: it rolls back, and the status of its answer depends only on
the name of the failure, 400 for a validation error, 409 for a uniqueness
conflict and 500 for every other name. -/
theorem createOrder_failure_classes (db : Db) (name : String) :
    (createOrderRaised db name).1 = db ∧
    (createOrderRaised db name).2.status =
      (if name = "SequelizeValidationError" then 400
       else if name = "SequelizeUniqueConstraintError" then 409
       else 500) ∧
    (∀ (vars : List (String × Option String)) (req : OrderRequest) (env : CreateEnv)
        (user : User) (totalAmount : Int) (orderItems : List ItemData),
      findUser db req.user_id = some user → user.isActive = true →
      (findActiveProducts db (req.products.map (fun p => p.product_id))).length =
        (req.products.map (fun p => p.product_id)).length →
      stockLoop (productMap (findActiveProducts db
        (req.products.map (fun p => p.product_id)))) req.products 0 [] =
          .ok (totalAmount, orderItems) →
      persistOrder vars db req env totalAmount orderItems = .error name →
      createOrderIn vars db req env = createOrderRaised db name) := by
  refine ⟨rfl, ?_, ?_⟩
  · unfold createOrderRaised createOrderCatch
    dsimp only
    split_ifs <;> rfl
  · intro vars req env user totalAmount orderItems h1 h2 h3 h4 h5
    exact createOrderIn_raised vars db req env user totalAmount orderItems name
      h1 h2 h3 h4 h5

/-- C26 fails on the code: entered with a foreign-key violation (an error named
`SequelizeForeignKeyConstraintError`), the `catch` block of `createOrder` rolls
back and answers 500 `INTERNAL_SERVER_ERROR`, where the claim has status 400.
A validation error and a uniqueness conflict get the 400 and the 409 of the
claim, another database error 500. -/
theorem createOrder_foreign_key_answer :
    createOrderRaised sampleDb "SequelizeForeignKeyConstraintError" =
      (sampleDb, ⟨500, .failure "INTERNAL_SERVER_ERROR"⟩) ∧
    createOrderRaised sampleDb "SequelizeValidationError" =
      (sampleDb, ⟨400, .failure "VALIDATION_ERROR"⟩) ∧
    createOrderRaised sampleDb "SequelizeUniqueConstraintError" =
      (sampleDb, ⟨409, .failure "DUPLICATE_ORDER_NUMBER"⟩) ∧
    createOrderRaised sampleDb "SequelizeDatabaseError" =
      (sampleDb, ⟨500, .failure "INTERNAL_SERVER_ERROR"⟩) := by
  decide

/-! ## The security error handler in production (C27) -/

/-- C27: in production the `errorHandler` of `middleware/security.js` answers
every error with status 500 and the body `success: false`, message
服务器内部错误, error INTERNAL_SERVER_ERROR and no stack: the answers to any two
errors are the same. -/
theorem production_error_answer (e1 e2 : JsError) :
    Security.errorHandler (some "production") e1 =
      ⟨500, false, "服务器内部错误", "INTERNAL_SERVER_ERROR", none⟩ ∧
    Security.errorHandler (some "production") e1 =
      Security.errorHandler (some "production") e2 :=
  ⟨rfl, rfl⟩

theorem development_error_answer :
    Security.errorHandler (some "development") secretError =
      ⟨500, false, secretError.message, "Error", some secretError.stack⟩ ∧
    Security.errorHandler none secretError =
      ⟨500, false, secretError.message, "Error", some secretError.stack⟩ := by
  decide

theorem createOrderIn_raised_examples :
    createOrderIn (intendedVars zeroQuantity) sampleDb zeroQuantity sampleEnv =
      createOrderRaised sampleDb "SequelizeValidationError" ∧
    (createOrderIn (intendedVars zeroQuantity) sampleDb zeroQuantity sampleEnv).2.status = 400 ∧
    createOrderIn (intendedVars scenarioA) sampleDb scenarioA { sampleEnv with orderNumber := "ORD-1" } =
      createOrderRaised sampleDb "SequelizeUniqueConstraintError" ∧
    (createOrderIn (intendedVars scenarioA) sampleDb scenarioA
      { sampleEnv with orderNumber := "ORD-1" }).2.status = 409 ∧
    createOrder sampleDb scenarioA sampleEnv = createOrderRaised sampleDb "ReferenceError" ∧
    (createOrder sampleDb scenarioA sampleEnv).2.status = 500 := by
  decide
/-! ## The transaction is finished once (C29) -/

theorem createOrderCalls_once (vars : List (String × Option String)) (db : Db)
    (req : OrderRequest) (env : CreateEnv) :
    createOrderCalls vars db req env = [.commit] ∨
      createOrderCalls vars db req env = [.rollback] := by
  unfold createOrderCalls
  dsimp only
  repeat' split
  all_goals simp

theorem updateOrderStatusCalls_once (db : Db) (id : Id) (req : StatusUpdate) (now : Nat) :
    updateOrderStatusCalls db id req now = [.commit] ∨
      updateOrderStatusCalls db id req now = [.rollback] := by
  unfold updateOrderStatusCalls
  dsimp only
  repeat' split
  all_goals simp

theorem processRefundCalls_once (exports : List String) (db : Db) (paymentId userId : Id)
    (reason : String) (env : PaymentEnv) :
    processRefundCalls exports db paymentId userId reason env = [.rollback] := by
  unfold processRefundCalls
  simp only [orderUpdate_refunding]
  repeat' split
  all_goals rfl

theorem processPaymentCalls_cases (exports : List String) (db : Db) (data : PaymentData)
    (env : PaymentEnv) :
    processPaymentCalls exports db data env = [.commit] ∨
    processPaymentCalls exports db data env = [.rollback] ∨
    (exports.contains "Payment" = true ∧ (∃ reason, env.gateway = .failure reason) ∧
      processPaymentCalls exports db data env = [.rollback, .rollback]) := by
  unfold processPaymentCalls
  dsimp only
  repeat' split
  all_goals first
    | (left; rfl)
    | (right; left; rfl)
    | (right; right; refine ⟨by simp_all, ⟨_, by assumption⟩, rfl⟩)

theorem processPaymentCalls_as_written (db : Db) (data : PaymentData) (env : PaymentEnv) :
    processPaymentCalls modelsExports db data env = [.rollback] := by
  have hx : modelsExports.contains "Payment" = false := by decide
  unfold processPaymentCalls
  simp only [hx, Bool.not_false, if_true]
  repeat' split
  all_goals rfl

theorem calls_once_as_written (op : Operation) (db : Db) :
    op.calls bodyVars modelsExports db = [.commit] ∨
      op.calls bodyVars modelsExports db = [.rollback] := by
  cases op with
  | createOrder req env => exact createOrderCalls_once (bodyVars req) db req env
  | updateOrderStatus id req now => exact updateOrderStatusCalls_once db id req now
  | processPayment data env => exact Or.inr (processPaymentCalls_as_written db data env)
  | processRefund paymentId userId reason env =>
    exact Or.inr (processRefundCalls_once _ db paymentId userId reason env)

theorem updateTail (r : Except String Order) (db : Db) (o : Order) :
    (match r with
      | .error _ => [TxCall.rollback]
      | .ok _ => [TxCall.commit]) = [TxCall.commit] ↔
    (match r with
      | .error _ => (db, updateStatusFailed)
      | .ok stored =>
        (db.putOrder stored,
          (⟨200, .updated o.id stored.status stored.paymentStatus o.updatedAt⟩ :
            Response))).2.status = 200 := by
  cases r <;> simp [updateStatusFailed]

theorem updateOrderStatusCalls_commit (db : Db) (id : Id) (req : StatusUpdate) (now : Nat) :
    updateOrderStatusCalls db id req now = [.commit] ↔
      (updateOrderStatus db id req now).2.status = 200 := by
  unfold updateOrderStatusCalls updateOrderStatus
  cases findOrder db id with
  | none =>
    dsimp only
    split <;> simp [updateStatusFailed]
  | some order =>
    dsimp only
    by_cases ht : truthy req.status = true
    · simp only [if_pos ht]
      cases validStatusTransitions order.status with
      | none => simp [updateStatusFailed]
      | some allowed =>
        dsimp only
        cases allowed.contains (req.status.getD "") with
        | false => simp
        | true => exact updateTail _ db order
    · simp only [if_neg ht]
      exact updateTail _ db order

theorem processPaymentCalls_commit (exports : List String) (db : Db) (data : PaymentData)
    (env : PaymentEnv) :
    processPaymentCalls exports db data env = [.commit] ↔
      ∃ receipt, (processPaymentIn exports db data env).2 = .ok receipt := by
  unfold processPaymentCalls processPaymentIn
  cases findOrder db data.orderId with
  | none =>
    dsimp only
    split <;> simp
  | some order =>
    dsimp only
    by_cases h1 : (order.userId != data.userId) = true
    · simp [h1]
    by_cases h2 : order.status = "completed"
    · simp [h1, h2]
    by_cases h3 : order.status = "cancelled"
    · simp [h1, h2, h3]
    by_cases h4 : amountMismatch env order.totalAmount data.amount = true
    · simp [h1, h2, h3, h4]
    by_cases h5 : (!validPaymentMethods.contains data.paymentMethod) = true
    · simp only [if_neg h1, if_neg h2, if_neg h3, if_neg h4, if_pos h5]
      simp
    by_cases h6 : (!exports.contains "Payment") = true
    · simp only [if_neg h1, if_neg h2, if_neg h3, if_neg h4, if_neg h5, if_pos h6]
      simp
    simp only [if_neg h1, if_neg h2, if_neg h3, if_neg h4, if_neg h5, if_neg h6]
    split
    · rename_i h
      simp [h]
    · rename_i h
      try simp only [h]
      cases env.gateway with
      | failure reason => simp
      | success transactionId =>
        dsimp only
        split
        · rename_i h7
          simp [h7]
        · rename_i h7
          try simp only [h7]
          split
          · rename_i h8
            simp [h8]
          · rename_i h8
            simp [h8]

theorem createOrderCalls_commit (vars : List (String × Option String)) (db : Db)
    (req : OrderRequest) (env : CreateEnv) :
    createOrderCalls vars db req env = [.commit] ↔
      (createOrderIn vars db req env).2.status = 201 := by
  unfold createOrderCalls createOrderIn
  cases findUser db req.user_id with
  | none =>
    dsimp only
    split
    · have := createOrderCatch_status "SequelizeDatabaseError"
      simp [this]
    · simp
  | some user =>
    dsimp only
    by_cases h1 : (!user.isActive) = true
    · simp only [if_pos h1]
      simp
    by_cases h2 : ((findActiveProducts db (req.products.map (fun p => p.product_id))).length !=
        (req.products.map (fun p => p.product_id)).length) = true
    · simp only [if_neg h1, if_pos h2]
      split
      · have := createOrderCatch_status "SequelizeDatabaseError"
        simp [this]
      · simp
    simp only [if_neg h1, if_neg h2]
    split
    · rename_i answer h
      try simp only [h]
      have := stockLoop_error_status h
      simp [this]
    · rename_i h
      try simp only [h]
      split
      · rename_i h3
        simp [h3, createOrderCatch_status]
      · rename_i h3
        simp [h3]

/-- With `Payment` bound, the branch of `processPayment` for a failed gateway
call rolls back at line 98 and again in the `catch` at line 104; as the module
is written the same attempt throws at `Payment.create`, before the gateway is
called, and rolls back once. -/
theorem processPaymentCalls_gateway_failure :
    processPaymentCalls exportsWithPayment sampleDb validAttempt failingGatewayEnv =
      [.rollback, .rollback] ∧
    processPaymentCalls modelsExports sampleDb validAttempt failingGatewayEnv =
      [.rollback] := by
  decide

/-- C29: on every execution path of `createOrder`, `updateOrderStatus`,
`processPayment` and `processRefund`, as the repository has them, the
transaction opened at the start is finished by exactly one call, a commit or a
rollback, never both and never two rollbacks.  `processPayment` and
`processRefund` roll back once whatever the gateway would report: they throw
before it is called, `Payment` being unbound. -/
theorem transaction_finished_once (op : Operation) (db : Db) :
    (op.calls bodyVars modelsExports db = [.commit] ∨
      op.calls bodyVars modelsExports db = [.rollback]) ∧
    (∀ (data : PaymentData) (env : PaymentEnv),
      processPaymentCalls modelsExports db data env = [.rollback]) ∧
    (∀ (paymentId userId : Id) (reason : String) (env : PaymentEnv),
      processRefundCalls modelsExports db paymentId userId reason env = [.rollback]) :=
  ⟨calls_once_as_written op db,
    fun data env => processPaymentCalls_as_written db data env,
    fun paymentId userId reason env =>
      processRefundCalls_once modelsExports db paymentId userId reason env⟩

/-! ## Completing an order does not look at its payment (C30) -/

theorem validStatusTransitions_completed {cur : String} {allowed : List String}
    (h : validStatusTransitions cur = some allowed)
    (hc : allowed.contains "completed" = true) : cur = "processing" := by
  unfold validStatusTransitions at h
  split_ifs at h with h1 h2 h3 h4
  · injection h with h
    subst h
    exact absurd hc (by decide)
  · exact h2
  · injection h with h
    subst h
    exact absurd hc (by decide)
  · injection h with h
    subst h
    exact absurd hc (by decide)

theorem Order.update_status {o row : Order} {u : OrderPatch} {now : Nat}
    (h : o.update u now = .ok row) : row.status = u.status.getD o.status := by
  unfold Order.update at h
  split at h
  · injection h with h
    subst h
    rfl
  · cases h

theorem updateOrderStatus_completed_from (db : Db) (id : Id) (req : StatusUpdate) (now : Nat)
    (order row : Order) (hfind : findOrder db id = some order)
    (hafter : findOrder (updateOrderStatus db id req now).1 id = some row)
    (hrow : row.status = "completed") (hbefore : order.status ≠ "completed") :
    order.status = "processing" ∧ req.status = some "completed" := by
  have hid : order.id = id := findOrder_id hfind
  unfold updateOrderStatus at hafter
  rw [hfind] at hafter
  dsimp only at hafter
  have same : findOrder db id = some row → False := by
    intro h
    rw [hfind] at h
    injection h with h
    subst h
    exact hbefore hrow
  by_cases ht : truthy req.status = true
  · simp only [if_pos ht] at hafter
    cases hv : validStatusTransitions order.status with
    | none =>
      rw [hv] at hafter
      exact (same hafter).elim
    | some allowed =>
      rw [hv] at hafter
      dsimp only at hafter
      cases hc : allowed.contains (req.status.getD "") with
      | false =>
        rw [hc] at hafter
        exact (same hafter).elim
      | true =>
        rw [hc] at hafter
        cases hu : order.update
            ⟨req.status, if truthy req.payment_status = true then req.payment_status else none⟩
            now with
        | error e =>
          rw [hu] at hafter
          exact (same hafter).elim
        | ok stored =>
          rw [hu] at hafter
          replace hafter : findOrder (db.putOrder stored) id = some row := hafter
          have hsid : stored.id = id := (Order.update_id hu).trans hid
          rw [findOrder_putOrder_self hfind hsid] at hafter
          injection hafter with hafter
          subst hafter
          have hst := Order.update_status hu
          dsimp only at hst
          cases hr : req.status with
          | none =>
            rw [hr] at ht
            exact absurd ht (by decide)
          | some s =>
            rw [hr] at hst hc
            simp only [Option.getD_some] at hst hc
            have hs : s = "completed" := hst.symm.trans hrow
            subst hs
            exact ⟨validStatusTransitions_completed hv hc, rfl⟩
  · simp only [if_neg ht] at hafter
    cases hu : order.update
        ⟨none, if truthy req.payment_status = true then req.payment_status else none⟩
        now with
    | error e =>
      rw [hu] at hafter
      exact (same hafter).elim
    | ok stored =>
      rw [hu] at hafter
      replace hafter : findOrder (db.putOrder stored) id = some row := hafter
      have hsid : stored.id = id := (Order.update_id hu).trans hid
      rw [findOrder_putOrder_self hfind hsid] at hafter
      injection hafter with hafter
      subst hafter
      have hst := Order.update_status hu
      dsimp only [Option.getD_none] at hst
      exact absurd (hst.symm.trans hrow) hbefore
theorem updateOrderStatus_complete (db : Db) (id : Id) (now : Nat) (order : Order)
    (hfind : findOrder db id = some order) (hproc : order.status = "processing") :
    updateOrderStatus db id ⟨some "completed", none⟩ now =
      (db.putOrder { order with status := "completed", updatedAt := now },
        ⟨200, .updated order.id "completed" order.paymentStatus order.updatedAt⟩) := by
  have ht : truthy (some "completed") = true := by decide
  have hn : truthy (none : Option String) = false := by decide
  have hv : validStatusTransitions "processing" = some ["completed", "cancelled"] := by
    decide
  have hu : order.update ⟨some "completed", none⟩ now =
      .ok { order with status := "completed", updatedAt := now } := by
    simp [Order.update, OrderPatch.valid, orderStatuses, hproc]
  unfold updateOrderStatus
  rw [hfind]
  simp only [ht, hn, hproc, hv, if_true, Bool.false_eq_true, if_false, hu]
  rfl

/-- C30 (amended): `updateOrderStatus` moves an order to status completed only
when the status of the order is processing and the request asks for completed,
which is what the transition table allows; the payment status is not examined
(`Order.canBeCompleted` is not called), and an order in processing is marked
completed whatever its payment status. -/
theorem updateOrderStatus_completes_from_processing (db : Db) (id : Id)
    (req : StatusUpdate) (now : Nat) (order : Order)
    (hfind : findOrder db id = some order) :
    (∀ row : Order, findOrder (updateOrderStatus db id req now).1 id = some row →
      row.status = "completed" → order.status ≠ "completed" →
      order.status = "processing" ∧ req.status = some "completed") ∧
    (order.status = "processing" →
      updateOrderStatus db id ⟨some "completed", none⟩ now =
        (db.putOrder { order with status := "completed", updatedAt := now },
          ⟨200, .updated order.id "completed" order.paymentStatus order.updatedAt⟩)) :=
  ⟨fun row hafter hrow hbefore =>
      updateOrderStatus_completed_from db id req now order row hfind hafter hrow hbefore,
    fun hproc => updateOrderStatus_complete db id now order hfind hproc⟩

/-- Witness of C30 (amended): the unpaid order in processing is moved to
completed by a request for that status. -/
theorem updateOrderStatus_completes_from_processing_witness :
    findOrder processingDb 103 = some processingOrder ∧
    processingOrder.status = "processing" ∧
    findOrder (updateOrderStatus processingDb 103 ⟨some "completed", none⟩ 5).1 103 =
      some { processingOrder with status := "completed", updatedAt := 5 } ∧
    ((∀ row : Order,
        findOrder (updateOrderStatus processingDb 103 ⟨some "completed", none⟩ 5).1 103 =
          some row →
        row.status = "completed" → processingOrder.status ≠ "completed" →
        processingOrder.status = "processing" ∧
          (⟨some "completed", none⟩ : StatusUpdate).status = some "completed") ∧
      (processingOrder.status = "processing" →
        updateOrderStatus processingDb 103 ⟨some "completed", none⟩ 5 =
          (processingDb.putOrder { processingOrder with status := "completed", updatedAt := 5 },
            ⟨200, .updated processingOrder.id "completed" processingOrder.paymentStatus
              processingOrder.updatedAt⟩))) :=
  ⟨by decide, by decide, by decide,
    updateOrderStatus_completes_from_processing processingDb 103 ⟨some "completed", none⟩ 5
      processingOrder (by decide)⟩

/-- C30 as stated fails: an order in processing whose payment is pending, for
which `canBeCompleted` is false, is marked completed by a status update. -/
theorem updateOrderStatus_unpaid_counterexample :
    findOrder processingDb 103 = some processingOrder ∧
    processingOrder.paymentStatus = "pending" ∧
    processingOrder.canBeCompleted = false ∧
    updateOrderStatus processingDb 103 ⟨some "completed", none⟩ 5 =
      (processingDb.putOrder { processingOrder with status := "completed", updatedAt := 5 },
        ⟨200, .updated 103 "completed" "pending" processingOrder.updatedAt⟩) ∧
    (findOrder (updateOrderStatus processingDb 103 ⟨some "completed", none⟩ 5).1 103).map
      (fun o => (o.status, o.paymentStatus)) = some ("completed", "pending") := by
  decide

end Erp
